import Mathlib

/-! # KWayland client: LingmoWindowManagement / LingmoWindow

A shallow embedding of `src/client/lingmowindowmanagement.cpp`.

C++ objects live on a heap and are addressed by pointers; here a pointer to a
`LingmoWindow` is an index into `Heap.windowObjects`, a pointer to a
`StackingOrderData` an index into `Heap.stackingOrders`.  A slot is `none` once
the object has been deleted, and `new` appends a slot, so a fresh pointer never
aliases an older one.  Member functions take the `this` pointer (`self`, or `data`
for the static listener callbacks) and transform the heap; the signals emitted on
the way are returned in emission order.  A signal emission runs the slots that the
window management and the windows connect among themselves (direct connections, in
connection order) before the emitting function continues; the slots of a
`LingmoWindowModel` change only that model and are left out.  An event addressed to an
object that has been deleted is not delivered: the listener functions leave the heap
as it is.
-/

namespace KWayland.Client

/-! ## Qt value types -/

abbrev QString := String

abbrev QByteArray := String

abbrev QStringList := List String

/-- A `QRect` stores its corners, as Qt does. -/
structure QRect where
  x1 : Int := 0
  y1 : Int := 0
  x2 : Int := -1
  y2 : Int := -1
deriving DecidableEq, Repr

/-- Only what the window wrapper does with a `QIcon`: null, or taken from the theme by name. -/
inductive QIcon where
  | null
  | fromTheme (name : QString)
deriving DecidableEq, Repr

/-- A bound protocol object (`wl_proxy`): its identity and the negotiated version. -/
structure WlProxy where
  id : Nat
  version : Nat
deriving DecidableEq, Repr

/-- The values of `enum org_kde_lingmo_window_management_state` (prefix
`ORG_KDE_LINGMO_WINDOW_MANAGEMENT_STATE_`).  The enum is declared in the generated protocol
header, which is not part of the sources, so its values are a parameter of the development. -/
structure StateEnum where
  ACTIVE : Nat
  MINIMIZED : Nat
  MAXIMIZED : Nat
  FULLSCREEN : Nat
  KEEP_ABOVE : Nat
  KEEP_BELOW : Nat
  ON_ALL_DESKTOPS : Nat
  DEMANDS_ATTENTION : Nat
  CLOSEABLE : Nat
  MINIMIZABLE : Nat
  MAXIMIZABLE : Nat
  FULLSCREENABLE : Nat
  SKIPTASKBAR : Nat
  SHADEABLE : Nat
  SHADED : Nat
  MOVABLE : Nat
  RESIZABLE : Nat
  VIRTUAL_DESKTOP_CHANGEABLE : Nat
  SKIPSWITCHER : Nat
deriving DecidableEq, Repr

/-- One bit per enumerator, in declaration order: a sample valuation used to evaluate the
definitions on concrete inputs. -/
def StateEnum.sample : StateEnum :=
  { ACTIVE := 1, MINIMIZED := 2, MAXIMIZED := 4, FULLSCREEN := 8, KEEP_ABOVE := 16,
    KEEP_BELOW := 32, ON_ALL_DESKTOPS := 64, DEMANDS_ATTENTION := 128, CLOSEABLE := 256,
    MINIMIZABLE := 512, MAXIMIZABLE := 1024, FULLSCREENABLE := 2048, SKIPTASKBAR := 4096,
    SHADEABLE := 8192, SHADED := 16384, MOVABLE := 32768, RESIZABLE := 65536,
    VIRTUAL_DESKTOP_CHANGEABLE := 131072, SKIPSWITCHER := 262144 }

/-- The C++ conversion of `state & BIT` (a `uint32_t`) to `bool`. -/
def maskToBool (state bit : Nat) : Bool := (state &&& bit) != 0

/-! ## Signals -/

/-- The signals of `LingmoWindow` (and `QObject::destroyed`). -/
inductive WindowSignal where
  | titleChanged
  | appIdChanged
  | activeChanged
  | fullscreenChanged
  | keepAboveChanged
  | keepBelowChanged
  | minimizedChanged
  | maximizedChanged
  | onAllDesktopsChanged
  | demandsAttentionChanged
  | closeableChanged
  | minimizeableChanged
  | maximizeableChanged
  | fullscreenableChanged
  | skipTaskbarChanged
  | skipSwitcherChanged
  | iconChanged
  | shadeableChanged
  | shadedChanged
  | movableChanged
  | resizableChanged
  | virtualDesktopChangeableChanged
  | unmapped
  | parentWindowChanged
  | geometryChanged
  | resourceNameChanged
  | lingmoVirtualDesktopEntered (id : QString)
  | lingmoVirtualDesktopLeft (id : QString)
  | lingmoActivityEntered (id : QString)
  | lingmoActivityLeft (id : QString)
  | applicationMenuChanged
  | clientGeometryChanged
  | destroyed
deriving DecidableEq, Repr

/-- An emitted signal: one of a `LingmoWindow` (with the emitting object), or one of the
`LingmoWindowManagement`. -/
inductive Signal where
  | window (sender : Nat) (sig : WindowSignal)
  | showingDesktopChanged (showing : Bool)
  | windowCreated (window : Nat)
  | activeWindowChanged
  | stackingOrderUuidsChanged
deriving DecidableEq, Repr

/-! ## Objects -/

/-- The class `LingmoWindow::Private`.  `window` is `none` while the `WaylandPointer` is
null, which it is after `release()` or `destroy()`.  `unmappedSlots` is the part of the
`QObject` connection list of the window that the library grows after construction: the
windows whose `setParentWindow` connected a slot to this window's `unmapped` signal, in
connection order. -/
structure LingmoWindow.Private where
  window : Option WlProxy
  internalId : Nat
  uuid : QByteArray
  title : QString := ""
  appId : QString := ""
  desktop : Nat := 0
  active : Bool := false
  minimized : Bool := false
  maximized : Bool := false
  fullscreen : Bool := false
  keepAbove : Bool := false
  keepBelow : Bool := false
  onAllDesktops : Bool := false
  demandsAttention : Bool := false
  closeable : Bool := false
  minimizeable : Bool := false
  maximizeable : Bool := false
  fullscreenable : Bool := false
  skipTaskbar : Bool := false
  skipSwitcher : Bool := false
  shadeable : Bool := false
  shaded : Bool := false
  movable : Bool := false
  resizable : Bool := false
  virtualDesktopChangeable : Bool := false
  icon : QIcon := QIcon.null
  wm : Bool := false
  unmapped : Bool := false
  parentWindow : Option Nat := none
  parentWindowUnmappedConnection : Option Nat := none
  lingmoVirtualDesktops : QStringList := []
  lingmoActivities : QStringList := []
  geometry : QRect := {}
  pid : Nat := 0
  resourceName : QString := ""
  applicationMenuServiceName : QString := ""
  applicationMenuObjectPath : QString := ""
  clientGeometry : QRect := {}
  unmappedSlots : List Nat := []
deriving DecidableEq, Repr

/-- The struct `StackingOrderData`: `wm` tells whether the `QPointer` to the window management
is still set, `list` is the pending list of the accumulation. -/
structure StackingOrderData where
  wm : Bool
  list : List QByteArray
deriving DecidableEq, Repr

/-- The data members of `LingmoWindowManagement::Private` (the event queue apart). -/
structure LingmoWindowManagement.Private where
  wm : Option WlProxy := none
  showingDesktop : Bool := false
  windows : List Nat := []
  activeWindow : Option Nat := none
  stackingOrder : List Nat := []
  stackingOrderUuids : List QByteArray := []
deriving DecidableEq, Repr

/-- The state of the client: the one `LingmoWindowManagement` and the objects it created. -/
structure Heap where
  d : LingmoWindowManagement.Private := {}
  windowObjects : List (Option LingmoWindow.Private) := []
  stackingOrders : List (Option StackingOrderData) := []
deriving DecidableEq, Repr

/-- What a member function does: the new heap and the signals emitted, in order. -/
abbrev Action := Heap → Heap × List Signal

/-- Dereference a `LingmoWindow *`: `none` for a deleted (or never allocated) object. -/
def Heap.window (s : Heap) (w : Nat) : Option LingmoWindow.Private :=
  s.windowObjects.getD w none

/-- Store the members of the live window `w`. -/
def Heap.setWindow (s : Heap) (w : Nat) (p : LingmoWindow.Private) : Heap :=
  { s with windowObjects := s.windowObjects.set w (some p) }

/-- Dereference a `StackingOrderData *`. -/
def Heap.order (s : Heap) (o : Nat) : Option StackingOrderData :=
  s.stackingOrders.getD o none

/-- Run statements one after the other. -/
def runAll : List Action → Action
  | [], s => (s, [])
  | a :: rest, s =>
    let r := a s
    let r2 := runAll rest r.1
    (r2.1, r.2 ++ r2.2)

/-! ## LingmoWindowManagement: the slots connected in `windowCreated` -/

/-- The lambda `windowRemoved` of `LingmoWindowManagement::Private::windowCreated`, connected to
`QObject::destroyed` and to `LingmoWindow::unmapped` of `window`.  `removeAll` is a filter. -/
def LingmoWindowManagement.Private.windowRemoved (window : Nat) : Action := fun s =>
  let s1 : Heap := { s with d := { s.d with windows := s.d.windows.filter (fun w => w != window) } }
  if s1.d.activeWindow = some window then
    ({ s1 with d := { s1.d with activeWindow := none } }, [Signal.activeWindowChanged])
  else
    (s1, [])

/-- The lambda of `LingmoWindowManagement::Private::windowCreated` connected to
`LingmoWindow::activeChanged` of `window`. -/
def LingmoWindowManagement.Private.activeChangedSlot (window : Nat) : Action := fun s =>
  match s.window window with
  | none => (s, [])
  | some p =>
    if p.unmapped then
      (s, [])
    else if p.active then
      if s.d.activeWindow = some window then
        (s, [])
      else
        ({ s with d := { s.d with activeWindow := some window } }, [Signal.activeWindowChanged])
    else
      if s.d.activeWindow = some window then
        ({ s with d := { s.d with activeWindow := none } }, [Signal.activeWindowChanged])
      else
        (s, [])

/-- The statement `Q_EMIT q->sig()` for a signal of `LingmoWindow` to which the library connects
no slot of its own: the emission is recorded, nothing else happens. -/
def LingmoWindow.emit (self : Nat) (sig : WindowSignal) : Action := fun s =>
  (s, [Signal.window self sig])

/-- The statement `Q_EMIT q->activeChanged()`: the emission, then the connected slot. -/
def LingmoWindow.emitActiveChanged (self : Nat) : Action := fun s =>
  let r := LingmoWindowManagement.Private.activeChangedSlot self s
  (r.1, Signal.window self WindowSignal.activeChanged :: r.2)

/-! ## LingmoWindow::Private: the setters of the boolean state -/

/-- The member function `LingmoWindow::Private::setActive`. -/
def LingmoWindow.Private.setActive (self : Nat) (set : Bool) : Action := fun s =>
  match s.window self with
  | none => (s, [])
  | some p =>
    if p.active = set then
      (s, [])
    else
      LingmoWindow.emitActiveChanged self (s.setWindow self { p with active := set })

/-- The member function `LingmoWindow::Private::setFullscreen`. -/
def LingmoWindow.Private.setFullscreen (self : Nat) (set : Bool) : Action := fun s =>
  match s.window self with
  | none => (s, [])
  | some p =>
    if p.fullscreen = set then
      (s, [])
    else
      LingmoWindow.emit self WindowSignal.fullscreenChanged
        (s.setWindow self { p with fullscreen := set })

/-- The member function `LingmoWindow::Private::setKeepAbove`. -/
def LingmoWindow.Private.setKeepAbove (self : Nat) (set : Bool) : Action := fun s =>
  match s.window self with
  | none => (s, [])
  | some p =>
    if p.keepAbove = set then
      (s, [])
    else
      LingmoWindow.emit self WindowSignal.keepAboveChanged
        (s.setWindow self { p with keepAbove := set })

/-- The member function `LingmoWindow::Private::setKeepBelow`. -/
def LingmoWindow.Private.setKeepBelow (self : Nat) (set : Bool) : Action := fun s =>
  match s.window self with
  | none => (s, [])
  | some p =>
    if p.keepBelow = set then
      (s, [])
    else
      LingmoWindow.emit self WindowSignal.keepBelowChanged
        (s.setWindow self { p with keepBelow := set })

/-- The member function `LingmoWindow::Private::setMaximized`. -/
def LingmoWindow.Private.setMaximized (self : Nat) (set : Bool) : Action := fun s =>
  match s.window self with
  | none => (s, [])
  | some p =>
    if p.maximized = set then
      (s, [])
    else
      LingmoWindow.emit self WindowSignal.maximizedChanged
        (s.setWindow self { p with maximized := set })

/-- The member function `LingmoWindow::Private::setMinimized`. -/
def LingmoWindow.Private.setMinimized (self : Nat) (set : Bool) : Action := fun s =>
  match s.window self with
  | none => (s, [])
  | some p =>
    if p.minimized = set then
      (s, [])
    else
      LingmoWindow.emit self WindowSignal.minimizedChanged
        (s.setWindow self { p with minimized := set })

/-- The member function `LingmoWindow::Private::setOnAllDesktops`. -/
def LingmoWindow.Private.setOnAllDesktops (self : Nat) (set : Bool) : Action := fun s =>
  match s.window self with
  | none => (s, [])
  | some p =>
    if p.onAllDesktops = set then
      (s, [])
    else
      LingmoWindow.emit self WindowSignal.onAllDesktopsChanged
        (s.setWindow self { p with onAllDesktops := set })

/-- The member function `LingmoWindow::Private::setDemandsAttention`. -/
def LingmoWindow.Private.setDemandsAttention (self : Nat) (set : Bool) : Action := fun s =>
  match s.window self with
  | none => (s, [])
  | some p =>
    if p.demandsAttention = set then
      (s, [])
    else
      LingmoWindow.emit self WindowSignal.demandsAttentionChanged
        (s.setWindow self { p with demandsAttention := set })

/-- The member function `LingmoWindow::Private::setCloseable`. -/
def LingmoWindow.Private.setCloseable (self : Nat) (set : Bool) : Action := fun s =>
  match s.window self with
  | none => (s, [])
  | some p =>
    if p.closeable = set then
      (s, [])
    else
      LingmoWindow.emit self WindowSignal.closeableChanged
        (s.setWindow self { p with closeable := set })

/-- The member function `LingmoWindow::Private::setFullscreenable`. -/
def LingmoWindow.Private.setFullscreenable (self : Nat) (set : Bool) : Action := fun s =>
  match s.window self with
  | none => (s, [])
  | some p =>
    if p.fullscreenable = set then
      (s, [])
    else
      LingmoWindow.emit self WindowSignal.fullscreenableChanged
        (s.setWindow self { p with fullscreenable := set })

/-- The member function `LingmoWindow::Private::setMaximizeable`. -/
def LingmoWindow.Private.setMaximizeable (self : Nat) (set : Bool) : Action := fun s =>
  match s.window self with
  | none => (s, [])
  | some p =>
    if p.maximizeable = set then
      (s, [])
    else
      LingmoWindow.emit self WindowSignal.maximizeableChanged
        (s.setWindow self { p with maximizeable := set })

/-- The member function `LingmoWindow::Private::setMinimizeable`. -/
def LingmoWindow.Private.setMinimizeable (self : Nat) (set : Bool) : Action := fun s =>
  match s.window self with
  | none => (s, [])
  | some p =>
    if p.minimizeable = set then
      (s, [])
    else
      LingmoWindow.emit self WindowSignal.minimizeableChanged
        (s.setWindow self { p with minimizeable := set })

/-- The member function `LingmoWindow::Private::setSkipTaskbar`. -/
def LingmoWindow.Private.setSkipTaskbar (self : Nat) (skip : Bool) : Action := fun s =>
  match s.window self with
  | none => (s, [])
  | some p =>
    if p.skipTaskbar = skip then
      (s, [])
    else
      LingmoWindow.emit self WindowSignal.skipTaskbarChanged
        (s.setWindow self { p with skipTaskbar := skip })

/-- The member function `LingmoWindow::Private::setSkipSwitcher`. -/
def LingmoWindow.Private.setSkipSwitcher (self : Nat) (skip : Bool) : Action := fun s =>
  match s.window self with
  | none => (s, [])
  | some p =>
    if p.skipSwitcher = skip then
      (s, [])
    else
      LingmoWindow.emit self WindowSignal.skipSwitcherChanged
        (s.setWindow self { p with skipSwitcher := skip })

/-- The member function `LingmoWindow::Private::setShadeable`. -/
def LingmoWindow.Private.setShadeable (self : Nat) (set : Bool) : Action := fun s =>
  match s.window self with
  | none => (s, [])
  | some p =>
    if p.shadeable = set then
      (s, [])
    else
      LingmoWindow.emit self WindowSignal.shadeableChanged
        (s.setWindow self { p with shadeable := set })

/-- The member function `LingmoWindow::Private::setShaded`. -/
def LingmoWindow.Private.setShaded (self : Nat) (set : Bool) : Action := fun s =>
  match s.window self with
  | none => (s, [])
  | some p =>
    if p.shaded = set then
      (s, [])
    else
      LingmoWindow.emit self WindowSignal.shadedChanged
        (s.setWindow self { p with shaded := set })

/-- The member function `LingmoWindow::Private::setMovable`. -/
def LingmoWindow.Private.setMovable (self : Nat) (set : Bool) : Action := fun s =>
  match s.window self with
  | none => (s, [])
  | some p =>
    if p.movable = set then
      (s, [])
    else
      LingmoWindow.emit self WindowSignal.movableChanged
        (s.setWindow self { p with movable := set })

/-- The member function `LingmoWindow::Private::setResizable`. -/
def LingmoWindow.Private.setResizable (self : Nat) (set : Bool) : Action := fun s =>
  match s.window self with
  | none => (s, [])
  | some p =>
    if p.resizable = set then
      (s, [])
    else
      LingmoWindow.emit self WindowSignal.resizableChanged
        (s.setWindow self { p with resizable := set })

/-- The member function `LingmoWindow::Private::setVirtualDesktopChangeable`. -/
def LingmoWindow.Private.setVirtualDesktopChangeable (self : Nat) (set : Bool) : Action := fun s =>
  match s.window self with
  | none => (s, [])
  | some p =>
    if p.virtualDesktopChangeable = set then
      (s, [])
    else
      LingmoWindow.emit self WindowSignal.virtualDesktopChangeableChanged
        (s.setWindow self { p with virtualDesktopChangeable := set })

/-- The listener `LingmoWindow::Private::stateChangedCallback`; `data` is the window, `state`
the `uint32_t` mask. -/
def LingmoWindow.Private.stateChangedCallback (B : StateEnum) (data : Nat) (state : Nat) : Action :=
  runAll
    [ LingmoWindow.Private.setActive data (maskToBool state B.ACTIVE),
      LingmoWindow.Private.setMinimized data (maskToBool state B.MINIMIZED),
      LingmoWindow.Private.setMaximized data (maskToBool state B.MAXIMIZED),
      LingmoWindow.Private.setFullscreen data (maskToBool state B.FULLSCREEN),
      LingmoWindow.Private.setKeepAbove data (maskToBool state B.KEEP_ABOVE),
      LingmoWindow.Private.setKeepBelow data (maskToBool state B.KEEP_BELOW),
      LingmoWindow.Private.setOnAllDesktops data (maskToBool state B.ON_ALL_DESKTOPS),
      LingmoWindow.Private.setDemandsAttention data (maskToBool state B.DEMANDS_ATTENTION),
      LingmoWindow.Private.setCloseable data (maskToBool state B.CLOSEABLE),
      LingmoWindow.Private.setFullscreenable data (maskToBool state B.FULLSCREENABLE),
      LingmoWindow.Private.setMaximizeable data (maskToBool state B.MAXIMIZABLE),
      LingmoWindow.Private.setMinimizeable data (maskToBool state B.MINIMIZABLE),
      LingmoWindow.Private.setSkipTaskbar data (maskToBool state B.SKIPTASKBAR),
      LingmoWindow.Private.setSkipSwitcher data (maskToBool state B.SKIPSWITCHER),
      LingmoWindow.Private.setShadeable data (maskToBool state B.SHADEABLE),
      LingmoWindow.Private.setShaded data (maskToBool state B.SHADED),
      LingmoWindow.Private.setMovable data (maskToBool state B.MOVABLE),
      LingmoWindow.Private.setResizable data (maskToBool state B.RESIZABLE),
      LingmoWindow.Private.setVirtualDesktopChangeable data
        (maskToBool state B.VIRTUAL_DESKTOP_CHANGEABLE) ]

/-! ## LingmoWindow::Private: parent window, unmapping, deletion -/

/-- The statement `QObject::disconnect(parentWindowUnmappedConnection)` of `setParentWindow`:
the slot of `self` leaves the connection list of the window it was connected to, if that window
still exists.  The handle itself is overwritten by the caller. -/
def LingmoWindow.Private.disconnectParentWindowUnmapped (self : Nat) (s : Heap) : Heap :=
  match s.window self with
  | none => s
  | some p =>
    match p.parentWindowUnmappedConnection with
    | none => s
    | some sender =>
      match s.window sender with
      | none => s
      | some ps => s.setWindow sender { ps with unmappedSlots := ps.unmappedSlots.erase self }

/-- The statement `QObject::connect(parent, &LingmoWindow::unmapped, q, ...)` of `setParentWindow`:
the slot of `self` is appended to the connection list of `parent`. -/
def LingmoWindow.Private.connectParentWindowUnmapped (self parent : Nat) (s : Heap) : Heap :=
  match s.window parent with
  | none => s
  | some pp => s.setWindow parent { pp with unmappedSlots := pp.unmappedSlots ++ [self] }

/-- The condition `parent && !parent->d->unmapped` of `setParentWindow`: the parent when the
condition holds, `none` when it fails.  The callers pass `nullptr` or an element of `windows()`;
a pointer to a deleted object is treated like `nullptr`. -/
def LingmoWindow.Private.mappedParent (s : Heap) : Option Nat → Option Nat
  | none => none
  | some parent =>
    match s.window parent with
    | none => none
    | some pp => if pp.unmapped then none else some parent

/-- Assign data members of the window `w`, if it exists. -/
def Heap.modifyWindow (s : Heap) (w : Nat) (f : LingmoWindow.Private → LingmoWindow.Private) :
    Heap :=
  match s.window w with
  | none => s
  | some p => s.setWindow w (f p)

/-- The accessor `LingmoWindow::parentWindow`, `none` for a null `QPointer`. -/
def LingmoWindow.parentWindow (s : Heap) (w : Nat) : Option Nat :=
  match s.window w with
  | none => none
  | some p => p.parentWindow

/-- The member function `LingmoWindow::Private::setParentWindow`; `parent` is `none` for
`nullptr`. -/
def LingmoWindow.Private.setParentWindow (self : Nat) (parent : Option Nat) : Action := fun s =>
  match s.window self with
  | none => (s, [])
  | some _ =>
    let old := LingmoWindow.parentWindow s self
    let s1 := LingmoWindow.Private.disconnectParentWindowUnmapped self s
    let s2 :=
      match LingmoWindow.Private.mappedParent s1 parent with
      | some q =>
        LingmoWindow.Private.connectParentWindowUnmapped self q
          (s1.modifyWindow self (fun p =>
            { p with parentWindow := some q, parentWindowUnmappedConnection := some q }))
      | none =>
        s1.modifyWindow self (fun p =>
          { p with parentWindow := none, parentWindowUnmappedConnection := none })
    if LingmoWindow.parentWindow s2 self ≠ old then
      LingmoWindow.emit self WindowSignal.parentWindowChanged s2
    else
      (s2, [])

/-- The first element of `windows()` that wraps the protocol object `parent`
(`std::find_if` with `*w == parent`, which compares the handle `d->window` of `w` with
`parent`); `none` is the null handle, on either side of the comparison. -/
def LingmoWindowManagement.findWindow (s : Heap) (parent : Option WlProxy) : Option Nat :=
  s.d.windows.find? (fun w =>
    match s.window w with
    | none => false
    | some p => p.window = parent)

/-- The listener `LingmoWindow::Private::parentWindowCallback`. -/
def LingmoWindow.Private.parentWindowCallback (data : Nat) (parent : Option WlProxy) :
    Action := fun s =>
  match s.window data with
  | none => (s, [])
  | some _ =>
    LingmoWindow.Private.setParentWindow data (LingmoWindowManagement.findWindow s parent) s

/-- The statement `Q_EMIT p->q->unmapped()`: the emission, then the connected slots in connection
order: `windowRemoved`, connected when the window was created, then the slots that child
windows connected in `setParentWindow`, each of which calls `setParentWindow(nullptr)`. -/
def LingmoWindow.emitUnmapped (self : Nat) : Action := fun s =>
  let children : List Nat :=
    match s.window self with
    | none => []
    | some p => p.unmappedSlots
  let r := runAll
    (LingmoWindowManagement.Private.windowRemoved self ::
      children.map (fun c => LingmoWindow.Private.setParentWindow c none)) s
  (r.1, Signal.window self WindowSignal.unmapped :: r.2)

/-- The listener `LingmoWindow::Private::unmappedCallback`.  `deleteLater` only schedules the
deletion, which is the separate step `LingmoWindow.destructor`. -/
def LingmoWindow.Private.unmappedCallback (data : Nat) : Action := fun s =>
  match s.window data with
  | none => (s, [])
  | some p => LingmoWindow.emitUnmapped data (s.setWindow data { p with unmapped := true })

/-- The deletion of a `LingmoWindow` (the deferred deletion after `unmapped`, or any other
`delete`): `QObject::destroyed` is emitted and runs `windowRemoved`, the object leaves the heap,
every `QPointer` to it becomes null and its slot leaves the connection list it was in. -/
def LingmoWindow.destructor (self : Nat) : Action := fun s =>
  match s.window self with
  | none => (s, [])
  | some _ =>
    let r := LingmoWindowManagement.Private.windowRemoved self s
    let s1 := LingmoWindow.Private.disconnectParentWindowUnmapped self r.1
    let objs := (s1.windowObjects.set self none).map (fun o =>
      match o with
      | none => none
      | some p => if p.parentWindow = some self then some { p with parentWindow := none } else some p)
    ({ s1 with windowObjects := objs }, Signal.window self WindowSignal.destroyed :: r.2)

/-- The member function `LingmoWindow::release`, as far as the members go: the
`WaylandPointer` `d->window` is null afterwards.  The window stays in `windows()`. -/
def LingmoWindow.release (self : Nat) (s : Heap) : Heap :=
  s.modifyWindow self (fun p => { p with window := none })

/-- The member function `LingmoWindow::destroy`, as far as the members go: the
`WaylandPointer` `d->window` is null afterwards.  The window stays in `windows()`. -/
def LingmoWindow.destroy (self : Nat) (s : Heap) : Heap :=
  s.modifyWindow self (fun p => { p with window := none })

/-- The member function `LingmoWindow::isValid`; `false` stands in for an object that does not
exist. -/
def LingmoWindow.isValid (s : Heap) (w : Nat) : Bool :=
  match s.window w with
  | none => false
  | some p => p.window.isSome

/-! ## LingmoWindowManagement::Private -/

/-- The member function `LingmoWindowManagement::Private::windowCreated`, run by the single-shot
timer that `windowCallback` and `windowWithUuidCallback` start; `id` is the protocol object
obtained by that lambda.  The result is `none` when the assertion `!uuid.isEmpty()` of the
`LingmoWindow::Private` constructor fails.  The new window is at `s.windowObjects.length`. -/
def LingmoWindowManagement.Private.windowCreated (id : WlProxy) (internalId : Nat)
    (uuid : QByteArray) (s : Heap) : Option (Heap × List Signal) :=
  if uuid = "" then
    none
  else
    let window := s.windowObjects.length
    let p : LingmoWindow.Private :=
      { window := some id, internalId := internalId, uuid := uuid, wm := true }
    some ({ s with
            windowObjects := s.windowObjects ++ [some p],
            d := { s.d with windows := s.d.windows ++ [window] } }, [])

/-- The member function `LingmoWindowManagement::Private::setStackingOrder(const QList<QByteArray> &)`. -/
def LingmoWindowManagement.Private.setStackingOrder (uuids : List QByteArray) : Action := fun s =>
  if s.d.stackingOrderUuids = uuids then
    (s, [])
  else
    ({ s with d := { s.d with stackingOrderUuids := uuids } }, [Signal.stackingOrderUuidsChanged])

/-- The pieces of a character sequence between the occurrences of `sep`. -/
def splitChars (sep : Char) : List Char → List (List Char)
  | [] => [[]]
  | c :: cs =>
    if c = sep then
      [] :: splitChars sep cs
    else
      match splitChars sep cs with
      | [] => [[c]]
      | x :: xs => (c :: x) :: xs

/-- The Qt function `QByteArray::split`. -/
def QByteArray.split (b : QByteArray) (sep : Char) : List QByteArray :=
  (splitChars sep b.toList).map String.mk

/-- The listener `LingmoWindowManagement::Private::stackingOrderCallback`, a no-op. -/
def LingmoWindowManagement.Private.stackingOrderCallback (_ids : List Nat) : Action := fun s =>
  (s, [])

/-- The listener `LingmoWindowManagement::Private::stackingOrderUuidsCallback`. -/
def LingmoWindowManagement.Private.stackingOrderUuidsCallback (uuids : QByteArray) : Action :=
  LingmoWindowManagement.Private.setStackingOrder (QByteArray.split uuids ';')

/-- The expression `new StackingOrderData{.wm = this, .list = {}}`, registered as listener data
of a fresh `org_kde_lingmo_stacking_order` object.  The new object is at
`s.stackingOrders.length`. -/
def StackingOrderData.create (s : Heap) : Heap :=
  { s with stackingOrders := s.stackingOrders ++ [some { wm := true, list := [] }] }

/-- The listener `LingmoWindowManagement::Private::stackingOrder2Callback`. -/
def LingmoWindowManagement.Private.stackingOrder2Callback : Action := fun s =>
  (StackingOrderData.create s, [])

/-- The listener `LingmoWindowManagement::Private::stackingOrderWindow`; `data` is the
`StackingOrderData`. -/
def LingmoWindowManagement.Private.stackingOrderWindow (data : Nat) (uuid : QByteArray) : Action :=
  fun s =>
    match s.order data with
    | none => (s, [])
    | some order =>
      ({ s with stackingOrders :=
          s.stackingOrders.set data (some { order with list := order.list ++ [uuid] }) }, [])

/-- The listener `LingmoWindowManagement::Private::stackingOrderDone`. -/
def LingmoWindowManagement.Private.stackingOrderDone (data : Nat) : Action := fun s =>
  match s.order data with
  | none => (s, [])
  | some order =>
    let r :=
      if order.wm then LingmoWindowManagement.Private.setStackingOrder order.list s else (s, [])
    ({ r.1 with stackingOrders := r.1.stackingOrders.set data none }, r.2)

/-- The member function `LingmoWindowManagement::Private::setup`.  `sinceVersion` is
`ORG_KDE_LINGMO_WINDOW_MANAGEMENT_GET_STACKING_ORDER_SINCE_VERSION`, a constant of the generated
protocol header.  The result is `none` when the assertion `!wm` fails. -/
def LingmoWindowManagement.Private.setup (sinceVersion : Nat) (windowManagement : WlProxy)
    (s : Heap) : Option (Heap × List Signal) :=
  match s.d.wm with
  | some _ => none
  | none =>
    let s1 : Heap := { s with d := { s.d with wm := some windowManagement } }
    if windowManagement.version ≥ sinceVersion then
      some (StackingOrderData.create s1, [])
    else
      some (s1, [])

/-! ## Events -/

/-- The protocol constants the listeners depend on. -/
structure Protocol where
  state : StateEnum
  GET_STACKING_ORDER_SINCE_VERSION : Nat
deriving DecidableEq, Repr

/-- What the event loop delivers to the window management and to the objects it created. -/
inductive Event where
  | setup (windowManagement : WlProxy)
  | windowCreated (id : WlProxy) (internalId : Nat) (uuid : QByteArray)
  | stateChanged (window : Nat) (state : Nat)
  | parentWindow (window : Nat) (parent : Option WlProxy)
  | unmapped (window : Nat)
  | destroyed (window : Nat)
  | stackingOrder (ids : List Nat)
  | stackingOrderUuids (uuids : QByteArray)
  | stackingOrder2
  | stackingOrderWindow (order : Nat) (uuid : QByteArray)
  | stackingOrderDone (order : Nat)
deriving DecidableEq, Repr

/-- Handle one event; `none` when an assertion of the code fails. -/
def step (P : Protocol) (s : Heap) : Event → Option (Heap × List Signal)
  | Event.setup wm => LingmoWindowManagement.Private.setup P.GET_STACKING_ORDER_SINCE_VERSION wm s
  | Event.windowCreated id internalId uuid =>
    LingmoWindowManagement.Private.windowCreated id internalId uuid s
  | Event.stateChanged w state => some (LingmoWindow.Private.stateChangedCallback P.state w state s)
  | Event.parentWindow w parent => some (LingmoWindow.Private.parentWindowCallback w parent s)
  | Event.unmapped w => some (LingmoWindow.Private.unmappedCallback w s)
  | Event.destroyed w => some (LingmoWindow.destructor w s)
  | Event.stackingOrder ids => some (LingmoWindowManagement.Private.stackingOrderCallback ids s)
  | Event.stackingOrderUuids uuids =>
    some (LingmoWindowManagement.Private.stackingOrderUuidsCallback uuids s)
  | Event.stackingOrder2 => some (LingmoWindowManagement.Private.stackingOrder2Callback s)
  | Event.stackingOrderWindow o uuid =>
    some (LingmoWindowManagement.Private.stackingOrderWindow o uuid s)
  | Event.stackingOrderDone o => some (LingmoWindowManagement.Private.stackingOrderDone o s)

/-- Handle a sequence of events, collecting the signals. -/
def run (P : Protocol) : Heap → List Event → Option (Heap × List Signal)
  | s, [] => some (s, [])
  | s, e :: es =>
    match step P s e with
    | none => none
    | some r =>
      match run P r.1 es with
      | none => none
      | some r2 => some (r2.1, r.2 ++ r2.2)

/-- The client right after construction of the `LingmoWindowManagement`. -/
def Heap.initial : Heap := {}

/-- The accessor `LingmoWindowManagement::windows`. -/
def LingmoWindowManagement.windows (s : Heap) : List Nat := s.d.windows

/-- The accessor `LingmoWindowManagement::activeWindow`. -/
def LingmoWindowManagement.activeWindow (s : Heap) : Option Nat := s.d.activeWindow

/-- The accessor `LingmoWindowManagement::stackingOrderUuids`. -/
def LingmoWindowManagement.stackingOrderUuids (s : Heap) : List QByteArray := s.d.stackingOrderUuids

/-- The accessor `LingmoWindow::isActive`; `false` stands in for an object that does not exist. -/
def LingmoWindow.isActive (s : Heap) (w : Nat) : Bool :=
  match s.window w with
  | none => false
  | some p => p.active

/-! ## The boolean state flags, for stating properties of `stateChanged` -/

/-- The 19 boolean state flags of a window. -/
inductive StateFlag where
  | active
  | minimized
  | maximized
  | fullscreen
  | keepAbove
  | keepBelow
  | onAllDesktops
  | demandsAttention
  | closeable
  | fullscreenable
  | maximizeable
  | minimizeable
  | skipTaskbar
  | skipSwitcher
  | shadeable
  | shaded
  | movable
  | resizable
  | virtualDesktopChangeable
deriving DecidableEq, Repr

/-- The cached value of a flag: the data member of `LingmoWindow::Private` of that name. -/
def StateFlag.cached (p : LingmoWindow.Private) : StateFlag → Bool
  | StateFlag.active => p.active
  | StateFlag.minimized => p.minimized
  | StateFlag.maximized => p.maximized
  | StateFlag.fullscreen => p.fullscreen
  | StateFlag.keepAbove => p.keepAbove
  | StateFlag.keepBelow => p.keepBelow
  | StateFlag.onAllDesktops => p.onAllDesktops
  | StateFlag.demandsAttention => p.demandsAttention
  | StateFlag.closeable => p.closeable
  | StateFlag.fullscreenable => p.fullscreenable
  | StateFlag.maximizeable => p.maximizeable
  | StateFlag.minimizeable => p.minimizeable
  | StateFlag.skipTaskbar => p.skipTaskbar
  | StateFlag.skipSwitcher => p.skipSwitcher
  | StateFlag.shadeable => p.shadeable
  | StateFlag.shaded => p.shaded
  | StateFlag.movable => p.movable
  | StateFlag.resizable => p.resizable
  | StateFlag.virtualDesktopChangeable => p.virtualDesktopChangeable

/-- The protocol bit of a flag: the enumerator of that name. -/
def StateFlag.bit (B : StateEnum) : StateFlag → Nat
  | StateFlag.active => B.ACTIVE
  | StateFlag.minimized => B.MINIMIZED
  | StateFlag.maximized => B.MAXIMIZED
  | StateFlag.fullscreen => B.FULLSCREEN
  | StateFlag.keepAbove => B.KEEP_ABOVE
  | StateFlag.keepBelow => B.KEEP_BELOW
  | StateFlag.onAllDesktops => B.ON_ALL_DESKTOPS
  | StateFlag.demandsAttention => B.DEMANDS_ATTENTION
  | StateFlag.closeable => B.CLOSEABLE
  | StateFlag.fullscreenable => B.FULLSCREENABLE
  | StateFlag.maximizeable => B.MAXIMIZABLE
  | StateFlag.minimizeable => B.MINIMIZABLE
  | StateFlag.skipTaskbar => B.SKIPTASKBAR
  | StateFlag.skipSwitcher => B.SKIPSWITCHER
  | StateFlag.shadeable => B.SHADEABLE
  | StateFlag.shaded => B.SHADED
  | StateFlag.movable => B.MOVABLE
  | StateFlag.resizable => B.RESIZABLE
  | StateFlag.virtualDesktopChangeable => B.VIRTUAL_DESKTOP_CHANGEABLE

/-- The change signal of a flag: the signal of `LingmoWindow` of that name. -/
def StateFlag.changed : StateFlag → WindowSignal
  | StateFlag.active => WindowSignal.activeChanged
  | StateFlag.minimized => WindowSignal.minimizedChanged
  | StateFlag.maximized => WindowSignal.maximizedChanged
  | StateFlag.fullscreen => WindowSignal.fullscreenChanged
  | StateFlag.keepAbove => WindowSignal.keepAboveChanged
  | StateFlag.keepBelow => WindowSignal.keepBelowChanged
  | StateFlag.onAllDesktops => WindowSignal.onAllDesktopsChanged
  | StateFlag.demandsAttention => WindowSignal.demandsAttentionChanged
  | StateFlag.closeable => WindowSignal.closeableChanged
  | StateFlag.fullscreenable => WindowSignal.fullscreenableChanged
  | StateFlag.maximizeable => WindowSignal.maximizeableChanged
  | StateFlag.minimizeable => WindowSignal.minimizeableChanged
  | StateFlag.skipTaskbar => WindowSignal.skipTaskbarChanged
  | StateFlag.skipSwitcher => WindowSignal.skipSwitcherChanged
  | StateFlag.shadeable => WindowSignal.shadeableChanged
  | StateFlag.shaded => WindowSignal.shadedChanged
  | StateFlag.movable => WindowSignal.movableChanged
  | StateFlag.resizable => WindowSignal.resizableChanged
  | StateFlag.virtualDesktopChangeable => WindowSignal.virtualDesktopChangeableChanged

/-- The members of a window after every flag has been set from its bit of `state`. -/
def LingmoWindow.Private.decoded (B : StateEnum) (state : Nat) (p : LingmoWindow.Private) :
    LingmoWindow.Private :=
  { p with
    active := maskToBool state B.ACTIVE,
    minimized := maskToBool state B.MINIMIZED,
    maximized := maskToBool state B.MAXIMIZED,
    fullscreen := maskToBool state B.FULLSCREEN,
    keepAbove := maskToBool state B.KEEP_ABOVE,
    keepBelow := maskToBool state B.KEEP_BELOW,
    onAllDesktops := maskToBool state B.ON_ALL_DESKTOPS,
    demandsAttention := maskToBool state B.DEMANDS_ATTENTION,
    closeable := maskToBool state B.CLOSEABLE,
    fullscreenable := maskToBool state B.FULLSCREENABLE,
    maximizeable := maskToBool state B.MAXIMIZABLE,
    minimizeable := maskToBool state B.MINIMIZABLE,
    skipTaskbar := maskToBool state B.SKIPTASKBAR,
    skipSwitcher := maskToBool state B.SKIPSWITCHER,
    shadeable := maskToBool state B.SHADEABLE,
    shaded := maskToBool state B.SHADED,
    movable := maskToBool state B.MOVABLE,
    resizable := maskToBool state B.RESIZABLE,
    virtualDesktopChangeable := maskToBool state B.VIRTUAL_DESKTOP_CHANGEABLE }

/-- The heap with another active window. -/
def Heap.withActiveWindow (s : Heap) (a : Option Nat) : Heap :=
  { s with d := { s.d with activeWindow := a } }

/-- The active window the `activeChanged` slot leaves behind when the `active` flag of the
window `w` (cached members `p`) is set to `set`. -/
def activeWindowAfter (s : Heap) (w : Nat) (p : LingmoWindow.Private) (set : Bool) : Option Nat :=
  if p.active = set then s.d.activeWindow
  else if p.unmapped then s.d.activeWindow
  else if set then some w
  else if s.d.activeWindow = some w then none
  else s.d.activeWindow

/-- The signals of one `stateChanged` event on the window `w` with cached members `p`. -/
def stateChangedSignals (B : StateEnum) (s : Heap) (w : Nat) (p : LingmoWindow.Private)
    (state : Nat) : List Signal :=
  (if p.active = maskToBool state B.ACTIVE then []
   else [Signal.window w WindowSignal.activeChanged]) ++
  (if activeWindowAfter s w p (maskToBool state B.ACTIVE) = s.d.activeWindow then []
   else [Signal.activeWindowChanged]) ++
  (if p.minimized = maskToBool state B.MINIMIZED then [] else [Signal.window w WindowSignal.minimizedChanged]) ++
  (if p.maximized = maskToBool state B.MAXIMIZED then [] else [Signal.window w WindowSignal.maximizedChanged]) ++
  (if p.fullscreen = maskToBool state B.FULLSCREEN then [] else [Signal.window w WindowSignal.fullscreenChanged]) ++
  (if p.keepAbove = maskToBool state B.KEEP_ABOVE then [] else [Signal.window w WindowSignal.keepAboveChanged]) ++
  (if p.keepBelow = maskToBool state B.KEEP_BELOW then [] else [Signal.window w WindowSignal.keepBelowChanged]) ++
  (if p.onAllDesktops = maskToBool state B.ON_ALL_DESKTOPS then [] else [Signal.window w WindowSignal.onAllDesktopsChanged]) ++
  (if p.demandsAttention = maskToBool state B.DEMANDS_ATTENTION then [] else [Signal.window w WindowSignal.demandsAttentionChanged]) ++
  (if p.closeable = maskToBool state B.CLOSEABLE then [] else [Signal.window w WindowSignal.closeableChanged]) ++
  (if p.fullscreenable = maskToBool state B.FULLSCREENABLE then [] else [Signal.window w WindowSignal.fullscreenableChanged]) ++
  (if p.maximizeable = maskToBool state B.MAXIMIZABLE then [] else [Signal.window w WindowSignal.maximizeableChanged]) ++
  (if p.minimizeable = maskToBool state B.MINIMIZABLE then [] else [Signal.window w WindowSignal.minimizeableChanged]) ++
  (if p.skipTaskbar = maskToBool state B.SKIPTASKBAR then [] else [Signal.window w WindowSignal.skipTaskbarChanged]) ++
  (if p.skipSwitcher = maskToBool state B.SKIPSWITCHER then [] else [Signal.window w WindowSignal.skipSwitcherChanged]) ++
  (if p.shadeable = maskToBool state B.SHADEABLE then [] else [Signal.window w WindowSignal.shadeableChanged]) ++
  (if p.shaded = maskToBool state B.SHADED then [] else [Signal.window w WindowSignal.shadedChanged]) ++
  (if p.movable = maskToBool state B.MOVABLE then [] else [Signal.window w WindowSignal.movableChanged]) ++
  (if p.resizable = maskToBool state B.RESIZABLE then [] else [Signal.window w WindowSignal.resizableChanged]) ++
  (if p.virtualDesktopChangeable = maskToBool state B.VIRTUAL_DESKTOP_CHANGEABLE then [] else [Signal.window w WindowSignal.virtualDesktopChangeableChanged])

/-! ## Auxiliary notions for the proofs about the registry -/

/-- What the registry reads of a window: the `active` flag and the `unmapped` flag. -/
def LingmoWindow.Private.status (p : LingmoWindow.Private) : Bool × Bool :=
  (p.active, p.unmapped)

/-- The heap `t` differs from `s` at most in the parent-window members (`parentWindow`,
`parentWindowUnmappedConnection`, `unmappedSlots`) of live windows. -/
def Heap.SameStatus (s t : Heap) : Prop :=
  t.d = s.d ∧ t.stackingOrders = s.stackingOrders ∧
    t.windowObjects.length = s.windowObjects.length ∧
    ∀ v : Nat, (t.window v).map LingmoWindow.Private.status =
      (s.window v).map LingmoWindow.Private.status

/-- The invariant of the registry: every live window that is not unmapped is in `windows()`,
and the active window, if any, is live, not unmapped and has its `active` flag set. -/
def Heap.ActiveWindowInv (s : Heap) : Prop :=
  (∀ (w : Nat) (p : LingmoWindow.Private),
      s.window w = some p → p.unmapped = false → w ∈ s.d.windows) ∧
    ∀ a : Nat, s.d.activeWindow = some a →
      ∃ p : LingmoWindow.Private, s.window a = some p ∧ p.unmapped = false ∧ p.active = true

/-! ## Concrete data for evaluating the definitions -/

/-- Sample protocol constants. -/
def Protocol.sample : Protocol :=
  { state := StateEnum.sample, GET_STACKING_ORDER_SINCE_VERSION := 17 }

/-- Two window-creation events that carry the same id and uuid. -/
def sampleSameIdentityTwice : List Event :=
  [Event.windowCreated { id := 7, version := 16 } 1 "u",
   Event.windowCreated { id := 8, version := 16 } 1 "u"]

/-- The identities (id, uuid) of the windows in `windows()`, in order. -/
def LingmoWindowManagement.identities (s : Heap) : List (Nat × QByteArray) :=
  s.d.windows.filterMap (fun w =>
    match s.window w with
    | none => none
    | some p => some (p.internalId, p.uuid))

/-- The members of a window `A` right after its creation. -/
def sampleWindowA : LingmoWindow.Private :=
  { window := some { id := 7, version := 16 }, internalId := 1, uuid := "a", wm := true }

/-- The members of a window `B` right after its creation. -/
def sampleWindowB : LingmoWindow.Private :=
  { window := some { id := 8, version := 16 }, internalId := 2, uuid := "b", wm := true }

/-- The heap after the creation of the windows `A` (pointer 0) and `B` (pointer 1). -/
def sampleTwoWindows : Heap :=
  { d := { windows := [0, 1] }, windowObjects := [some sampleWindowA, some sampleWindowB] }

/-- The heap in which `A` is active and is the active window, and `B` is not active. -/
def sampleActiveA : Heap :=
  { d := { windows := [0, 1], activeWindow := some 0 },
    windowObjects := [some { sampleWindowA with active := true }, some sampleWindowB] }

/-- The events: `A` and `B` are created, `A` becomes active, `B` becomes active, `B` becomes
inactive. -/
def sampleActivations : List Event :=
  [Event.windowCreated { id := 7, version := 16 } 1 "a",
   Event.windowCreated { id := 8, version := 16 } 2 "b",
   Event.stateChanged 0 1,
   Event.stateChanged 1 1,
   Event.stateChanged 1 0]

/-- The window `w` has been allocated, is not the active window, and is unmapped if it still
exists: the state of a window from its `unmapped` event on. -/
def Heap.Retired (s : Heap) (w : Nat) : Prop :=
  w < s.windowObjects.length ∧ s.d.activeWindow ≠ some w ∧
    ∀ p : LingmoWindow.Private, s.window w = some p → p.unmapped = true

/-- The uuid that the event appends to the pending list of the stacking-order object `o`,
if it is a `window` event of that object. -/
def Event.appendedTo (o : Nat) : Event → Option QByteArray
  | Event.stackingOrderWindow o1 uuid => if o1 = o then some uuid else none
  | _ => none

/-- A heap with a fresh, empty stacking-order accumulation at pointer 0 and the published
list `["x", "y"]`. -/
def sampleAccumulating : Heap :=
  { d := { stackingOrderUuids := ["x", "y"] },
    stackingOrders := [some { wm := true, list := [] }] }

/-- Appends to the new accumulation (pointer 1) interleaved with an append to the earlier one
(pointer 0). -/
def sampleInterleaved : List Event :=
  [Event.stackingOrderWindow 1 "x", Event.stackingOrderWindow 0 "old",
   Event.stackingOrderWindow 1 "y"]

/-- The heap after `sampleAccumulating` has handled a begin and then `sampleInterleaved`. -/
def sampleInterleavedResult : Heap :=
  { d := { stackingOrderUuids := ["x", "y"] },
    stackingOrders := [some { wm := true, list := ["old"] }, some { wm := true, list := ["x", "y"] }] }

/-! ## LingmoWindow: virtual desktops -/

/-- The listener `LingmoWindow::Private::virtualDesktopEnteredCallback`.  The library connects
no slot of its own to the two signals. -/
def LingmoWindow.Private.virtualDesktopEnteredCallback (data : Nat) (id : QString) : Action :=
  fun s =>
    match s.window data with
    | none => (s, [])
    | some p =>
      runAll
        [ LingmoWindow.emit data (WindowSignal.lingmoVirtualDesktopEntered id),
          fun s1 =>
            match s1.window data with
            | none => (s1, [])
            | some p1 =>
              if p1.lingmoVirtualDesktops.length = 1 then
                LingmoWindow.emit data WindowSignal.onAllDesktopsChanged s1
              else
                (s1, []) ]
        (s.setWindow data { p with lingmoVirtualDesktops := p.lingmoVirtualDesktops ++ [id] })

/-- The listener `LingmoWindow::Private::virtualDesktopLeftCallback`; `removeAll` is a filter. -/
def LingmoWindow.Private.virtualDesktopLeftCallback (data : Nat) (id : QString) : Action :=
  fun s =>
    match s.window data with
    | none => (s, [])
    | some p =>
      runAll
        [ LingmoWindow.emit data (WindowSignal.lingmoVirtualDesktopLeft id),
          fun s1 =>
            match s1.window data with
            | none => (s1, [])
            | some p1 =>
              if p1.lingmoVirtualDesktops.isEmpty then
                LingmoWindow.emit data WindowSignal.onAllDesktopsChanged s1
              else
                (s1, []) ]
        (s.setWindow data
          { p with lingmoVirtualDesktops := p.lingmoVirtualDesktops.filter (fun x => x != id) })

/-- The accessor `LingmoWindow::lingmoVirtualDesktops`; the empty list stands in for an object
that does not exist. -/
def LingmoWindow.lingmoVirtualDesktops (s : Heap) (w : Nat) : QStringList :=
  match s.window w with
  | none => []
  | some p => p.lingmoVirtualDesktops

/-- The accessor `LingmoWindow::isOnAllDesktops`; the version of the handle is read from the
proxy at each call.  `false` stands in for an object that does not exist and for a null
handle, whose version the code cannot read. -/
def LingmoWindow.isOnAllDesktops (s : Heap) (w : Nat) : Bool :=
  match s.window w with
  | none => false
  | some p =>
    match p.window with
    | none => false
    | some window =>
      if window.version < 8 then
        p.onAllDesktops
      else
        p.lingmoVirtualDesktops.isEmpty

/-! ## Requests -/

/-- A protocol request, named after the function of the generated client header that marshals
it; the first argument is the protocol object the request is sent on. -/
inductive Request where
  | org_kde_lingmo_window_set_state (window : Option WlProxy) (flags state : Nat)
  | org_kde_lingmo_window_close (window : Option WlProxy)
  | org_kde_lingmo_window_request_move (window : Option WlProxy)
  | org_kde_lingmo_window_request_resize (window : Option WlProxy)
  | org_kde_lingmo_window_set_minimized_geometry (window : Option WlProxy)
      (panel : WlProxy) (x y width height : Nat)
  | org_kde_lingmo_window_unset_minimized_geometry (window : Option WlProxy)
      (panel : WlProxy)
  | org_kde_lingmo_window_request_enter_virtual_desktop (window : Option WlProxy) (id : QByteArray)
  | org_kde_lingmo_window_request_enter_new_virtual_desktop (window : Option WlProxy)
  | org_kde_lingmo_window_request_leave_virtual_desktop (window : Option WlProxy) (id : QByteArray)
  | org_kde_lingmo_window_request_enter_activity (window : Option WlProxy) (id : QByteArray)
  | org_kde_lingmo_window_request_leave_activity (window : Option WlProxy) (id : QByteArray)
  | org_kde_lingmo_surface_set_role (surface : WlProxy) (role : Nat)
  | org_kde_lingmo_surface_set_panel_behavior (surface : WlProxy) (flag : Nat)
  | org_kde_lingmo_shell_get_surface (shell surface : WlProxy)
deriving DecidableEq, Repr

/-- What a call into the library does: the new heap, the signals emitted and the requests
issued, each in order. -/
structure Outcome where
  heap : Heap
  signals : List Signal
  requests : List Request
deriving DecidableEq, Repr

/-- Conversion to `int`, a 32-bit two's complement integer. -/
def toInt32 (n : Int) : Int := (n + 2147483648) % 4294967296 - 2147483648

/-- Conversion to `uint32_t`, as for an `int` passed to a protocol argument of type `uint`. -/
def toUInt32 (n : Int) : Nat := (n % 4294967296).toNat

/-- The accessor `QRect::x`. -/
def QRect.x (r : QRect) : Int := r.x1

/-- The accessor `QRect::y`. -/
def QRect.y (r : QRect) : Int := r.y1

/-- The accessor `QRect::width`, computed in `int`. -/
def QRect.width (r : QRect) : Int := toInt32 (r.x2 - r.x1 + 1)

/-- The accessor `QRect::height`, computed in `int`. -/
def QRect.height (r : QRect) : Int := toInt32 (r.y2 - r.y1 + 1)

/-! ## LingmoWindow: requests

The member functions below are called on a window the caller holds a pointer to; for a pointer
to a deleted object nothing is issued. -/

/-- The member function `LingmoWindow::requestActivate`. -/
def LingmoWindow.requestActivate (B : StateEnum) (self : Nat) (s : Heap) : Outcome :=
  match s.window self with
  | none => { heap := s, signals := [], requests := [] }
  | some p =>
    { heap := s, signals := [],
      requests := [Request.org_kde_lingmo_window_set_state p.window B.ACTIVE B.ACTIVE] }

/-- The member function `LingmoWindow::requestClose`. -/
def LingmoWindow.requestClose (self : Nat) (s : Heap) : Outcome :=
  match s.window self with
  | none => { heap := s, signals := [], requests := [] }
  | some p =>
    { heap := s, signals := [], requests := [Request.org_kde_lingmo_window_close p.window] }

/-- The member function `LingmoWindow::requestMove`. -/
def LingmoWindow.requestMove (self : Nat) (s : Heap) : Outcome :=
  match s.window self with
  | none => { heap := s, signals := [], requests := [] }
  | some p =>
    { heap := s, signals := [], requests := [Request.org_kde_lingmo_window_request_move p.window] }

/-- The member function `LingmoWindow::requestResize`. -/
def LingmoWindow.requestResize (self : Nat) (s : Heap) : Outcome :=
  match s.window self with
  | none => { heap := s, signals := [], requests := [] }
  | some p =>
    { heap := s, signals := [], requests := [Request.org_kde_lingmo_window_request_resize p.window] }

/-- The member function `LingmoWindow::requestToggleKeepAbove`. -/
def LingmoWindow.requestToggleKeepAbove (B : StateEnum) (self : Nat) (s : Heap) : Outcome :=
  match s.window self with
  | none => { heap := s, signals := [], requests := [] }
  | some p =>
    if p.keepAbove then
      { heap := s, signals := [],
        requests := [Request.org_kde_lingmo_window_set_state p.window B.KEEP_ABOVE 0] }
    else
      { heap := s, signals := [],
        requests := [Request.org_kde_lingmo_window_set_state p.window B.KEEP_ABOVE B.KEEP_ABOVE] }

/-- The member function `LingmoWindow::requestToggleKeepBelow`. -/
def LingmoWindow.requestToggleKeepBelow (B : StateEnum) (self : Nat) (s : Heap) : Outcome :=
  match s.window self with
  | none => { heap := s, signals := [], requests := [] }
  | some p =>
    if p.keepBelow then
      { heap := s, signals := [],
        requests := [Request.org_kde_lingmo_window_set_state p.window B.KEEP_BELOW 0] }
    else
      { heap := s, signals := [],
        requests := [Request.org_kde_lingmo_window_set_state p.window B.KEEP_BELOW B.KEEP_BELOW] }

/-- The member function `LingmoWindow::requestToggleMinimized`. -/
def LingmoWindow.requestToggleMinimized (B : StateEnum) (self : Nat) (s : Heap) : Outcome :=
  match s.window self with
  | none => { heap := s, signals := [], requests := [] }
  | some p =>
    if p.minimized then
      { heap := s, signals := [],
        requests := [Request.org_kde_lingmo_window_set_state p.window B.MINIMIZED 0] }
    else
      { heap := s, signals := [],
        requests := [Request.org_kde_lingmo_window_set_state p.window B.MINIMIZED B.MINIMIZED] }

/-- The member function `LingmoWindow::requestToggleMaximized`. -/
def LingmoWindow.requestToggleMaximized (B : StateEnum) (self : Nat) (s : Heap) : Outcome :=
  match s.window self with
  | none => { heap := s, signals := [], requests := [] }
  | some p =>
    if p.maximized then
      { heap := s, signals := [],
        requests := [Request.org_kde_lingmo_window_set_state p.window B.MAXIMIZED 0] }
    else
      { heap := s, signals := [],
        requests := [Request.org_kde_lingmo_window_set_state p.window B.MAXIMIZED B.MAXIMIZED] }

/-- The member function `LingmoWindow::requestToggleFullscreen`. -/
def LingmoWindow.requestToggleFullscreen (B : StateEnum) (self : Nat) (s : Heap) : Outcome :=
  match s.window self with
  | none => { heap := s, signals := [], requests := [] }
  | some p =>
    if p.fullscreen then
      { heap := s, signals := [],
        requests := [Request.org_kde_lingmo_window_set_state p.window B.FULLSCREEN 0] }
    else
      { heap := s, signals := [],
        requests := [Request.org_kde_lingmo_window_set_state p.window B.FULLSCREEN B.FULLSCREEN] }

/-- The member function `LingmoWindow::requestToggleShaded`. -/
def LingmoWindow.requestToggleShaded (B : StateEnum) (self : Nat) (s : Heap) : Outcome :=
  match s.window self with
  | none => { heap := s, signals := [], requests := [] }
  | some p =>
    if p.shaded then
      { heap := s, signals := [],
        requests := [Request.org_kde_lingmo_window_set_state p.window B.SHADED 0] }
    else
      { heap := s, signals := [],
        requests := [Request.org_kde_lingmo_window_set_state p.window B.SHADED B.SHADED] }

/-- The member function `LingmoWindow::setMinimizedGeometry`; `panel` is the `wl_surface` of
the panel.  The four `int` values of the rectangle are passed to protocol arguments of type
`uint`. -/
def LingmoWindow.setMinimizedGeometry (self : Nat) (panel : WlProxy) (geom : QRect) (s : Heap) :
    Outcome :=
  match s.window self with
  | none => { heap := s, signals := [], requests := [] }
  | some p =>
    { heap := s, signals := [],
      requests := [Request.org_kde_lingmo_window_set_minimized_geometry p.window panel
        (toUInt32 geom.x) (toUInt32 geom.y) (toUInt32 geom.width) (toUInt32 geom.height)] }

/-- The member function `LingmoWindow::unsetMinimizedGeometry`. -/
def LingmoWindow.unsetMinimizedGeometry (self : Nat) (panel : WlProxy) (s : Heap) : Outcome :=
  match s.window self with
  | none => { heap := s, signals := [], requests := [] }
  | some p =>
    { heap := s, signals := [],
      requests := [Request.org_kde_lingmo_window_unset_minimized_geometry p.window panel] }

/-- The member function `LingmoWindow::requestEnterVirtualDesktop`. -/
def LingmoWindow.requestEnterVirtualDesktop (self : Nat) (id : QString) (s : Heap) : Outcome :=
  match s.window self with
  | none => { heap := s, signals := [], requests := [] }
  | some p =>
    { heap := s, signals := [], requests := [Request.org_kde_lingmo_window_request_enter_virtual_desktop p.window id] }

/-- The member function `LingmoWindow::requestEnterNewVirtualDesktop`. -/
def LingmoWindow.requestEnterNewVirtualDesktop (self : Nat) (s : Heap) : Outcome :=
  match s.window self with
  | none => { heap := s, signals := [], requests := [] }
  | some p =>
    { heap := s, signals := [], requests := [Request.org_kde_lingmo_window_request_enter_new_virtual_desktop p.window] }

/-- The member function `LingmoWindow::requestLeaveVirtualDesktop`. -/
def LingmoWindow.requestLeaveVirtualDesktop (self : Nat) (id : QString) (s : Heap) : Outcome :=
  match s.window self with
  | none => { heap := s, signals := [], requests := [] }
  | some p =>
    { heap := s, signals := [], requests := [Request.org_kde_lingmo_window_request_leave_virtual_desktop p.window id] }

/-- The member function `LingmoWindow::requestEnterActivity`. -/
def LingmoWindow.requestEnterActivity (self : Nat) (id : QString) (s : Heap) : Outcome :=
  match s.window self with
  | none => { heap := s, signals := [], requests := [] }
  | some p =>
    { heap := s, signals := [], requests := [Request.org_kde_lingmo_window_request_enter_activity p.window id] }

/-- The member function `LingmoWindow::requestLeaveActivity`. -/
def LingmoWindow.requestLeaveActivity (self : Nat) (id : QString) (s : Heap) : Outcome :=
  match s.window self with
  | none => { heap := s, signals := [], requests := [] }
  | some p =>
    { heap := s, signals := [], requests := [Request.org_kde_lingmo_window_request_leave_activity p.window id] }

/-- The six toggle requests of a window. -/
inductive Toggle where
  | keepAbove
  | keepBelow
  | minimized
  | maximized
  | fullscreen
  | shaded
deriving DecidableEq, Repr

/-- The member function of `LingmoWindow` that requests the toggle. -/
def Toggle.request (B : StateEnum) : Toggle → Nat → Heap → Outcome
  | Toggle.keepAbove => LingmoWindow.requestToggleKeepAbove B
  | Toggle.keepBelow => LingmoWindow.requestToggleKeepBelow B
  | Toggle.minimized => LingmoWindow.requestToggleMinimized B
  | Toggle.maximized => LingmoWindow.requestToggleMaximized B
  | Toggle.fullscreen => LingmoWindow.requestToggleFullscreen B
  | Toggle.shaded => LingmoWindow.requestToggleShaded B

/-- The cached flag of the property that the toggle is about. -/
def Toggle.cached (p : LingmoWindow.Private) : Toggle → Bool
  | Toggle.keepAbove => p.keepAbove
  | Toggle.keepBelow => p.keepBelow
  | Toggle.minimized => p.minimized
  | Toggle.maximized => p.maximized
  | Toggle.fullscreen => p.fullscreen
  | Toggle.shaded => p.shaded

/-- The protocol bit of the property that the toggle is about. -/
def Toggle.bit (B : StateEnum) : Toggle → Nat
  | Toggle.keepAbove => B.KEEP_ABOVE
  | Toggle.keepBelow => B.KEEP_BELOW
  | Toggle.minimized => B.MINIMIZED
  | Toggle.maximized => B.MAXIMIZED
  | Toggle.fullscreen => B.FULLSCREEN
  | Toggle.shaded => B.SHADED

/-! ## Auxiliary notions for the proofs about parent windows -/

/-- The window whose connection list holds the slot that the window `c` connected in
`setParentWindow`, if that window still exists. -/
def LingmoWindow.Private.connectedTo (s : Heap) (c : Nat) : Option Nat :=
  match s.window c with
  | none => none
  | some pc =>
    match pc.parentWindowUnmappedConnection with
    | none => none
    | some x =>
      match s.window x with
      | none => none
      | some _ => some x

/-- The members of the window `v` after the window `c` has set its parent window to `target`
in the heap `s`. -/
def LingmoWindow.Private.reparented (s : Heap) (c : Nat) (target : Option Nat) (v : Nat)
    (pv : LingmoWindow.Private) : LingmoWindow.Private :=
  { pv with
    parentWindow := if v = c then target else pv.parentWindow,
    parentWindowUnmappedConnection :=
      if v = c then target else pv.parentWindowUnmappedConnection,
    unmappedSlots :=
      (if LingmoWindow.Private.connectedTo s c = some v then pv.unmappedSlots.erase c
        else pv.unmappedSlots) ++ (if target = some v then [c] else []) }

/-- The parent-window members of a window: `parentWindow`, the connection handle and the
connection list. -/
def LingmoWindow.Private.links (p : LingmoWindow.Private) :
    Option Nat × Option Nat × List Nat :=
  (p.parentWindow, p.parentWindowUnmappedConnection, p.unmappedSlots)

/-- The invariant of the parent links: a window whose `parentWindow` is `P` has its slot in the
connection list of the live window `P`; every slot in a connection list of `P` belongs to a
live window whose `parentWindow` and connection handle are `P`; no slot is listed twice. -/
def Heap.ParentLinked (s : Heap) : Prop :=
  (∀ (c : Nat) (pc : LingmoWindow.Private) (P : Nat),
      s.window c = some pc → pc.parentWindow = some P →
      ∃ pP : LingmoWindow.Private, s.window P = some pP ∧ c ∈ pP.unmappedSlots) ∧
    (∀ (P : Nat) (pP : LingmoWindow.Private) (c : Nat),
      s.window P = some pP → c ∈ pP.unmappedSlots →
      ∃ pc : LingmoWindow.Private, s.window c = some pc ∧ pc.parentWindow = some P ∧
        pc.parentWindowUnmappedConnection = some P) ∧
    ∀ (P : Nat) (pP : LingmoWindow.Private), s.window P = some pP → pP.unmappedSlots.Nodup

/-- The events: `A` and `B` are created and `B` is told that its parent is the handle of `A`. -/
def sampleParenting : List Event :=
  [Event.windowCreated { id := 7, version := 16 } 1 "a",
   Event.windowCreated { id := 8, version := 16 } 2 "b",
   Event.parentWindow 1 (some { id := 7, version := 16 })]

/-- The heap after `sampleParenting`: `B` is a child of `A`. -/
def sampleChild : Heap :=
  { d := { windows := [0, 1] },
    windowObjects :=
      [some { sampleWindowA with unmappedSlots := [1] },
       some { sampleWindowB with parentWindow := some 0,
                                 parentWindowUnmappedConnection := some 0 }] }

/-! ## LingmoShellSurface -/

/-- The enumeration `LingmoShellSurface::Role`. -/
inductive LingmoShellSurface.Role where
  | Normal
  | Desktop
  | Panel
  | OnScreenDisplay
  | Notification
  | ToolTip
  | CriticalNotification
  | AppletPopup
deriving DecidableEq, Repr

/-- The enumeration `LingmoShellSurface::PanelBehavior`. -/
inductive LingmoShellSurface.PanelBehavior where
  | AlwaysVisible
  | AutoHide
  | WindowsCanCover
  | WindowsGoBelow
deriving DecidableEq, Repr

/-- The constants of `org_kde_lingmo_surface` that `lingmoshell.cpp` uses (prefix
`ORG_KDE_LINGMO_SURFACE_`).  They are declared in the generated protocol header, which is not
part of the sources, so their values are parameters. -/
structure SurfaceEnum where
  ROLE_NORMAL : Nat
  ROLE_DESKTOP : Nat
  ROLE_PANEL : Nat
  ROLE_ONSCREENDISPLAY : Nat
  ROLE_NOTIFICATION : Nat
  ROLE_TOOLTIP : Nat
  ROLE_CRITICALNOTIFICATION : Nat
  ROLE_APPLETPOPUP : Nat
  ROLE_CRITICALNOTIFICATION_SINCE_VERSION : Nat
  ROLE_APPLETPOPUP_SINCE_VERSION : Nat
  PANEL_BEHAVIOR_ALWAYS_VISIBLE : Nat
  PANEL_BEHAVIOR_AUTO_HIDE : Nat
  PANEL_BEHAVIOR_WINDOWS_CAN_COVER : Nat
  PANEL_BEHAVIOR_WINDOWS_GO_BELOW : Nat
deriving DecidableEq, Repr

/-- A sample valuation used to evaluate the definitions on concrete inputs. -/
def SurfaceEnum.sample : SurfaceEnum :=
  { ROLE_NORMAL := 0, ROLE_DESKTOP := 1, ROLE_PANEL := 2, ROLE_ONSCREENDISPLAY := 3,
    ROLE_NOTIFICATION := 4, ROLE_TOOLTIP := 5, ROLE_CRITICALNOTIFICATION := 6,
    ROLE_APPLETPOPUP := 7, ROLE_CRITICALNOTIFICATION_SINCE_VERSION := 6,
    ROLE_APPLETPOPUP_SINCE_VERSION := 8, PANEL_BEHAVIOR_ALWAYS_VISIBLE := 1,
    PANEL_BEHAVIOR_AUTO_HIDE := 2, PANEL_BEHAVIOR_WINDOWS_CAN_COVER := 3,
    PANEL_BEHAVIOR_WINDOWS_GO_BELOW := 4 }

/-- A `QSize`; the default constructed one is invalid. -/
structure QSize where
  width : Int := -1
  height : Int := -1
deriving DecidableEq, Repr

/-- The data members of `LingmoShellSurface::Private`; `surface` is `none` while the
`WaylandPointer` is null, `parentSurface` is the `Surface` object the `QPointer` refers to.
The member initialiser of the constructor sets `role`. -/
structure LingmoShellSurface.Private where
  surface : Option WlProxy := none
  size : QSize := {}
  parentSurface : Option Nat := none
  role : LingmoShellSurface.Role
deriving DecidableEq, Repr

/-- The `LingmoShellSurface` objects allocated so far (a `LingmoShellSurface *` is an index)
and the static list `LingmoShellSurface::Private::s_surfaces`. -/
structure ShellHeap where
  surfaceObjects : List (Option LingmoShellSurface.Private) := []
  s_surfaces : List Nat := []
deriving DecidableEq, Repr

/-- Dereference a `LingmoShellSurface *`: `none` for a deleted (or never allocated) object. -/
def ShellHeap.surface (h : ShellHeap) (self : Nat) : Option LingmoShellSurface.Private :=
  h.surfaceObjects.getD self none

/-- Assign data members of the shell surface `self`, if it exists. -/
def ShellHeap.modifySurface (h : ShellHeap) (self : Nat)
    (f : LingmoShellSurface.Private → LingmoShellSurface.Private) : ShellHeap :=
  match h.surface self with
  | none => h
  | some d => { h with surfaceObjects := h.surfaceObjects.set self (some (f d)) }

/-- The constructor `LingmoShellSurface::LingmoShellSurface` together with the constructor of
its `Private`: the role starts as `Normal` and the object is appended to `s_surfaces`.  The
result is the pointer to the new object and the new heap. -/
def LingmoShellSurface.new (h : ShellHeap) : Nat × ShellHeap :=
  (h.surfaceObjects.length,
    { surfaceObjects := h.surfaceObjects ++ [some { role := LingmoShellSurface.Role.Normal }],
      s_surfaces := h.s_surfaces ++ [h.surfaceObjects.length] })

/-- The member functions `LingmoShellSurface::setup` and `LingmoShellSurface::Private::setup`;
`none` is a failed assertion (a null handle, or a surface that has a handle already). -/
def LingmoShellSurface.setup (self : Nat) (s : Option WlProxy) (h : ShellHeap) :
    Option ShellHeap :=
  match h.surface self with
  | none => none
  | some d =>
    match s with
    | none => none
    | some handle =>
      if d.surface.isSome then none
      else some (h.modifySurface self (fun d1 => { d1 with surface := some handle }))

/-- The member function `LingmoShellSurface::isValid`. -/
def LingmoShellSurface.isValid (self : Nat) (h : ShellHeap) : Bool :=
  match h.surface self with
  | none => false
  | some d => d.surface.isSome

/-- The member function `LingmoShellSurface::role`. -/
def LingmoShellSurface.role (self : Nat) (h : ShellHeap) : Option LingmoShellSurface.Role :=
  (h.surface self).map (fun d => d.role)

/-- The member function `LingmoShellSurface::setPanelBehavior`: the heap afterwards and the
requests issued; `none` is the failed assertion `Q_ASSERT(isValid())`. -/
def LingmoShellSurface.setPanelBehavior (K : SurfaceEnum) (self : Nat)
    (behavior : LingmoShellSurface.PanelBehavior) (h : ShellHeap) :
    Option (ShellHeap × List Request) :=
  match h.surface self with
  | none => none
  | some d =>
    match d.surface with
    | none => none
    | some surface =>
      let wlRole : Nat :=
        match behavior with
        | LingmoShellSurface.PanelBehavior.AlwaysVisible => K.PANEL_BEHAVIOR_ALWAYS_VISIBLE
        | LingmoShellSurface.PanelBehavior.AutoHide => K.PANEL_BEHAVIOR_AUTO_HIDE
        | LingmoShellSurface.PanelBehavior.WindowsCanCover => K.PANEL_BEHAVIOR_WINDOWS_CAN_COVER
        | LingmoShellSurface.PanelBehavior.WindowsGoBelow => K.PANEL_BEHAVIOR_WINDOWS_GO_BELOW
      some (h, [Request.org_kde_lingmo_surface_set_panel_behavior surface wlRole])

/-- The `switch` of `LingmoShellSurface::setRole` on a surface with the handle `surface`: the
value of `wlRole` after it, with the heap and the requests issued inside the `switch`. -/
def LingmoShellSurface.setRoleSwitch (K : SurfaceEnum) (self : Nat) (surface : WlProxy)
    (role : LingmoShellSurface.Role) (h : ShellHeap) : Option (Nat × ShellHeap × List Request) :=
  match role with
  | LingmoShellSurface.Role.Normal => some (K.ROLE_NORMAL, h, [])
  | LingmoShellSurface.Role.Desktop => some (K.ROLE_DESKTOP, h, [])
  | LingmoShellSurface.Role.Panel => some (K.ROLE_PANEL, h, [])
  | LingmoShellSurface.Role.OnScreenDisplay => some (K.ROLE_ONSCREENDISPLAY, h, [])
  | LingmoShellSurface.Role.Notification => some (K.ROLE_NOTIFICATION, h, [])
  | LingmoShellSurface.Role.ToolTip => some (K.ROLE_TOOLTIP, h, [])
  | LingmoShellSurface.Role.CriticalNotification =>
    if surface.version < K.ROLE_CRITICALNOTIFICATION_SINCE_VERSION then
      some (K.ROLE_NOTIFICATION, h, [])
    else
      some (K.ROLE_CRITICALNOTIFICATION, h, [])
  | LingmoShellSurface.Role.AppletPopup =>
    if surface.version < K.ROLE_APPLETPOPUP_SINCE_VERSION then
      match LingmoShellSurface.setPanelBehavior K self
          LingmoShellSurface.PanelBehavior.WindowsGoBelow h with
      | none => none
      | some r => some (K.ROLE_PANEL, r.1, r.2)
    else
      some (K.ROLE_APPLETPOPUP, h, [])

/-- The member function `LingmoShellSurface::setRole`: the heap afterwards and the requests
issued, in order; `none` is the failed assertion `Q_ASSERT(isValid())`. -/
def LingmoShellSurface.setRole (K : SurfaceEnum) (self : Nat) (role : LingmoShellSurface.Role)
    (h : ShellHeap) : Option (ShellHeap × List Request) :=
  match h.surface self with
  | none => none
  | some d =>
    match d.surface with
    | none => none
    | some surface =>
      match LingmoShellSurface.setRoleSwitch K self surface role h with
      | none => none
      | some r =>
        some (r.2.1.modifySurface self (fun d1 => { d1 with role := role }),
          r.2.2 ++ [Request.org_kde_lingmo_surface_set_role surface r.1])

/-- A shell surface constructed on the empty heap and set up with a handle of the given
version. -/
def sampleShellSurface (version : Nat) : ShellHeap :=
  { surfaceObjects :=
      [some { surface := some { id := 3, version := version },
              role := LingmoShellSurface.Role.Normal }],
    s_surfaces := [0] }

/-! ## LingmoWindowModel -/

/-- The data members of `LingmoWindowModel::Private` that hold windows. -/
structure LingmoWindowModel.Private where
  windows : List Nat := []
  window : Option Nat := none
deriving DecidableEq, Repr

/-- The expression `d->windows.at(row)` under the bounds check of the per-row requests. -/
def LingmoWindowModel.Private.at (d : LingmoWindowModel.Private) (row : Int)
    (h : 0 ≤ row ∧ row < d.windows.length) : Nat :=
  d.windows.get ⟨row.toNat, by omega⟩

/-- The member function `LingmoWindowModel::requestActivate`. -/
def LingmoWindowModel.requestActivate (B : StateEnum) (d : LingmoWindowModel.Private)
    (row : Int) (s : Heap) : Outcome :=
  if h : 0 ≤ row ∧ row < d.windows.length then
    LingmoWindow.requestActivate B (d.at row h) s
  else { heap := s, signals := [], requests := [] }

/-- The member function `LingmoWindowModel::requestClose`. -/
def LingmoWindowModel.requestClose (d : LingmoWindowModel.Private) (row : Int) (s : Heap) :
    Outcome :=
  if h : 0 ≤ row ∧ row < d.windows.length then
    LingmoWindow.requestClose (d.at row h) s
  else { heap := s, signals := [], requests := [] }

/-- The member function `LingmoWindowModel::requestMove`. -/
def LingmoWindowModel.requestMove (d : LingmoWindowModel.Private) (row : Int) (s : Heap) :
    Outcome :=
  if h : 0 ≤ row ∧ row < d.windows.length then
    LingmoWindow.requestMove (d.at row h) s
  else { heap := s, signals := [], requests := [] }

/-- The member function `LingmoWindowModel::requestResize`. -/
def LingmoWindowModel.requestResize (d : LingmoWindowModel.Private) (row : Int) (s : Heap) :
    Outcome :=
  if h : 0 ≤ row ∧ row < d.windows.length then
    LingmoWindow.requestResize (d.at row h) s
  else { heap := s, signals := [], requests := [] }

/-- The member function `LingmoWindowModel::requestEnterVirtualDesktop`. -/
def LingmoWindowModel.requestEnterVirtualDesktop (d : LingmoWindowModel.Private) (row : Int)
    (id : QString) (s : Heap) : Outcome :=
  if h : 0 ≤ row ∧ row < d.windows.length then
    LingmoWindow.requestEnterVirtualDesktop (d.at row h) id s
  else { heap := s, signals := [], requests := [] }

/-- The member function `LingmoWindowModel::requestToggleKeepAbove`. -/
def LingmoWindowModel.requestToggleKeepAbove (B : StateEnum) (d : LingmoWindowModel.Private)
    (row : Int) (s : Heap) : Outcome :=
  if h : 0 ≤ row ∧ row < d.windows.length then
    LingmoWindow.requestToggleKeepAbove B (d.at row h) s
  else { heap := s, signals := [], requests := [] }

/-- The member function `LingmoWindowModel::requestToggleKeepBelow`. -/
def LingmoWindowModel.requestToggleKeepBelow (B : StateEnum) (d : LingmoWindowModel.Private)
    (row : Int) (s : Heap) : Outcome :=
  if h : 0 ≤ row ∧ row < d.windows.length then
    LingmoWindow.requestToggleKeepBelow B (d.at row h) s
  else { heap := s, signals := [], requests := [] }

/-- The member function `LingmoWindowModel::requestToggleMinimized`. -/
def LingmoWindowModel.requestToggleMinimized (B : StateEnum) (d : LingmoWindowModel.Private)
    (row : Int) (s : Heap) : Outcome :=
  if h : 0 ≤ row ∧ row < d.windows.length then
    LingmoWindow.requestToggleMinimized B (d.at row h) s
  else { heap := s, signals := [], requests := [] }

/-- The member function `LingmoWindowModel::requestToggleMaximized`. -/
def LingmoWindowModel.requestToggleMaximized (B : StateEnum) (d : LingmoWindowModel.Private)
    (row : Int) (s : Heap) : Outcome :=
  if h : 0 ≤ row ∧ row < d.windows.length then
    LingmoWindow.requestToggleMaximized B (d.at row h) s
  else { heap := s, signals := [], requests := [] }

/-- The member function `LingmoWindowModel::requestToggleFullscreen`. -/
def LingmoWindowModel.requestToggleFullscreen (B : StateEnum) (d : LingmoWindowModel.Private)
    (row : Int) (s : Heap) : Outcome :=
  if h : 0 ≤ row ∧ row < d.windows.length then
    LingmoWindow.requestToggleFullscreen B (d.at row h) s
  else { heap := s, signals := [], requests := [] }

/-- The member function `LingmoWindowModel::setMinimizedGeometry`; `panel` is the `wl_surface`
of the panel. -/
def LingmoWindowModel.setMinimizedGeometry (d : LingmoWindowModel.Private) (row : Int)
    (panel : WlProxy) (geom : QRect) (s : Heap) : Outcome :=
  if h : 0 ≤ row ∧ row < d.windows.length then
    LingmoWindow.setMinimizedGeometry (d.at row h) panel geom s
  else { heap := s, signals := [], requests := [] }

/-- The member function `LingmoWindowModel::requestToggleShaded`. -/
def LingmoWindowModel.requestToggleShaded (B : StateEnum) (d : LingmoWindowModel.Private)
    (row : Int) (s : Heap) : Outcome :=
  if h : 0 ≤ row ∧ row < d.windows.length then
    LingmoWindow.requestToggleShaded B (d.at row h) s
  else { heap := s, signals := [], requests := [] }

/-- The twelve per-row requests of `LingmoWindowModel`, each with its arguments other than the
row. -/
inductive RowRequest where
  | requestActivate
  | requestClose
  | requestMove
  | requestResize
  | requestEnterVirtualDesktop (id : QString)
  | requestToggleKeepAbove
  | requestToggleKeepBelow
  | requestToggleMinimized
  | requestToggleMaximized
  | requestToggleFullscreen
  | setMinimizedGeometry (panel : WlProxy) (geom : QRect)
  | requestToggleShaded
deriving DecidableEq, Repr

/-- The member function of `LingmoWindowModel` of that name. -/
def RowRequest.onModel (B : StateEnum) :
    RowRequest → LingmoWindowModel.Private → Int → Heap → Outcome
  | RowRequest.requestActivate, d, row => LingmoWindowModel.requestActivate B d row
  | RowRequest.requestClose, d, row => LingmoWindowModel.requestClose d row
  | RowRequest.requestMove, d, row => LingmoWindowModel.requestMove d row
  | RowRequest.requestResize, d, row => LingmoWindowModel.requestResize d row
  | RowRequest.requestEnterVirtualDesktop id, d, row =>
    LingmoWindowModel.requestEnterVirtualDesktop d row id
  | RowRequest.requestToggleKeepAbove, d, row => LingmoWindowModel.requestToggleKeepAbove B d row
  | RowRequest.requestToggleKeepBelow, d, row => LingmoWindowModel.requestToggleKeepBelow B d row
  | RowRequest.requestToggleMinimized, d, row => LingmoWindowModel.requestToggleMinimized B d row
  | RowRequest.requestToggleMaximized, d, row => LingmoWindowModel.requestToggleMaximized B d row
  | RowRequest.requestToggleFullscreen, d, row =>
    LingmoWindowModel.requestToggleFullscreen B d row
  | RowRequest.setMinimizedGeometry panel geom, d, row =>
    LingmoWindowModel.setMinimizedGeometry d row panel geom
  | RowRequest.requestToggleShaded, d, row => LingmoWindowModel.requestToggleShaded B d row

/-- The member function of `LingmoWindow` of that name. -/
def RowRequest.onWindow (B : StateEnum) : RowRequest → Nat → Heap → Outcome
  | RowRequest.requestActivate, w => LingmoWindow.requestActivate B w
  | RowRequest.requestClose, w => LingmoWindow.requestClose w
  | RowRequest.requestMove, w => LingmoWindow.requestMove w
  | RowRequest.requestResize, w => LingmoWindow.requestResize w
  | RowRequest.requestEnterVirtualDesktop id, w => LingmoWindow.requestEnterVirtualDesktop w id
  | RowRequest.requestToggleKeepAbove, w => LingmoWindow.requestToggleKeepAbove B w
  | RowRequest.requestToggleKeepBelow, w => LingmoWindow.requestToggleKeepBelow B w
  | RowRequest.requestToggleMinimized, w => LingmoWindow.requestToggleMinimized B w
  | RowRequest.requestToggleMaximized, w => LingmoWindow.requestToggleMaximized B w
  | RowRequest.requestToggleFullscreen, w => LingmoWindow.requestToggleFullscreen B w
  | RowRequest.setMinimizedGeometry panel geom, w =>
    LingmoWindow.setMinimizedGeometry w panel geom
  | RowRequest.requestToggleShaded, w => LingmoWindow.requestToggleShaded B w

/-- A model that lists the two windows of `sampleTwoWindows`, the second one first. -/
def sampleModel : LingmoWindowModel.Private :=
  { windows := [1, 0] }

/-! ## LingmoWindow::Private: the cached values -/

/-- The Qt constructor `QRect(int left, int top, int width, int height)`. -/
def QRect.ofSize (left top width height : Int) : QRect :=
  { x1 := left, y1 := top,
    x2 := toInt32 (left + width - 1), y2 := toInt32 (top + height - 1) }

/-- The listener `LingmoWindow::Private::titleChangedCallback`. -/
def LingmoWindow.Private.titleChangedCallback (data : Nat) (title : QString) : Action :=
  fun s =>
    match s.window data with
    | none => (s, [])
    | some p =>
      if p.title = title then
        (s, [])
      else
        LingmoWindow.emit data WindowSignal.titleChanged
          (s.setWindow data { p with title := title })

/-- The listener `LingmoWindow::Private::appIdChangedCallback`. -/
def LingmoWindow.Private.appIdChangedCallback (data : Nat) (appId : QString) : Action :=
  fun s =>
    match s.window data with
    | none => (s, [])
    | some p =>
      if appId = p.appId then
        (s, [])
      else
        LingmoWindow.emit data WindowSignal.appIdChanged
          (s.setWindow data { p with appId := appId })

/-- The listener `LingmoWindow::Private::resourceNameChangedCallback`. -/
def LingmoWindow.Private.resourceNameChangedCallback (data : Nat) (resourceName : QString) :
    Action :=
  fun s =>
    match s.window data with
    | none => (s, [])
    | some p =>
      if resourceName = p.resourceName then
        (s, [])
      else
        LingmoWindow.emit data WindowSignal.resourceNameChanged
          (s.setWindow data { p with resourceName := resourceName })

/-- The listener `LingmoWindow::Private::windowGeometryCallback`; `x` and `y` are `int32_t`,
`width` and `height` are `uint32_t` and are converted to `int` by the call of the `QRect`
constructor. -/
def LingmoWindow.Private.windowGeometryCallback (data : Nat) (x y : Int) (width height : Nat) :
    Action :=
  fun s =>
    match s.window data with
    | none => (s, [])
    | some p =>
      if QRect.ofSize x y (toInt32 width) (toInt32 height) = p.geometry then
        (s, [])
      else
        LingmoWindow.emit data WindowSignal.geometryChanged
          (s.setWindow data
            { p with geometry := QRect.ofSize x y (toInt32 width) (toInt32 height) })

/-- The listener `LingmoWindow::Private::clientGeometryCallback`; the arguments are as for
`windowGeometryCallback`. -/
def LingmoWindow.Private.clientGeometryCallback (data : Nat) (x y : Int) (width height : Nat) :
    Action :=
  fun s =>
    match s.window data with
    | none => (s, [])
    | some p =>
      if p.clientGeometry = QRect.ofSize x y (toInt32 width) (toInt32 height) then
        (s, [])
      else
        LingmoWindow.emit data WindowSignal.clientGeometryChanged
          (s.setWindow data
            { p with clientGeometry := QRect.ofSize x y (toInt32 width) (toInt32 height) })

/-- The listener `LingmoWindow::Private::pidChangedCallback`; it emits nothing. -/
def LingmoWindow.Private.pidChangedCallback (data : Nat) (pid : Nat) : Action :=
  fun s =>
    match s.window data with
    | none => (s, [])
    | some p =>
      if p.pid = pid then
        (s, [])
      else
        (s.setWindow data { p with pid := pid }, [])

/-- The listener `LingmoWindow::Private::appmenuChangedCallback`. -/
def LingmoWindow.Private.appmenuChangedCallback (data : Nat) (service_name object_path : QString) :
    Action :=
  fun s =>
    match s.window data with
    | none => (s, [])
    | some p =>
      LingmoWindow.emit data WindowSignal.applicationMenuChanged
        (s.setWindow data
          { p with applicationMenuServiceName := service_name,
                   applicationMenuObjectPath := object_path })

/-- The accessor `LingmoWindow::pid`; 0 stands in for an object that does not exist. -/
def LingmoWindow.pid (s : Heap) (w : Nat) : Nat :=
  match s.window w with
  | none => 0
  | some p => p.pid

/-- An event that carries a new value for one of the cached fields `title`, `appId`,
`resourceName`, `geometry` and `clientGeometry`. -/
inductive CachedField where
  | title (title : QString)
  | appId (appId : QString)
  | resourceName (resourceName : QString)
  | geometry (x y : Int) (width height : Nat)
  | clientGeometry (x y : Int) (width height : Nat)
deriving DecidableEq, Repr

/-- The listener that handles the event. -/
def CachedField.callback : CachedField → Nat → Action
  | CachedField.title t, data => LingmoWindow.Private.titleChangedCallback data t
  | CachedField.appId a, data => LingmoWindow.Private.appIdChangedCallback data a
  | CachedField.resourceName r, data => LingmoWindow.Private.resourceNameChangedCallback data r
  | CachedField.geometry x y w h, data => LingmoWindow.Private.windowGeometryCallback data x y w h
  | CachedField.clientGeometry x y w h, data =>
    LingmoWindow.Private.clientGeometryCallback data x y w h

/-- The change signal of the field. -/
def CachedField.signal : CachedField → WindowSignal
  | CachedField.title _ => WindowSignal.titleChanged
  | CachedField.appId _ => WindowSignal.appIdChanged
  | CachedField.resourceName _ => WindowSignal.resourceNameChanged
  | CachedField.geometry _ _ _ _ => WindowSignal.geometryChanged
  | CachedField.clientGeometry _ _ _ _ => WindowSignal.clientGeometryChanged

/-- Whether the incoming value equals the cached one. -/
def CachedField.redundant (p : LingmoWindow.Private) : CachedField → Bool
  | CachedField.title t => decide (t = p.title)
  | CachedField.appId a => decide (a = p.appId)
  | CachedField.resourceName r => decide (r = p.resourceName)
  | CachedField.geometry x y w h =>
    decide (QRect.ofSize x y (toInt32 w) (toInt32 h) = p.geometry)
  | CachedField.clientGeometry x y w h =>
    decide (QRect.ofSize x y (toInt32 w) (toInt32 h) = p.clientGeometry)

/-- The members of the window with the incoming value in place of the cached one. -/
def CachedField.stored (p : LingmoWindow.Private) : CachedField → LingmoWindow.Private
  | CachedField.title t => { p with title := t }
  | CachedField.appId a => { p with appId := a }
  | CachedField.resourceName r => { p with resourceName := r }
  | CachedField.geometry x y w h =>
    { p with geometry := QRect.ofSize x y (toInt32 w) (toInt32 h) }
  | CachedField.clientGeometry x y w h =>
    { p with clientGeometry := QRect.ofSize x y (toInt32 w) (toInt32 h) }

/-- The heap `sampleTwoWindows` in which the window `A` has cached the application menu
(`"org.kde.kate"`, `"/MenuBar/1"`). -/
def sampleWithMenu : Heap :=
  { d := { windows := [0, 1] },
    windowObjects :=
      [some { sampleWindowA with applicationMenuServiceName := "org.kde.kate",
                                 applicationMenuObjectPath := "/MenuBar/1" },
       some sampleWindowB] }

/-! ## LingmoShell -/

/-- The data members of `LingmoShell::Private`; `queue` is the event queue, if one is set. -/
structure LingmoShell.Private where
  shell : Option WlProxy := none
  queue : Option Nat := none
deriving DecidableEq, Repr

/-- The member function `LingmoShell::isValid`. -/
def LingmoShell.isValid (d : LingmoShell.Private) : Bool := d.shell.isSome

/-- The static member function `LingmoShellSurface::Private::get`: the first shell surface of
`s_surfaces` whose `parentSurface` is the given `Surface`, `none` for a null pointer. -/
def LingmoShellSurface.Private.get (surface : Option Nat) (h : ShellHeap) : Option Nat :=
  match surface with
  | none => none
  | some kwS =>
    h.s_surfaces.find? (fun it =>
      match h.surface it with
      | none => false
      | some d => d.parentSurface = some kwS)

/-- The member function `LingmoShell::createSurface(wl_surface *, QObject *)`.  The static
function `Surface::get` is defined in `surface.cpp`, which is not among the sources: it is the
parameter `get`, from a native surface to its `Surface` wrapper, if one is registered.  `w` is
what `org_kde_lingmo_shell_get_surface` returns.  The result is the returned pointer, the heap
and the requests issued; `none` is a failed assertion. -/
def LingmoShell.createSurface (d : LingmoShell.Private) (get : WlProxy → Option Nat)
    (surface : WlProxy) (w : Option WlProxy) (h : ShellHeap) :
    Option (Nat × ShellHeap × List Request) :=
  match d.shell with
  | none => none
  | some shell =>
    let kwS := get surface
    let existing : Option Nat :=
      match kwS with
      | none => none
      | some _ => LingmoShellSurface.Private.get kwS h
    match existing with
    | some s => some (s, h, [])
    | none =>
      let created := LingmoShellSurface.new h
      match LingmoShellSurface.setup created.1 w created.2 with
      | none => none
      | some h1 =>
        some (created.1,
          h1.modifySurface created.1 (fun d1 => { d1 with parentSurface := kwS }),
          [Request.org_kde_lingmo_shell_get_surface shell surface])

/-- A `LingmoShell` that is set up. -/
def sampleShell : LingmoShell.Private :=
  { shell := some { id := 2, version := 8 } }

/-- Two calls of `createSurface` for the native surface with id 20, on the empty heap; the
compositor hands out the objects 30 and 31.  The result is the pair of the two results. -/
def sampleCreateTwice (get : WlProxy → Option Nat) :
    Option ((Nat × ShellHeap × List Request) × (Nat × ShellHeap × List Request)) :=
  match LingmoShell.createSurface sampleShell get { id := 20, version := 4 }
      (some { id := 30, version := 8 }) {} with
  | none => none
  | some first =>
    match LingmoShell.createSurface sampleShell get { id := 20, version := 4 }
        (some { id := 31, version := 8 }) first.2.1 with
    | none => none
    | some second => some (first, second)

/-! ## LingmoWindowModel: the window list -/

/-- The signals of `QAbstractItemModel` that the `begin...` and `end...` calls of the model
emit. -/
inductive ModelSignal where
  | rowsAboutToBeInserted (first last : Nat)
  | rowsInserted (first last : Nat)
  | rowsAboutToBeRemoved (first last : Nat)
  | rowsRemoved (first last : Nat)
  | modelAboutToBeReset
  | modelReset
deriving DecidableEq, Repr

/-- The Qt function `QList::indexOf`: the first position of the value, -1 if there is
none. -/
def QList.indexOf (l : List Nat) (x : Nat) : Int :=
  if x ∈ l then (l.indexOf x : Nat) else -1

/-- The member function `LingmoWindowModel::Private::addWindow`, the connections it makes
apart. -/
def LingmoWindowModel.Private.addWindow (window : Nat) (d : LingmoWindowModel.Private) :
    LingmoWindowModel.Private × List ModelSignal :=
  if QList.indexOf d.windows window ≠ -1 then
    (d, [])
  else
    let count := d.windows.length
    ({ d with windows := d.windows ++ [window] },
      [ModelSignal.rowsAboutToBeInserted count count, ModelSignal.rowsInserted count count])

/-- The lambda `removeWindow` that `addWindow` connects to the signals `unmapped` and
`destroyed` of the window. -/
def LingmoWindowModel.Private.removeWindow (window : Nat) (d : LingmoWindowModel.Private) :
    LingmoWindowModel.Private × List ModelSignal :=
  let row := QList.indexOf d.windows window
  if row ≠ -1 then
    ({ d with windows := d.windows.eraseIdx row.toNat },
      [ModelSignal.rowsAboutToBeRemoved row.toNat row.toNat,
        ModelSignal.rowsRemoved row.toNat row.toNat])
  else
    (d, [])

/-- The lambda that the constructor of the model connects to the signal
`interfaceAboutToBeReleased` of the window management. -/
def LingmoWindowModel.reset (d : LingmoWindowModel.Private) :
    LingmoWindowModel.Private × List ModelSignal :=
  ({ d with windows := [] }, [ModelSignal.modelAboutToBeReset, ModelSignal.modelReset])

/-- A run of one of the three pieces of code that assign the window list of the model. -/
inductive LingmoWindowModel.Call where
  | addWindow (window : Nat)
  | removeWindow (window : Nat)
  | reset
deriving DecidableEq, Repr

/-- Run the call. -/
def LingmoWindowModel.Call.run :
    LingmoWindowModel.Call → LingmoWindowModel.Private →
      LingmoWindowModel.Private × List ModelSignal
  | LingmoWindowModel.Call.addWindow w, d => d.addWindow w
  | LingmoWindowModel.Call.removeWindow w, d => d.removeWindow w
  | LingmoWindowModel.Call.reset, d => LingmoWindowModel.reset d

/-- Run the calls one after the other, collecting the signals. -/
def LingmoWindowModel.runCalls :
    List LingmoWindowModel.Call → LingmoWindowModel.Private →
      LingmoWindowModel.Private × List ModelSignal
  | [], d => (d, [])
  | c :: cs, d =>
    let r := c.run d
    let r2 := LingmoWindowModel.runCalls cs r.1
    (r2.1, r.2 ++ r2.2)

/-- The constructor `LingmoWindowModel::LingmoWindowModel`, its two connections apart:
`windows` is `parent->windows()`, each of which is added. -/
def LingmoWindowModel.new (windows : List Nat) : LingmoWindowModel.Private × List ModelSignal :=
  LingmoWindowModel.runCalls (windows.map LingmoWindowModel.Call.addWindow) {}

/-- The member function `LingmoWindowModel::rowCount`; `parentIsValid` is `parent.isValid()`,
false for the default argument. -/
def LingmoWindowModel.rowCount (d : LingmoWindowModel.Private) (parentIsValid : Bool) : Nat :=
  if parentIsValid then 0 else d.windows.length

/-- The signals of `LingmoWindowManagement` about the end of its interface. -/
inductive InterfaceSignal where
  | interfaceAboutToBeReleased
  | interfaceAboutToBeDestroyed
deriving DecidableEq, Repr

/-- The slots of a `LingmoWindowModel` that run when its parent emits the signal: the
constructor of the model connects a lambda to `interfaceAboutToBeReleased` and nothing to
`interfaceAboutToBeDestroyed`. -/
def LingmoWindowModel.interfaceSlots :
    InterfaceSignal → LingmoWindowModel.Private → LingmoWindowModel.Private × List ModelSignal
  | InterfaceSignal.interfaceAboutToBeReleased, d => LingmoWindowModel.reset d
  | InterfaceSignal.interfaceAboutToBeDestroyed, d => (d, [])

/-- What `destroy` and `release` of a `LingmoWindowManagement` with a model do: the heap, the
model, the signals of the window management and the signals of the model. -/
structure InterfaceOutcome where
  heap : Heap
  model : LingmoWindowModel.Private
  signals : List InterfaceSignal
  modelSignals : List ModelSignal
deriving DecidableEq, Repr

/-- The member function `LingmoWindowManagement::destroy`, on a window management that is the
parent of the model `model`; `d->wm.destroy()` leaves the `WaylandPointer` null. -/
def LingmoWindowManagement.destroy (s : Heap) (model : LingmoWindowModel.Private) :
    InterfaceOutcome :=
  match s.d.wm with
  | none => { heap := s, model := model, signals := [], modelSignals := [] }
  | some _ =>
    let r := LingmoWindowModel.interfaceSlots InterfaceSignal.interfaceAboutToBeDestroyed model
    { heap := { s with d := { s.d with wm := none } }, model := r.1,
      signals := [InterfaceSignal.interfaceAboutToBeDestroyed], modelSignals := r.2 }

/-- The member function `LingmoWindowManagement::release`, on a window management that is the
parent of the model `model`; `d->wm.release()` leaves the `WaylandPointer` null. -/
def LingmoWindowManagement.release (s : Heap) (model : LingmoWindowModel.Private) :
    InterfaceOutcome :=
  match s.d.wm with
  | none => { heap := s, model := model, signals := [], modelSignals := [] }
  | some _ =>
    let r := LingmoWindowModel.interfaceSlots InterfaceSignal.interfaceAboutToBeReleased model
    { heap := { s with d := { s.d with wm := none } }, model := r.1,
      signals := [InterfaceSignal.interfaceAboutToBeReleased], modelSignals := r.2 }

/-- The heap `sampleTwoWindows` with the interface of the window management set up. -/
def sampleSetUp : Heap :=
  { d := { wm := some { id := 1, version := 16 }, windows := [0, 1] },
    windowObjects := [some sampleWindowA, some sampleWindowB] }

/-! ## LingmoWindow: the requests, for stating properties of all of them -/

/-- The request operations of a window that take no argument or an id. -/
inductive WindowRequest where
  | requestActivate
  | requestClose
  | requestMove
  | requestResize
  | requestToggle (t : Toggle)
  | requestEnterVirtualDesktop (id : QString)
  | requestLeaveVirtualDesktop (id : QString)
  | requestEnterActivity (id : QString)
  | requestLeaveActivity (id : QString)
deriving DecidableEq, Repr

/-- The member function of `LingmoWindow` of that name. -/
def WindowRequest.call (B : StateEnum) : WindowRequest → Nat → Heap → Outcome
  | WindowRequest.requestActivate => LingmoWindow.requestActivate B
  | WindowRequest.requestClose => LingmoWindow.requestClose
  | WindowRequest.requestMove => LingmoWindow.requestMove
  | WindowRequest.requestResize => LingmoWindow.requestResize
  | WindowRequest.requestToggle t => t.request B
  | WindowRequest.requestEnterVirtualDesktop id =>
    fun self => LingmoWindow.requestEnterVirtualDesktop self id
  | WindowRequest.requestLeaveVirtualDesktop id =>
    fun self => LingmoWindow.requestLeaveVirtualDesktop self id
  | WindowRequest.requestEnterActivity id => fun self => LingmoWindow.requestEnterActivity self id
  | WindowRequest.requestLeaveActivity id => fun self => LingmoWindow.requestLeaveActivity self id

/-- The events: `A` and `B` are created and `A` is unmapped; the deferred deletion of `A` has
not run. -/
def sampleUnmapping : List Event :=
  [Event.windowCreated { id := 7, version := 16 } 1 "a",
   Event.windowCreated { id := 8, version := 16 } 2 "b",
   Event.unmapped 0]

/-! ## LingmoWindow: activities, and sequences of membership events -/

/-- The listener `LingmoWindow::Private::activityEnteredCallback`. -/
def LingmoWindow.Private.activityEnteredCallback (data : Nat) (id : QString) : Action :=
  fun s =>
    match s.window data with
    | none => (s, [])
    | some p =>
      LingmoWindow.emit data (WindowSignal.lingmoActivityEntered id)
        (s.setWindow data { p with lingmoActivities := p.lingmoActivities ++ [id] })

/-- The listener `LingmoWindow::Private::activityLeftCallback`; `removeAll` is a filter. -/
def LingmoWindow.Private.activityLeftCallback (data : Nat) (id : QString) : Action :=
  fun s =>
    match s.window data with
    | none => (s, [])
    | some p =>
      LingmoWindow.emit data (WindowSignal.lingmoActivityLeft id)
        (s.setWindow data
          { p with lingmoActivities := p.lingmoActivities.filter (fun x => x != id) })

/-- The accessor `LingmoWindow::lingmoActivities`; the empty list stands in for an object that
does not exist. -/
def LingmoWindow.lingmoActivities (s : Heap) (w : Nat) : QStringList :=
  match s.window w with
  | none => []
  | some p => p.lingmoActivities

/-- The four events about the virtual desktops and the activities of a window. -/
inductive MembershipEvent where
  | virtualDesktopEntered (id : QString)
  | virtualDesktopLeft (id : QString)
  | activityEntered (id : QString)
  | activityLeft (id : QString)
deriving DecidableEq, Repr

/-- The listener that handles the event. -/
def MembershipEvent.callback : MembershipEvent → Nat → Action
  | MembershipEvent.virtualDesktopEntered id, data =>
    LingmoWindow.Private.virtualDesktopEnteredCallback data id
  | MembershipEvent.virtualDesktopLeft id, data =>
    LingmoWindow.Private.virtualDesktopLeftCallback data id
  | MembershipEvent.activityEntered id, data =>
    LingmoWindow.Private.activityEnteredCallback data id
  | MembershipEvent.activityLeft id, data => LingmoWindow.Private.activityLeftCallback data id

/-- The window `w` handles the events in order. -/
def MembershipEvent.deliver (w : Nat) (evs : List MembershipEvent) : Action :=
  runAll (evs.map (fun e => e.callback w))

/-- No `entered` event of the sequence names an id that is in the list at that moment, the
lists being `desktops` and `activities` at the start. -/
def MembershipEvent.entersFresh :
    QStringList → QStringList → List MembershipEvent → Bool
  | _, _, [] => true
  | desktops, activities, MembershipEvent.virtualDesktopEntered id :: evs =>
    decide (id ∉ desktops) && MembershipEvent.entersFresh (desktops ++ [id]) activities evs
  | desktops, activities, MembershipEvent.virtualDesktopLeft id :: evs =>
    MembershipEvent.entersFresh (desktops.filter (fun x => x != id)) activities evs
  | desktops, activities, MembershipEvent.activityEntered id :: evs =>
    decide (id ∉ activities) && MembershipEvent.entersFresh desktops (activities ++ [id]) evs
  | desktops, activities, MembershipEvent.activityLeft id :: evs =>
    MembershipEvent.entersFresh desktops (activities.filter (fun x => x != id)) evs

/-! ## Joining byte arrays, for stating what `split` returns -/

/-- The Qt function `QByteArrayList::join(char)`: the entries in order, with the separator
between each two neighbours. -/
def QByteArrayList.join (l : List QByteArray) (sep : Char) : QByteArray :=
  String.mk (List.intercalate [sep] (l.map String.toList))

/-! ## LingmoVirtualDesktopManagement -/

/-- The signals of `LingmoVirtualDesktopManagement` that the listeners below emit. -/
inductive VirtualDesktopSignal where
  | rowsChanged (rows : Nat)
  | done
deriving DecidableEq, Repr

/-- The data members of `LingmoVirtualDesktopManagement::Private` (the event queue apart);
`desktops` holds the pointers to the `LingmoVirtualDesktop` objects. -/
structure LingmoVirtualDesktopManagement.Private where
  lingmovirtualdesktopmanagement : Option WlProxy := none
  rows : Nat := 1
  desktops : List Nat := []
deriving DecidableEq, Repr

/-- The constructor of `LingmoVirtualDesktopManagement::Private`. -/
def LingmoVirtualDesktopManagement.Private.new : LingmoVirtualDesktopManagement.Private := {}

/-- The member function `LingmoVirtualDesktopManagement::Private::setup`; `none` is a failed
assertion (a handle is set already). -/
def LingmoVirtualDesktopManagement.Private.setup (arg : WlProxy)
    (d : LingmoVirtualDesktopManagement.Private) :
    Option (LingmoVirtualDesktopManagement.Private) :=
  match d.lingmovirtualdesktopmanagement with
  | some _ => none
  | none => some { d with lingmovirtualdesktopmanagement := some arg }

/-- The listener `LingmoVirtualDesktopManagement::Private::rowsCallback`; `rows` is a
`uint32_t`. -/
def LingmoVirtualDesktopManagement.Private.rowsCallback (rows : Nat)
    (d : LingmoVirtualDesktopManagement.Private) :
    LingmoVirtualDesktopManagement.Private × List VirtualDesktopSignal :=
  if rows = 0 then
    (d, [])
  else
    ({ d with rows := rows }, [VirtualDesktopSignal.rowsChanged rows])

/-- The listener `LingmoVirtualDesktopManagement::Private::doneCallback`. -/
def LingmoVirtualDesktopManagement.Private.doneCallback
    (d : LingmoVirtualDesktopManagement.Private) :
    LingmoVirtualDesktopManagement.Private × List VirtualDesktopSignal :=
  (d, [VirtualDesktopSignal.done])

/-- The accessor `LingmoVirtualDesktopManagement::rows`. -/
def LingmoVirtualDesktopManagement.rows (d : LingmoVirtualDesktopManagement.Private) : Nat :=
  d.rows

/-- The events of the management object that the listeners above handle. -/
inductive VirtualDesktopEvent where
  | rows (rows : Nat)
  | done
deriving DecidableEq, Repr

/-- Handle one event. -/
def VirtualDesktopEvent.handle :
    VirtualDesktopEvent → LingmoVirtualDesktopManagement.Private →
      LingmoVirtualDesktopManagement.Private × List VirtualDesktopSignal
  | VirtualDesktopEvent.rows n, d => d.rowsCallback n
  | VirtualDesktopEvent.done, d => d.doneCallback

/-- Handle the events in order, collecting the signals. -/
def VirtualDesktopEvent.handleAll :
    List VirtualDesktopEvent → LingmoVirtualDesktopManagement.Private →
      LingmoVirtualDesktopManagement.Private × List VirtualDesktopSignal
  | [], d => (d, [])
  | e :: es, d =>
    let r := e.handle d
    let r2 := VirtualDesktopEvent.handleAll es r.1
    (r2.1, r.2 ++ r2.2)

/-! # Theorems -/

theorem Heap.window_eq_some_iff (s : Heap) (w : Nat) (p : LingmoWindow.Private) :
    s.window w = some p ↔ s.windowObjects[w]? = some (some p) := by
  unfold Heap.window
  rw [List.getD_eq_getElem?_getD]
  cases h : s.windowObjects[w]? with
  | none => simp
  | some o => simp

theorem Heap.lt_of_window (s : Heap) (w : Nat) (p : LingmoWindow.Private)
    (h : s.window w = some p) : w < s.windowObjects.length := by
  rw [Heap.window_eq_some_iff] at h
  by_contra hn
  rw [List.getElem?_eq_none (by omega)] at h
  exact absurd h (by simp)

theorem Heap.window_setWindow_self (s : Heap) (w : Nat) (p : LingmoWindow.Private)
    (h : w < s.windowObjects.length) : (s.setWindow w p).window w = some p := by
  simp [Heap.window, Heap.setWindow, List.getD_eq_getElem?_getD, h]

theorem Heap.window_setWindow_ne (s : Heap) (w v : Nat) (p : LingmoWindow.Private)
    (h : w ≠ v) : (s.setWindow w p).window v = s.window v := by
  simp [Heap.window, Heap.setWindow, List.getD_eq_getElem?_getD, List.getElem?_set_ne h]

theorem Heap.setWindow_setWindow (s : Heap) (w : Nat) (p q : LingmoWindow.Private) :
    (s.setWindow w p).setWindow w q = s.setWindow w q := by
  simp [Heap.setWindow, List.set_set]

theorem Heap.setWindow_same (s : Heap) (w : Nat) (p : LingmoWindow.Private)
    (h : s.window w = some p) : s.setWindow w p = s := by
  rw [Heap.window_eq_some_iff] at h
  have : s.windowObjects.set w (some p) = s.windowObjects := by
    apply List.ext_getElem?
    intro i
    rw [List.getElem?_set]
    split
    · subst_vars
      split
      · exact h.symm
      · rename_i hn
        rw [List.getElem?_eq_none (by omega)]
    · rfl
  simp [Heap.setWindow, this]

theorem LingmoWindow.Private.setFullscreen_setWindow (T : Heap) (w : Nat)
    (h : w < T.windowObjects.length) (q : LingmoWindow.Private) (b : Bool) :
    LingmoWindow.Private.setFullscreen w b (T.setWindow w q) =
      (T.setWindow w { q with fullscreen := b },
        if q.fullscreen = b then [] else [Signal.window w WindowSignal.fullscreenChanged]) := by
  unfold LingmoWindow.Private.setFullscreen
  rw [Heap.window_setWindow_self T w q h]
  by_cases hq : q.fullscreen = b
  · subst hq
    simp
  · simp [hq, LingmoWindow.emit, Heap.setWindow_setWindow]

theorem LingmoWindow.Private.setKeepAbove_setWindow (T : Heap) (w : Nat)
    (h : w < T.windowObjects.length) (q : LingmoWindow.Private) (b : Bool) :
    LingmoWindow.Private.setKeepAbove w b (T.setWindow w q) =
      (T.setWindow w { q with keepAbove := b },
        if q.keepAbove = b then [] else [Signal.window w WindowSignal.keepAboveChanged]) := by
  unfold LingmoWindow.Private.setKeepAbove
  rw [Heap.window_setWindow_self T w q h]
  by_cases hq : q.keepAbove = b
  · subst hq
    simp
  · simp [hq, LingmoWindow.emit, Heap.setWindow_setWindow]

theorem LingmoWindow.Private.setKeepBelow_setWindow (T : Heap) (w : Nat)
    (h : w < T.windowObjects.length) (q : LingmoWindow.Private) (b : Bool) :
    LingmoWindow.Private.setKeepBelow w b (T.setWindow w q) =
      (T.setWindow w { q with keepBelow := b },
        if q.keepBelow = b then [] else [Signal.window w WindowSignal.keepBelowChanged]) := by
  unfold LingmoWindow.Private.setKeepBelow
  rw [Heap.window_setWindow_self T w q h]
  by_cases hq : q.keepBelow = b
  · subst hq
    simp
  · simp [hq, LingmoWindow.emit, Heap.setWindow_setWindow]

theorem LingmoWindow.Private.setMaximized_setWindow (T : Heap) (w : Nat)
    (h : w < T.windowObjects.length) (q : LingmoWindow.Private) (b : Bool) :
    LingmoWindow.Private.setMaximized w b (T.setWindow w q) =
      (T.setWindow w { q with maximized := b },
        if q.maximized = b then [] else [Signal.window w WindowSignal.maximizedChanged]) := by
  unfold LingmoWindow.Private.setMaximized
  rw [Heap.window_setWindow_self T w q h]
  by_cases hq : q.maximized = b
  · subst hq
    simp
  · simp [hq, LingmoWindow.emit, Heap.setWindow_setWindow]

theorem LingmoWindow.Private.setMinimized_setWindow (T : Heap) (w : Nat)
    (h : w < T.windowObjects.length) (q : LingmoWindow.Private) (b : Bool) :
    LingmoWindow.Private.setMinimized w b (T.setWindow w q) =
      (T.setWindow w { q with minimized := b },
        if q.minimized = b then [] else [Signal.window w WindowSignal.minimizedChanged]) := by
  unfold LingmoWindow.Private.setMinimized
  rw [Heap.window_setWindow_self T w q h]
  by_cases hq : q.minimized = b
  · subst hq
    simp
  · simp [hq, LingmoWindow.emit, Heap.setWindow_setWindow]

theorem LingmoWindow.Private.setOnAllDesktops_setWindow (T : Heap) (w : Nat)
    (h : w < T.windowObjects.length) (q : LingmoWindow.Private) (b : Bool) :
    LingmoWindow.Private.setOnAllDesktops w b (T.setWindow w q) =
      (T.setWindow w { q with onAllDesktops := b },
        if q.onAllDesktops = b then [] else [Signal.window w WindowSignal.onAllDesktopsChanged]) := by
  unfold LingmoWindow.Private.setOnAllDesktops
  rw [Heap.window_setWindow_self T w q h]
  by_cases hq : q.onAllDesktops = b
  · subst hq
    simp
  · simp [hq, LingmoWindow.emit, Heap.setWindow_setWindow]

theorem LingmoWindow.Private.setDemandsAttention_setWindow (T : Heap) (w : Nat)
    (h : w < T.windowObjects.length) (q : LingmoWindow.Private) (b : Bool) :
    LingmoWindow.Private.setDemandsAttention w b (T.setWindow w q) =
      (T.setWindow w { q with demandsAttention := b },
        if q.demandsAttention = b then [] else [Signal.window w WindowSignal.demandsAttentionChanged]) := by
  unfold LingmoWindow.Private.setDemandsAttention
  rw [Heap.window_setWindow_self T w q h]
  by_cases hq : q.demandsAttention = b
  · subst hq
    simp
  · simp [hq, LingmoWindow.emit, Heap.setWindow_setWindow]

theorem LingmoWindow.Private.setCloseable_setWindow (T : Heap) (w : Nat)
    (h : w < T.windowObjects.length) (q : LingmoWindow.Private) (b : Bool) :
    LingmoWindow.Private.setCloseable w b (T.setWindow w q) =
      (T.setWindow w { q with closeable := b },
        if q.closeable = b then [] else [Signal.window w WindowSignal.closeableChanged]) := by
  unfold LingmoWindow.Private.setCloseable
  rw [Heap.window_setWindow_self T w q h]
  by_cases hq : q.closeable = b
  · subst hq
    simp
  · simp [hq, LingmoWindow.emit, Heap.setWindow_setWindow]

theorem LingmoWindow.Private.setFullscreenable_setWindow (T : Heap) (w : Nat)
    (h : w < T.windowObjects.length) (q : LingmoWindow.Private) (b : Bool) :
    LingmoWindow.Private.setFullscreenable w b (T.setWindow w q) =
      (T.setWindow w { q with fullscreenable := b },
        if q.fullscreenable = b then [] else [Signal.window w WindowSignal.fullscreenableChanged]) := by
  unfold LingmoWindow.Private.setFullscreenable
  rw [Heap.window_setWindow_self T w q h]
  by_cases hq : q.fullscreenable = b
  · subst hq
    simp
  · simp [hq, LingmoWindow.emit, Heap.setWindow_setWindow]

theorem LingmoWindow.Private.setMaximizeable_setWindow (T : Heap) (w : Nat)
    (h : w < T.windowObjects.length) (q : LingmoWindow.Private) (b : Bool) :
    LingmoWindow.Private.setMaximizeable w b (T.setWindow w q) =
      (T.setWindow w { q with maximizeable := b },
        if q.maximizeable = b then [] else [Signal.window w WindowSignal.maximizeableChanged]) := by
  unfold LingmoWindow.Private.setMaximizeable
  rw [Heap.window_setWindow_self T w q h]
  by_cases hq : q.maximizeable = b
  · subst hq
    simp
  · simp [hq, LingmoWindow.emit, Heap.setWindow_setWindow]

theorem LingmoWindow.Private.setMinimizeable_setWindow (T : Heap) (w : Nat)
    (h : w < T.windowObjects.length) (q : LingmoWindow.Private) (b : Bool) :
    LingmoWindow.Private.setMinimizeable w b (T.setWindow w q) =
      (T.setWindow w { q with minimizeable := b },
        if q.minimizeable = b then [] else [Signal.window w WindowSignal.minimizeableChanged]) := by
  unfold LingmoWindow.Private.setMinimizeable
  rw [Heap.window_setWindow_self T w q h]
  by_cases hq : q.minimizeable = b
  · subst hq
    simp
  · simp [hq, LingmoWindow.emit, Heap.setWindow_setWindow]

theorem LingmoWindow.Private.setSkipTaskbar_setWindow (T : Heap) (w : Nat)
    (h : w < T.windowObjects.length) (q : LingmoWindow.Private) (b : Bool) :
    LingmoWindow.Private.setSkipTaskbar w b (T.setWindow w q) =
      (T.setWindow w { q with skipTaskbar := b },
        if q.skipTaskbar = b then [] else [Signal.window w WindowSignal.skipTaskbarChanged]) := by
  unfold LingmoWindow.Private.setSkipTaskbar
  rw [Heap.window_setWindow_self T w q h]
  by_cases hq : q.skipTaskbar = b
  · subst hq
    simp
  · simp [hq, LingmoWindow.emit, Heap.setWindow_setWindow]

theorem LingmoWindow.Private.setSkipSwitcher_setWindow (T : Heap) (w : Nat)
    (h : w < T.windowObjects.length) (q : LingmoWindow.Private) (b : Bool) :
    LingmoWindow.Private.setSkipSwitcher w b (T.setWindow w q) =
      (T.setWindow w { q with skipSwitcher := b },
        if q.skipSwitcher = b then [] else [Signal.window w WindowSignal.skipSwitcherChanged]) := by
  unfold LingmoWindow.Private.setSkipSwitcher
  rw [Heap.window_setWindow_self T w q h]
  by_cases hq : q.skipSwitcher = b
  · subst hq
    simp
  · simp [hq, LingmoWindow.emit, Heap.setWindow_setWindow]

theorem LingmoWindow.Private.setShadeable_setWindow (T : Heap) (w : Nat)
    (h : w < T.windowObjects.length) (q : LingmoWindow.Private) (b : Bool) :
    LingmoWindow.Private.setShadeable w b (T.setWindow w q) =
      (T.setWindow w { q with shadeable := b },
        if q.shadeable = b then [] else [Signal.window w WindowSignal.shadeableChanged]) := by
  unfold LingmoWindow.Private.setShadeable
  rw [Heap.window_setWindow_self T w q h]
  by_cases hq : q.shadeable = b
  · subst hq
    simp
  · simp [hq, LingmoWindow.emit, Heap.setWindow_setWindow]

theorem LingmoWindow.Private.setShaded_setWindow (T : Heap) (w : Nat)
    (h : w < T.windowObjects.length) (q : LingmoWindow.Private) (b : Bool) :
    LingmoWindow.Private.setShaded w b (T.setWindow w q) =
      (T.setWindow w { q with shaded := b },
        if q.shaded = b then [] else [Signal.window w WindowSignal.shadedChanged]) := by
  unfold LingmoWindow.Private.setShaded
  rw [Heap.window_setWindow_self T w q h]
  by_cases hq : q.shaded = b
  · subst hq
    simp
  · simp [hq, LingmoWindow.emit, Heap.setWindow_setWindow]

theorem LingmoWindow.Private.setMovable_setWindow (T : Heap) (w : Nat)
    (h : w < T.windowObjects.length) (q : LingmoWindow.Private) (b : Bool) :
    LingmoWindow.Private.setMovable w b (T.setWindow w q) =
      (T.setWindow w { q with movable := b },
        if q.movable = b then [] else [Signal.window w WindowSignal.movableChanged]) := by
  unfold LingmoWindow.Private.setMovable
  rw [Heap.window_setWindow_self T w q h]
  by_cases hq : q.movable = b
  · subst hq
    simp
  · simp [hq, LingmoWindow.emit, Heap.setWindow_setWindow]

theorem LingmoWindow.Private.setResizable_setWindow (T : Heap) (w : Nat)
    (h : w < T.windowObjects.length) (q : LingmoWindow.Private) (b : Bool) :
    LingmoWindow.Private.setResizable w b (T.setWindow w q) =
      (T.setWindow w { q with resizable := b },
        if q.resizable = b then [] else [Signal.window w WindowSignal.resizableChanged]) := by
  unfold LingmoWindow.Private.setResizable
  rw [Heap.window_setWindow_self T w q h]
  by_cases hq : q.resizable = b
  · subst hq
    simp
  · simp [hq, LingmoWindow.emit, Heap.setWindow_setWindow]

theorem LingmoWindow.Private.setVirtualDesktopChangeable_setWindow (T : Heap) (w : Nat)
    (h : w < T.windowObjects.length) (q : LingmoWindow.Private) (b : Bool) :
    LingmoWindow.Private.setVirtualDesktopChangeable w b (T.setWindow w q) =
      (T.setWindow w { q with virtualDesktopChangeable := b },
        if q.virtualDesktopChangeable = b then [] else [Signal.window w WindowSignal.virtualDesktopChangeableChanged]) := by
  unfold LingmoWindow.Private.setVirtualDesktopChangeable
  rw [Heap.window_setWindow_self T w q h]
  by_cases hq : q.virtualDesktopChangeable = b
  · subst hq
    simp
  · simp [hq, LingmoWindow.emit, Heap.setWindow_setWindow]


theorem Heap.withActiveWindow_self (s : Heap) : s.withActiveWindow s.d.activeWindow = s := rfl

theorem LingmoWindow.Private.setActive_eq (s : Heap) (w : Nat) (p : LingmoWindow.Private)
    (b : Bool) (h : s.window w = some p) :
    LingmoWindow.Private.setActive w b s =
      ((s.withActiveWindow (activeWindowAfter s w p b)).setWindow w { p with active := b },
        (if p.active = b then [] else [Signal.window w WindowSignal.activeChanged]) ++
          (if activeWindowAfter s w p b = s.d.activeWindow then []
           else [Signal.activeWindowChanged])) := by
  have hlt := Heap.lt_of_window s w p h
  unfold LingmoWindow.Private.setActive
  rw [h]
  by_cases hq : p.active = b
  · subst hq
    simp [activeWindowAfter, Heap.withActiveWindow_self, Heap.setWindow_same s w p h]
  · simp only [hq, if_false, LingmoWindow.emitActiveChanged,
      LingmoWindowManagement.Private.activeChangedSlot,
      Heap.window_setWindow_self s w _ hlt, activeWindowAfter]
    by_cases ha : s.d.activeWindow = some w
    · cases hu : p.unmapped <;> cases b <;> simp [hu, ha, Heap.setWindow, Heap.withActiveWindow]
      all_goals rw [← ha]
    · have hne : ¬some w = s.d.activeWindow := fun e => ha e.symm
      cases hu : p.unmapped <;> cases b <;>
        simp [hu, ha, hne, Heap.setWindow, Heap.withActiveWindow]

theorem LingmoWindow.Private.stateChangedCallback_eq (B : StateEnum) (s : Heap) (w : Nat)
    (p : LingmoWindow.Private) (state : Nat) (h : s.window w = some p) :
    LingmoWindow.Private.stateChangedCallback B w state s =
      ((s.withActiveWindow (activeWindowAfter s w p (maskToBool state B.ACTIVE))).setWindow w
          (p.decoded B state),
        stateChangedSignals B s w p state) := by
  have hlt : w < (s.withActiveWindow
      (activeWindowAfter s w p (maskToBool state B.ACTIVE))).windowObjects.length :=
    Heap.lt_of_window s w p h
  simp only [LingmoWindow.Private.stateChangedCallback, runAll,
    LingmoWindow.Private.setActive_eq s w p _ h,
    LingmoWindow.Private.setMinimized_setWindow _ w hlt,
    LingmoWindow.Private.setMaximized_setWindow _ w hlt,
    LingmoWindow.Private.setFullscreen_setWindow _ w hlt,
    LingmoWindow.Private.setKeepAbove_setWindow _ w hlt,
    LingmoWindow.Private.setKeepBelow_setWindow _ w hlt,
    LingmoWindow.Private.setOnAllDesktops_setWindow _ w hlt,
    LingmoWindow.Private.setDemandsAttention_setWindow _ w hlt,
    LingmoWindow.Private.setCloseable_setWindow _ w hlt,
    LingmoWindow.Private.setFullscreenable_setWindow _ w hlt,
    LingmoWindow.Private.setMaximizeable_setWindow _ w hlt,
    LingmoWindow.Private.setMinimizeable_setWindow _ w hlt,
    LingmoWindow.Private.setSkipTaskbar_setWindow _ w hlt,
    LingmoWindow.Private.setSkipSwitcher_setWindow _ w hlt,
    LingmoWindow.Private.setShadeable_setWindow _ w hlt,
    LingmoWindow.Private.setShaded_setWindow _ w hlt,
    LingmoWindow.Private.setMovable_setWindow _ w hlt,
    LingmoWindow.Private.setResizable_setWindow _ w hlt,
    LingmoWindow.Private.setVirtualDesktopChangeable_setWindow _ w hlt,
    List.append_nil, stateChangedSignals, LingmoWindow.Private.decoded, List.append_assoc]

theorem count_window_ite (c : Prop) [Decidable c] (x y : Signal) :
    List.count x (if c then [] else [y]) = if c then 0 else if y = x then 1 else 0 := by
  by_cases hc : c <;> by_cases hxy : y = x <;> simp [hc, hxy, List.count_cons]

theorem mem_ite_nil_singleton (c : Prop) [Decidable c] (x y : Signal) :
    x ∈ (if c then [] else [y]) ↔ ¬c ∧ x = y := by
  by_cases hc : c <;> simp [hc]

theorem LingmoWindow.Private.decoded_decoded (B : StateEnum) (state : Nat)
    (p : LingmoWindow.Private) : (p.decoded B state).decoded B state = p.decoded B state := rfl

theorem stateChangedSignals_decoded (B : StateEnum) (s : Heap) (w : Nat)
    (p : LingmoWindow.Private) (state : Nat) :
    stateChangedSignals B s w (p.decoded B state) state = [] := by
  simp [stateChangedSignals, LingmoWindow.Private.decoded, activeWindowAfter]

/-- C1: a `stateChanged(mask)` event on a window emits the change signal of a boolean flag exactly
once when the decoded bit differs from the cached value and not at all otherwise, every window
signal it emits is such a change signal of that window, and the same event once more emits
nothing and leaves the whole state as it is. -/
theorem stateChanged_notifies_exactly_the_changed_flags (B : StateEnum) (s : Heap) (w : Nat)
    (p : LingmoWindow.Private) (state : Nat) (h : s.window w = some p) :
    (∀ f : StateFlag,
      (LingmoWindow.Private.stateChangedCallback B w state s).2.count
          (Signal.window w f.changed) =
        if f.cached p = maskToBool state (f.bit B) then 0 else 1) ∧
    (∀ (v : Nat) (sig : WindowSignal),
      Signal.window v sig ∈ (LingmoWindow.Private.stateChangedCallback B w state s).2 →
        v = w ∧ ∃ f : StateFlag, sig = f.changed ∧ f.cached p ≠ maskToBool state (f.bit B)) ∧
    LingmoWindow.Private.stateChangedCallback B w state
        (LingmoWindow.Private.stateChangedCallback B w state s).1 =
      ((LingmoWindow.Private.stateChangedCallback B w state s).1, []) := by
  rw [LingmoWindow.Private.stateChangedCallback_eq B s w p state h]
  refine ⟨?_, ?_, ?_⟩
  · intro f
    cases f <;>
      simp [stateChangedSignals, StateFlag.changed, StateFlag.cached, StateFlag.bit,
        List.count_append, count_window_ite, List.count_cons]
  · intro v sig hmem
    simp only [stateChangedSignals, List.mem_append, mem_ite_nil_singleton] at hmem
    repeat' rcases hmem with hmem | hmem
    all_goals obtain ⟨hc, hx⟩ := hmem
    all_goals cases hx
    all_goals refine ⟨rfl, ?_⟩
    all_goals first
      | exact ⟨StateFlag.active, rfl, hc⟩
      | exact ⟨StateFlag.minimized, rfl, hc⟩
      | exact ⟨StateFlag.maximized, rfl, hc⟩
      | exact ⟨StateFlag.fullscreen, rfl, hc⟩
      | exact ⟨StateFlag.keepAbove, rfl, hc⟩
      | exact ⟨StateFlag.keepBelow, rfl, hc⟩
      | exact ⟨StateFlag.onAllDesktops, rfl, hc⟩
      | exact ⟨StateFlag.demandsAttention, rfl, hc⟩
      | exact ⟨StateFlag.closeable, rfl, hc⟩
      | exact ⟨StateFlag.fullscreenable, rfl, hc⟩
      | exact ⟨StateFlag.maximizeable, rfl, hc⟩
      | exact ⟨StateFlag.minimizeable, rfl, hc⟩
      | exact ⟨StateFlag.skipTaskbar, rfl, hc⟩
      | exact ⟨StateFlag.skipSwitcher, rfl, hc⟩
      | exact ⟨StateFlag.shadeable, rfl, hc⟩
      | exact ⟨StateFlag.shaded, rfl, hc⟩
      | exact ⟨StateFlag.movable, rfl, hc⟩
      | exact ⟨StateFlag.resizable, rfl, hc⟩
      | exact ⟨StateFlag.virtualDesktopChangeable, rfl, hc⟩
  · have hlt := Heap.lt_of_window s w p h
    have h1 : ((s.withActiveWindow (activeWindowAfter s w p (maskToBool state B.ACTIVE))).setWindow
        w (p.decoded B state)).window w = some (p.decoded B state) :=
      Heap.window_setWindow_self _ w _ hlt
    rw [LingmoWindow.Private.stateChangedCallback_eq B _ w _ state h1,
      stateChangedSignals_decoded, LingmoWindow.Private.decoded_decoded]
    have h2 : activeWindowAfter ((s.withActiveWindow
        (activeWindowAfter s w p (maskToBool state B.ACTIVE))).setWindow w (p.decoded B state))
        w (p.decoded B state) (maskToBool state B.ACTIVE) =
        ((s.withActiveWindow (activeWindowAfter s w p (maskToBool state B.ACTIVE))).setWindow w
          (p.decoded B state)).d.activeWindow := by
      simp [activeWindowAfter, LingmoWindow.Private.decoded]
    rw [h2, Heap.withActiveWindow_self, Heap.setWindow_setWindow]

/-- C2: after a `stateChanged(mask)` event every one of the 19 cached boolean flags of the window
is the truth value of the mask at that flag's own protocol bit, no other cached member of the
window has changed, and no other window has changed. -/
theorem stateChanged_decodes_every_bit (B : StateEnum) (s : Heap) (w : Nat)
    (p : LingmoWindow.Private) (state : Nat) (h : s.window w = some p) :
    ∃ p1 : LingmoWindow.Private,
      (LingmoWindow.Private.stateChangedCallback B w state s).1.window w = some p1 ∧
      (∀ f : StateFlag, f.cached p1 = maskToBool state (f.bit B)) ∧
      (p1.title = p.title ∧ p1.appId = p.appId ∧ p1.pid = p.pid ∧ p1.geometry = p.geometry ∧
        p1.lingmoVirtualDesktops = p.lingmoVirtualDesktops ∧
        p1.lingmoActivities = p.lingmoActivities ∧ p1.parentWindow = p.parentWindow) ∧
      (p1.window = p.window ∧ p1.internalId = p.internalId ∧ p1.uuid = p.uuid ∧
        p1.desktop = p.desktop ∧ p1.icon = p.icon ∧ p1.wm = p.wm ∧ p1.unmapped = p.unmapped ∧
        p1.parentWindowUnmappedConnection = p.parentWindowUnmappedConnection ∧
        p1.resourceName = p.resourceName ∧
        p1.applicationMenuServiceName = p.applicationMenuServiceName ∧
        p1.applicationMenuObjectPath = p.applicationMenuObjectPath ∧
        p1.clientGeometry = p.clientGeometry ∧ p1.unmappedSlots = p.unmappedSlots) ∧
      (∀ v : Nat, v ≠ w →
        (LingmoWindow.Private.stateChangedCallback B w state s).1.window v = s.window v) := by
  have hlt := Heap.lt_of_window s w p h
  rw [LingmoWindow.Private.stateChangedCallback_eq B s w p state h]
  refine ⟨p.decoded B state, Heap.window_setWindow_self _ w _ hlt, ?_, ?_, ?_, ?_⟩
  · intro f
    cases f <;> rfl
  · exact ⟨rfl, rfl, rfl, rfl, rfl, rfl, rfl⟩
  · exact ⟨rfl, rfl, rfl, rfl, rfl, rfl, rfl, rfl, rfl, rfl, rfl, rfl, rfl⟩
  · intro v hv
    rw [Heap.window_setWindow_ne _ w v _ (fun e => hv e.symm)]
    rfl

theorem Heap.SameStatus.refl (s : Heap) : Heap.SameStatus s s :=
  ⟨rfl, rfl, rfl, fun _ => rfl⟩

theorem Heap.SameStatus.trans {s t u : Heap} (h1 : Heap.SameStatus s t)
    (h2 : Heap.SameStatus t u) : Heap.SameStatus s u :=
  ⟨h2.1.trans h1.1, h2.2.1.trans h1.2.1, h2.2.2.1.trans h1.2.2.1,
    fun v => (h2.2.2.2 v).trans (h1.2.2.2 v)⟩

theorem Heap.sameStatus_setWindow (s : Heap) (w : Nat) (p q : LingmoWindow.Private)
    (h : s.window w = some p) (hq : q.status = p.status) :
    Heap.SameStatus s (s.setWindow w q) := by
  have hlt := Heap.lt_of_window s w p h
  refine ⟨rfl, rfl, by simp [Heap.setWindow], fun v => ?_⟩
  by_cases hv : w = v
  · subst hv
    rw [Heap.window_setWindow_self s w q hlt, h]
    simp [hq]
  · rw [Heap.window_setWindow_ne s w v q hv]

theorem LingmoWindow.Private.sameStatus_disconnectParentWindowUnmapped (self : Nat) (s : Heap) :
    Heap.SameStatus s (LingmoWindow.Private.disconnectParentWindowUnmapped self s) := by
  unfold LingmoWindow.Private.disconnectParentWindowUnmapped
  split
  · exact Heap.SameStatus.refl s
  · split
    · exact Heap.SameStatus.refl s
    · split
      · exact Heap.SameStatus.refl s
      · rename_i ps hps
        exact Heap.sameStatus_setWindow s _ ps _ hps rfl

theorem LingmoWindow.Private.sameStatus_connectParentWindowUnmapped (self parent : Nat)
    (s : Heap) :
    Heap.SameStatus s (LingmoWindow.Private.connectParentWindowUnmapped self parent s) := by
  unfold LingmoWindow.Private.connectParentWindowUnmapped
  split
  · exact Heap.SameStatus.refl s
  · rename_i pp hpp
    exact Heap.sameStatus_setWindow s _ pp _ hpp rfl

theorem Heap.sameStatus_modifyWindow (s : Heap) (w : Nat)
    (f : LingmoWindow.Private → LingmoWindow.Private) (hf : ∀ p, (f p).status = p.status) :
    Heap.SameStatus s (s.modifyWindow w f) := by
  unfold Heap.modifyWindow
  split
  · exact Heap.SameStatus.refl s
  · rename_i p hp
    exact Heap.sameStatus_setWindow s w p _ hp (hf p)

theorem LingmoWindow.Private.setParentWindow_spec (self : Nat) (parent : Option Nat) (s : Heap) :
    Heap.SameStatus s (LingmoWindow.Private.setParentWindow self parent s).1 ∧
      ∀ x ∈ (LingmoWindow.Private.setParentWindow self parent s).2,
        x = Signal.window self WindowSignal.parentWindowChanged := by
  unfold LingmoWindow.Private.setParentWindow
  split
  · exact ⟨Heap.SameStatus.refl s, by simp⟩
  · have h1 := LingmoWindow.Private.sameStatus_disconnectParentWindowUnmapped self s
    have h3 : Heap.SameStatus s (match LingmoWindow.Private.mappedParent
          (LingmoWindow.Private.disconnectParentWindowUnmapped self s) parent with
        | some q =>
          LingmoWindow.Private.connectParentWindowUnmapped self q
            ((LingmoWindow.Private.disconnectParentWindowUnmapped self s).modifyWindow self
              (fun p => { p with parentWindow := some q, parentWindowUnmappedConnection := some q }))
        | none =>
          (LingmoWindow.Private.disconnectParentWindowUnmapped self s).modifyWindow self
            (fun p => { p with parentWindow := none, parentWindowUnmappedConnection := none })) := by
      split
      · refine Heap.SameStatus.trans ?_
          (LingmoWindow.Private.sameStatus_connectParentWindowUnmapped _ _ _)
        exact h1.trans (Heap.sameStatus_modifyWindow _ _ _ (fun _ => rfl))
      · exact h1.trans (Heap.sameStatus_modifyWindow _ _ _ (fun _ => rfl))
    dsimp only
    split
    · exact ⟨h3, by simp [LingmoWindow.emit]⟩
    · exact ⟨h3, by simp⟩
theorem Heap.status_of_map_eq {s t : Heap} {v : Nat} {p : LingmoWindow.Private}
    (h : (t.window v).map LingmoWindow.Private.status =
      (s.window v).map LingmoWindow.Private.status)
    (hp : t.window v = some p) :
    ∃ q : LingmoWindow.Private, s.window v = some q ∧ q.active = p.active ∧
      q.unmapped = p.unmapped := by
  rw [hp] at h
  cases hs : s.window v with
  | none => rw [hs] at h; simp at h
  | some q =>
    rw [hs] at h
    simp only [Option.map_some', Option.some.injEq, LingmoWindow.Private.status,
      Prod.mk.injEq] at h
    exact ⟨q, rfl, h.1.symm, h.2.symm⟩

theorem Heap.activeWindowInv_congr {s t : Heap} (hw : t.d.windows = s.d.windows)
    (ha : t.d.activeWindow = s.d.activeWindow)
    (hst : ∀ v : Nat, (t.window v).map LingmoWindow.Private.status =
      (s.window v).map LingmoWindow.Private.status)
    (h : s.ActiveWindowInv) : t.ActiveWindowInv := by
  constructor
  · intro w p hp hu
    obtain ⟨q, hq, _, hqu⟩ := Heap.status_of_map_eq (hst w) hp
    rw [hw]
    exact h.1 w q hq (hqu.trans hu)
  · intro a haa
    rw [ha] at haa
    obtain ⟨p, hp, hpu, hpa⟩ := h.2 a haa
    obtain ⟨q, hq, hqa, hqu⟩ := Heap.status_of_map_eq (hst a).symm hp
    exact ⟨q, hq, hqu.trans hpu, hqa.trans hpa⟩

theorem Heap.activeWindowInv_sameStatus {s t : Heap} (hst : Heap.SameStatus s t)
    (h : s.ActiveWindowInv) : t.ActiveWindowInv :=
  Heap.activeWindowInv_congr (by rw [hst.1]) (by rw [hst.1]) hst.2.2.2 h

theorem runAll_setParentWindow_spec (cs : List Nat) (s : Heap) :
    Heap.SameStatus s
        (runAll (cs.map (fun c => LingmoWindow.Private.setParentWindow c none)) s).1 ∧
      ∀ x ∈ (runAll (cs.map (fun c => LingmoWindow.Private.setParentWindow c none)) s).2,
        ∃ c : Nat, x = Signal.window c WindowSignal.parentWindowChanged := by
  induction cs generalizing s with
  | nil => exact ⟨Heap.SameStatus.refl s, by simp [runAll]⟩
  | cons c cs ih =>
    have h1 := LingmoWindow.Private.setParentWindow_spec c none s
    have h2 := ih (LingmoWindow.Private.setParentWindow c none s).1
    simp only [List.map_cons, runAll]
    refine ⟨h1.1.trans h2.1, ?_⟩
    intro x hx
    rcases List.mem_append.1 hx with hx | hx
    · exact ⟨c, h1.2 x hx⟩
    · exact h2.2 x hx

theorem LingmoWindow.Private.stateChangedCallback_dead (B : StateEnum) (s : Heap) (w : Nat)
    (state : Nat) (h : s.window w = none) :
    LingmoWindow.Private.stateChangedCallback B w state s = (s, []) := by
  simp [LingmoWindow.Private.stateChangedCallback, runAll, h,
    LingmoWindow.Private.setActive, LingmoWindow.Private.setMinimized,
    LingmoWindow.Private.setMaximized, LingmoWindow.Private.setFullscreen,
    LingmoWindow.Private.setKeepAbove, LingmoWindow.Private.setKeepBelow,
    LingmoWindow.Private.setOnAllDesktops, LingmoWindow.Private.setDemandsAttention,
    LingmoWindow.Private.setCloseable, LingmoWindow.Private.setFullscreenable,
    LingmoWindow.Private.setMaximizeable, LingmoWindow.Private.setMinimizeable,
    LingmoWindow.Private.setSkipTaskbar, LingmoWindow.Private.setSkipSwitcher,
    LingmoWindow.Private.setShadeable, LingmoWindow.Private.setShaded,
    LingmoWindow.Private.setMovable, LingmoWindow.Private.setResizable,
    LingmoWindow.Private.setVirtualDesktopChangeable]
theorem LingmoWindowManagement.Private.windowRemoved_eq (w : Nat) (s : Heap) :
    LingmoWindowManagement.Private.windowRemoved w s =
      ({ s with d := { s.d with
            windows := s.d.windows.filter (fun v => v != w),
            activeWindow := if s.d.activeWindow = some w then none else s.d.activeWindow } },
        if s.d.activeWindow = some w then [Signal.activeWindowChanged] else []) := by
  unfold LingmoWindowManagement.Private.windowRemoved
  by_cases h : s.d.activeWindow = some w <;> simp [h]

theorem LingmoWindow.Private.unmappedCallback_spec (w : Nat) (s : Heap)
    (p : LingmoWindow.Private) (h : s.window w = some p) :
    ∃ (t : Heap) (sigs : List Signal),
      LingmoWindow.Private.unmappedCallback w s =
        (t, Signal.window w WindowSignal.unmapped ::
          ((if s.d.activeWindow = some w then [Signal.activeWindowChanged] else []) ++ sigs)) ∧
      Heap.SameStatus
        (LingmoWindowManagement.Private.windowRemoved w
          (s.setWindow w { p with unmapped := true })).1 t ∧
      ∀ x ∈ sigs, ∃ c : Nat, x = Signal.window c WindowSignal.parentWindowChanged := by
  have hlt := Heap.lt_of_window s w p h
  have hspec := runAll_setParentWindow_spec p.unmappedSlots
    (LingmoWindowManagement.Private.windowRemoved w (s.setWindow w { p with unmapped := true })).1
  refine ⟨_, _, ?_, hspec.1, hspec.2⟩
  simp only [LingmoWindow.Private.unmappedCallback, h, LingmoWindow.emitUnmapped,
    Heap.window_setWindow_self s w _ hlt, runAll,
    LingmoWindowManagement.Private.windowRemoved_eq]
  rfl

theorem LingmoWindow.destructor_spec (w : Nat) (s : Heap) (p : LingmoWindow.Private)
    (h : s.window w = some p) :
    (LingmoWindow.destructor w s).2 =
        Signal.window w WindowSignal.destroyed ::
          (if s.d.activeWindow = some w then [Signal.activeWindowChanged] else []) ∧
      (LingmoWindow.destructor w s).1.d = (LingmoWindowManagement.Private.windowRemoved w s).1.d ∧
      (LingmoWindow.destructor w s).1.stackingOrders = s.stackingOrders ∧
      (LingmoWindow.destructor w s).1.windowObjects.length = s.windowObjects.length ∧
      (LingmoWindow.destructor w s).1.window w = none ∧
      ∀ v : Nat, v ≠ w →
        ((LingmoWindow.destructor w s).1.window v).map LingmoWindow.Private.status =
          (s.window v).map LingmoWindow.Private.status := by
  have hlt := Heap.lt_of_window s w p h
  have h1 := LingmoWindow.Private.sameStatus_disconnectParentWindowUnmapped w
    (LingmoWindowManagement.Private.windowRemoved w s).1
  have hl : w < (LingmoWindow.Private.disconnectParentWindowUnmapped w
      (LingmoWindowManagement.Private.windowRemoved w s).1).windowObjects.length := by
    rw [h1.2.2.1, LingmoWindowManagement.Private.windowRemoved_eq]
    exact hlt
  simp only [LingmoWindow.destructor, h]
  refine ⟨?_, h1.1, ?_, ?_, ?_, ?_⟩
  · rw [LingmoWindowManagement.Private.windowRemoved_eq]
  · rw [LingmoWindowManagement.Private.windowRemoved_eq] at h1 ⊢
    exact h1.2.1
  · rw [LingmoWindowManagement.Private.windowRemoved_eq] at h1 ⊢
    simpa using h1.2.2.1
  · simp [Heap.window, List.getD_eq_getElem?_getD, List.getElem?_map, hl]
  · intro v hv
    have h2 := h1.2.2.2 v
    have h3 : (LingmoWindowManagement.Private.windowRemoved w s).1.window v = s.window v := by
      rw [LingmoWindowManagement.Private.windowRemoved_eq]
      rfl
    rw [h3] at h2
    rw [← h2]
    simp only [Heap.window, List.getD_eq_getElem?_getD, List.getElem?_map,
      List.getElem?_set_ne (fun e => hv e.symm)]
    cases hx : (LingmoWindow.Private.disconnectParentWindowUnmapped w
      (LingmoWindowManagement.Private.windowRemoved w s).1).windowObjects[v]? with
    | none => simp
    | some o =>
      cases o with
      | none => simp
      | some q =>
        by_cases hq : q.parentWindow = some w <;> simp [hq, LingmoWindow.Private.status]
theorem Heap.mem_filter_ne {l : List Nat} {v w : Nat} (hv : v ∈ l) (hne : v ≠ w) :
    v ∈ l.filter (fun x => x != w) := by
  simp [List.mem_filter, hv, hne]

theorem LingmoWindow.Private.stateChangedCallback_inv (B : StateEnum) (s : Heap) (w : Nat)
    (state : Nat) (h : s.ActiveWindowInv) :
    (LingmoWindow.Private.stateChangedCallback B w state s).1.ActiveWindowInv := by
  cases hw : s.window w with
  | none =>
    rw [LingmoWindow.Private.stateChangedCallback_dead B s w state hw]
    exact h
  | some p =>
    have hlt := Heap.lt_of_window s w p hw
    rw [LingmoWindow.Private.stateChangedCallback_eq B s w p state hw]
    have hwin : ∀ v : Nat,
        ((s.withActiveWindow (activeWindowAfter s w p (maskToBool state B.ACTIVE))).setWindow w
          (p.decoded B state)).window v =
        if v = w then some (p.decoded B state) else s.window v := by
      intro v
      by_cases hv : v = w
      · subst hv
        rw [if_pos rfl]
        exact Heap.window_setWindow_self _ v _ hlt
      · rw [if_neg hv, Heap.window_setWindow_ne _ w v _ (fun e => hv e.symm)]
        rfl
    constructor
    · intro v q hq hu
      rw [hwin v] at hq
      by_cases hv : v = w
      · subst hv
        rw [if_pos rfl] at hq
        have hq2 : q = p.decoded B state := (Option.some.inj hq).symm
        subst hq2
        exact h.1 v p hw hu
      · rw [if_neg hv] at hq
        exact h.1 v q hq hu
    · intro a ha
      have ha2 : activeWindowAfter s w p (maskToBool state B.ACTIVE) = some a := ha
      by_cases haw : a = w
      · subst haw
        refine ⟨p.decoded B state, by rw [hwin a, if_pos rfl], ?_, ?_⟩
        · show p.unmapped = false
          unfold activeWindowAfter at ha2
          split at ha2
          · exact (h.2 a ha2).elim (fun q hq => by rw [hw] at hq; cases hq.1; exact hq.2.1)
          · split at ha2
            · exact (h.2 a ha2).elim (fun q hq => by rw [hw] at hq; cases hq.1; exact hq.2.1)
            · rename_i hu
              simpa using hu
        · show maskToBool state B.ACTIVE = true
          unfold activeWindowAfter at ha2
          split at ha2
          · rename_i hpa
            rw [← hpa]
            exact (h.2 a ha2).elim (fun q hq => by rw [hw] at hq; cases hq.1; exact hq.2.2)
          · split at ha2
            · rename_i hu
              obtain ⟨q, hq, hqu, _⟩ := h.2 a ha2
              rw [hw] at hq
              cases hq
              rw [hqu] at hu
              exact absurd hu (by simp)
            · split at ha2
              · assumption
              · split at ha2
                · exact absurd ha2 (by simp)
                · rename_i hne
                  exact absurd ha2 hne
      · have hs : s.d.activeWindow = some a := by
          unfold activeWindowAfter at ha2
          split at ha2
          · exact ha2
          · split at ha2
            · exact ha2
            · split at ha2
              · exact absurd (Option.some.inj ha2).symm haw
              · split at ha2
                · exact absurd ha2 (by simp)
                · exact ha2
        obtain ⟨q, hq, hqu, hqa⟩ := h.2 a hs
        exact ⟨q, by rw [hwin a, if_neg haw]; exact hq, hqu, hqa⟩

theorem LingmoWindow.Private.unmappedCallback_inv (s : Heap) (w : Nat)
    (h : s.ActiveWindowInv) : (LingmoWindow.Private.unmappedCallback w s).1.ActiveWindowInv := by
  cases hw : s.window w with
  | none =>
    simp only [LingmoWindow.Private.unmappedCallback, hw]
    exact h
  | some p =>
    have hlt := Heap.lt_of_window s w p hw
    obtain ⟨t, sigs, heq, hst, _⟩ := LingmoWindow.Private.unmappedCallback_spec w s p hw
    rw [heq]
    refine Heap.activeWindowInv_sameStatus hst ?_
    rw [LingmoWindowManagement.Private.windowRemoved_eq]
    have hwin : ∀ v : Nat, v ≠ w →
        (s.setWindow w { p with unmapped := true }).window v = s.window v :=
      fun v hv => Heap.window_setWindow_ne s w v _ (fun e => hv e.symm)
    have hww : (s.setWindow w { p with unmapped := true }).window w =
        some { p with unmapped := true } := Heap.window_setWindow_self s w _ hlt
    constructor
    · intro v q hq hu
      have hq1 : (s.setWindow w { p with unmapped := true }).window v = some q := hq
      have hv : v ≠ w := by
        intro e
        subst e
        rw [hww] at hq1
        cases hq1
        simp at hu
      rw [hwin v hv] at hq1
      exact Heap.mem_filter_ne (h.1 v q hq1 hu) hv
    · intro a ha
      have ha1 : (if s.d.activeWindow = some w then none else s.d.activeWindow) = some a := ha
      split at ha1
      · exact absurd ha1 (by simp)
      · rename_i hne
        have haw : a ≠ w := fun e => hne (e ▸ ha1)
        obtain ⟨q, hq, hqu, hqa⟩ := h.2 a ha1
        exact ⟨q, (hwin a haw).trans hq, hqu, hqa⟩

theorem LingmoWindow.destructor_inv (s : Heap) (w : Nat) (h : s.ActiveWindowInv) :
    (LingmoWindow.destructor w s).1.ActiveWindowInv := by
  cases hw : s.window w with
  | none =>
    simp only [LingmoWindow.destructor, hw]
    exact h
  | some p =>
    obtain ⟨_, hd, _, _, hdead, hst⟩ := LingmoWindow.destructor_spec w s p hw
    rw [LingmoWindowManagement.Private.windowRemoved_eq] at hd
    constructor
    · intro v q hq hu
      have hv : v ≠ w := by
        intro e
        subst e
        rw [hdead] at hq
        exact absurd hq (by simp)
      obtain ⟨q1, hq1, _, hq1u⟩ := Heap.status_of_map_eq (hst v hv) hq
      rw [hd]
      exact Heap.mem_filter_ne (h.1 v q1 hq1 (hq1u.trans hu)) hv
    · intro a ha
      rw [hd] at ha
      have ha1 : (if s.d.activeWindow = some w then none else s.d.activeWindow) = some a := ha
      split at ha1
      · exact absurd ha1 (by simp)
      · rename_i hne
        have haw : a ≠ w := fun e => hne (e ▸ ha1)
        obtain ⟨q, hq, hqu, hqa⟩ := h.2 a ha1
        obtain ⟨q1, hq1, hq1a, hq1u⟩ := Heap.status_of_map_eq (hst a haw).symm hq
        exact ⟨q1, hq1, hq1u.trans hqu, hq1a.trans hqa⟩
theorem Heap.window_append (s t : Heap) (o : Option LingmoWindow.Private)
    (ht : t.windowObjects = s.windowObjects ++ [o]) (v : Nat) :
    t.window v = if v < s.windowObjects.length then s.window v
      else if v = s.windowObjects.length then o else none := by
  unfold Heap.window
  rw [ht, List.getD_eq_getElem?_getD, List.getD_eq_getElem?_getD]
  by_cases hv : v < s.windowObjects.length
  · rw [if_pos hv, List.getElem?_append_left hv]
  · rw [if_neg hv, List.getElem?_append_right (by omega)]
    by_cases hv2 : v = s.windowObjects.length
    · subst hv2
      simp
    · rw [if_neg hv2]
      have : v - s.windowObjects.length ≠ 0 := by omega
      obtain ⟨k, hk⟩ := Nat.exists_eq_succ_of_ne_zero this
      rw [hk]
      simp

theorem LingmoWindowManagement.Private.windowCreated_eq (id : WlProxy) (internalId : Nat)
    (uuid : QByteArray) (s : Heap) (h : uuid ≠ "") :
    LingmoWindowManagement.Private.windowCreated id internalId uuid s =
      some ({ s with
          windowObjects := s.windowObjects ++
            [some { window := some id, internalId := internalId, uuid := uuid, wm := true }],
          d := { s.d with windows := s.d.windows ++ [s.windowObjects.length] } }, []) := by
  simp [LingmoWindowManagement.Private.windowCreated, h]

theorem LingmoWindowManagement.Private.windowCreated_inv (id : WlProxy) (internalId : Nat)
    (uuid : QByteArray) (s : Heap) (r : Heap × List Signal)
    (hr : LingmoWindowManagement.Private.windowCreated id internalId uuid s = some r)
    (h : s.ActiveWindowInv) : r.1.ActiveWindowInv := by
  by_cases hu : uuid = ""
  · simp [LingmoWindowManagement.Private.windowCreated, hu] at hr
  · rw [LingmoWindowManagement.Private.windowCreated_eq id internalId uuid s hu] at hr
    cases hr
    have hwin := Heap.window_append s
      { s with
          windowObjects := s.windowObjects ++
            [some { window := some id, internalId := internalId, uuid := uuid, wm := true }],
          d := { s.d with windows := s.d.windows ++ [s.windowObjects.length] } } _ rfl
    constructor
    · intro v q hq hqu
      rw [hwin v] at hq
      show v ∈ s.d.windows ++ [s.windowObjects.length]
      split at hq
      · exact List.mem_append_left _ (h.1 v q hq hqu)
      · split at hq
        · rename_i hv
          simp [hv]
        · exact absurd hq (by simp)
    · intro a ha
      obtain ⟨q, hq, hqu, hqa⟩ := h.2 a ha
      refine ⟨q, ?_, hqu, hqa⟩
      rw [hwin a, if_pos (Heap.lt_of_window s a q hq)]
      exact hq

theorem LingmoWindow.Private.parentWindowCallback_spec (w : Nat) (parent : Option WlProxy)
    (s : Heap) :
    Heap.SameStatus s (LingmoWindow.Private.parentWindowCallback w parent s).1 ∧
      ∀ x ∈ (LingmoWindow.Private.parentWindowCallback w parent s).2,
        x = Signal.window w WindowSignal.parentWindowChanged := by
  unfold LingmoWindow.Private.parentWindowCallback
  split
  · exact ⟨Heap.SameStatus.refl s, by simp⟩
  · exact LingmoWindow.Private.setParentWindow_spec w _ s

theorem LingmoWindowManagement.Private.setup_windows (since : Nat) (wm : WlProxy) (s : Heap)
    (r : Heap × List Signal) (hr : LingmoWindowManagement.Private.setup since wm s = some r) :
    r.1.d.windows = s.d.windows ∧ r.1.d.activeWindow = s.d.activeWindow ∧
      r.1.windowObjects = s.windowObjects ∧
      r.1.d.stackingOrderUuids = s.d.stackingOrderUuids ∧ r.2 = [] := by
  unfold LingmoWindowManagement.Private.setup at hr
  split at hr
  · exact absurd hr (by simp)
  · split at hr <;> cases hr <;> exact ⟨rfl, rfl, rfl, rfl, rfl⟩

theorem step_preserves_activeWindowInv (P : Protocol) (s : Heap) (e : Event)
    (r : Heap × List Signal) (hr : step P s e = some r) (h : s.ActiveWindowInv) :
    r.1.ActiveWindowInv := by
  cases e with
  | setup wm =>
    obtain ⟨h1, h2, h3, _⟩ := LingmoWindowManagement.Private.setup_windows _ wm s r hr
    exact Heap.activeWindowInv_congr h1 h2 (fun v => by simp [Heap.window, h3]) h
  | windowCreated id internalId uuid =>
    exact LingmoWindowManagement.Private.windowCreated_inv id internalId uuid s r hr h
  | stateChanged w state =>
    obtain rfl : LingmoWindow.Private.stateChangedCallback P.state w state s = r := Option.some.inj hr
    exact LingmoWindow.Private.stateChangedCallback_inv P.state s w state h
  | parentWindow w parent =>
    obtain rfl : LingmoWindow.Private.parentWindowCallback w parent s = r := Option.some.inj hr
    exact Heap.activeWindowInv_sameStatus
      (LingmoWindow.Private.parentWindowCallback_spec w parent s).1 h
  | unmapped w =>
    obtain rfl : LingmoWindow.Private.unmappedCallback w s = r := Option.some.inj hr
    exact LingmoWindow.Private.unmappedCallback_inv s w h
  | destroyed w =>
    obtain rfl : LingmoWindow.destructor w s = r := Option.some.inj hr
    exact LingmoWindow.destructor_inv s w h
  | stackingOrder ids =>
    obtain rfl : LingmoWindowManagement.Private.stackingOrderCallback ids s = r := Option.some.inj hr
    exact h
  | stackingOrderUuids uuids =>
    obtain rfl : LingmoWindowManagement.Private.stackingOrderUuidsCallback uuids s = r := Option.some.inj hr
    refine Heap.activeWindowInv_congr ?_ ?_ (fun v => ?_) h <;>
      simp only [LingmoWindowManagement.Private.stackingOrderUuidsCallback,
        LingmoWindowManagement.Private.setStackingOrder] <;> split <;> rfl
  | stackingOrder2 =>
    obtain rfl : LingmoWindowManagement.Private.stackingOrder2Callback s = r := Option.some.inj hr
    exact Heap.activeWindowInv_congr rfl rfl (fun v => rfl) h
  | stackingOrderWindow o uuid =>
    obtain rfl : LingmoWindowManagement.Private.stackingOrderWindow o uuid s = r := Option.some.inj hr
    refine Heap.activeWindowInv_congr ?_ ?_ (fun v => ?_) h <;>
      simp only [LingmoWindowManagement.Private.stackingOrderWindow] <;> split <;> rfl
  | stackingOrderDone o =>
    obtain rfl : LingmoWindowManagement.Private.stackingOrderDone o s = r := Option.some.inj hr
    refine Heap.activeWindowInv_congr ?_ ?_ (fun v => ?_) h <;>
      simp only [LingmoWindowManagement.Private.stackingOrderDone,
        LingmoWindowManagement.Private.setStackingOrder] <;> split <;>
      first | rfl | (split <;> first | rfl | (split <;> rfl))

theorem run_cons_eq_some (P : Protocol) (s : Heap) (e : Event) (es : List Event)
    (r : Heap × List Signal) (hr : run P s (e :: es) = some r) :
    ∃ r1 r2 : Heap × List Signal,
      step P s e = some r1 ∧ run P r1.1 es = some r2 ∧ r = (r2.1, r1.2 ++ r2.2) := by
  unfold run at hr
  cases h1 : step P s e with
  | none => simp [h1] at hr
  | some r1 =>
    simp only [h1] at hr
    cases h2 : run P r1.1 es with
    | none => simp [h2] at hr
    | some r2 =>
      simp only [h2, Option.some.injEq] at hr
      exact ⟨r1, r2, rfl, h2, hr.symm⟩

theorem run_preserves_activeWindowInv (P : Protocol) (evs : List Event) (s : Heap)
    (r : Heap × List Signal) (hr : run P s evs = some r) (h : s.ActiveWindowInv) :
    r.1.ActiveWindowInv := by
  induction evs generalizing s r with
  | nil =>
    simp only [run, Option.some.injEq] at hr
    subst hr
    exact h
  | cons e es ih =>
    obtain ⟨r1, r2, h1, h2, rfl⟩ := run_cons_eq_some P s e es r hr
    exact ih r1.1 r2 h2 (step_preserves_activeWindowInv P s e r1 h1 h)

theorem Heap.initial_activeWindowInv : Heap.initial.ActiveWindowInv := by
  constructor
  · intro w p hp
    simp [Heap.initial, Heap.window] at hp
  · intro a ha
    simp [Heap.initial] at ha

/-- Witness of C1: the window `A` of `sampleTwoWindows` receives the mask 5. -/
theorem stateChanged_notifies_exactly_the_changed_flags_witness :
    sampleTwoWindows.window 0 = some sampleWindowA ∧
    ((∀ f : StateFlag,
      (LingmoWindow.Private.stateChangedCallback StateEnum.sample 0 5 sampleTwoWindows).2.count
          (Signal.window 0 f.changed) =
        if f.cached sampleWindowA = maskToBool 5 (f.bit StateEnum.sample) then 0 else 1) ∧
    (∀ (v : Nat) (sig : WindowSignal),
      Signal.window v sig ∈
          (LingmoWindow.Private.stateChangedCallback StateEnum.sample 0 5 sampleTwoWindows).2 →
        v = 0 ∧ ∃ f : StateFlag, sig = f.changed ∧
          f.cached sampleWindowA ≠ maskToBool 5 (f.bit StateEnum.sample)) ∧
    LingmoWindow.Private.stateChangedCallback StateEnum.sample 0 5
        (LingmoWindow.Private.stateChangedCallback StateEnum.sample 0 5 sampleTwoWindows).1 =
      ((LingmoWindow.Private.stateChangedCallback StateEnum.sample 0 5 sampleTwoWindows).1, [])) :=
  ⟨rfl, stateChanged_notifies_exactly_the_changed_flags StateEnum.sample sampleTwoWindows 0
    sampleWindowA 5 rfl⟩

/-- Witness of C2: the window `A` of `sampleTwoWindows` receives the mask 5. -/
theorem stateChanged_decodes_every_bit_witness :
    sampleTwoWindows.window 0 = some sampleWindowA ∧
    ∃ p1 : LingmoWindow.Private,
      (LingmoWindow.Private.stateChangedCallback StateEnum.sample 0 5 sampleTwoWindows).1.window
          0 = some p1 ∧
      (∀ f : StateFlag, f.cached p1 = maskToBool 5 (f.bit StateEnum.sample)) ∧
      (p1.title = sampleWindowA.title ∧ p1.appId = sampleWindowA.appId ∧
        p1.pid = sampleWindowA.pid ∧ p1.geometry = sampleWindowA.geometry ∧
        p1.lingmoVirtualDesktops = sampleWindowA.lingmoVirtualDesktops ∧
        p1.lingmoActivities = sampleWindowA.lingmoActivities ∧
        p1.parentWindow = sampleWindowA.parentWindow) ∧
      (p1.window = sampleWindowA.window ∧ p1.internalId = sampleWindowA.internalId ∧
        p1.uuid = sampleWindowA.uuid ∧ p1.desktop = sampleWindowA.desktop ∧
        p1.icon = sampleWindowA.icon ∧ p1.wm = sampleWindowA.wm ∧
        p1.unmapped = sampleWindowA.unmapped ∧
        p1.parentWindowUnmappedConnection = sampleWindowA.parentWindowUnmappedConnection ∧
        p1.resourceName = sampleWindowA.resourceName ∧
        p1.applicationMenuServiceName = sampleWindowA.applicationMenuServiceName ∧
        p1.applicationMenuObjectPath = sampleWindowA.applicationMenuObjectPath ∧
        p1.clientGeometry = sampleWindowA.clientGeometry ∧
        p1.unmappedSlots = sampleWindowA.unmappedSlots) ∧
      (∀ v : Nat, v ≠ 0 →
        (LingmoWindow.Private.stateChangedCallback StateEnum.sample 0 5
          sampleTwoWindows).1.window v = sampleTwoWindows.window v) :=
  ⟨rfl, stateChanged_decodes_every_bit StateEnum.sample sampleTwoWindows 0 sampleWindowA 5 rfl⟩

/-- Counterexample to C3: two window-creation events that carry the same id and uuid leave two
records of that identity in `windows()`, at two different pointers. -/
theorem windowCreated_same_identity_twice_counterexample :
    (run Protocol.sample Heap.initial sampleSameIdentityTwice).map
        (fun r => (LingmoWindowManagement.windows r.1, LingmoWindowManagement.identities r.1)) =
      some ([0, 1], [(1, "u"), (1, "u")]) := by
  rfl

/-- C3, amended: a window-creation event with a non-empty uuid always creates a new window
record, with the id and uuid of the event, at a pointer that was not in use, and appends it to
`windows()`; nothing is looked up, the windows that exist stay as they are, the active window
stays and no signal is emitted. -/
theorem windowCreated_appends_a_new_record (id : WlProxy) (internalId : Nat)
    (uuid : QByteArray) (s : Heap) (h : uuid ≠ "") :
    ∃ t : Heap,
      LingmoWindowManagement.Private.windowCreated id internalId uuid s = some (t, []) ∧
      LingmoWindowManagement.windows t =
        LingmoWindowManagement.windows s ++ [s.windowObjects.length] ∧
      s.window s.windowObjects.length = none ∧
      t.window s.windowObjects.length =
        some { window := some id, internalId := internalId, uuid := uuid, wm := true } ∧
      (∀ v : Nat, v < s.windowObjects.length → t.window v = s.window v) ∧
      LingmoWindowManagement.activeWindow t = LingmoWindowManagement.activeWindow s := by
  rw [LingmoWindowManagement.Private.windowCreated_eq id internalId uuid s h]
  have hwin := Heap.window_append s
    { s with
        windowObjects := s.windowObjects ++
          [some { window := some id, internalId := internalId, uuid := uuid, wm := true }],
        d := { s.d with windows := s.d.windows ++ [s.windowObjects.length] } } _ rfl
  refine ⟨_, rfl, rfl, ?_, ?_, ?_, rfl⟩
  · simp [Heap.window, List.getD_eq_getElem?_getD]
  · rw [hwin]
    simp
  · intro v hv
    rw [hwin, if_pos hv]

/-- Witness of the amended C3: a window with uuid "u" is created while `A` and `B` exist. -/
theorem windowCreated_appends_a_new_record_witness :
    ("u" : QByteArray) ≠ "" ∧
    ∃ t : Heap,
      LingmoWindowManagement.Private.windowCreated { id := 9, version := 16 } 1 "u"
          sampleTwoWindows = some (t, []) ∧
      LingmoWindowManagement.windows t =
        LingmoWindowManagement.windows sampleTwoWindows ++
          [sampleTwoWindows.windowObjects.length] ∧
      sampleTwoWindows.window sampleTwoWindows.windowObjects.length = none ∧
      t.window sampleTwoWindows.windowObjects.length =
        some { window := some { id := 9, version := 16 }, internalId := 1, uuid := "u", wm := true } ∧
      (∀ v : Nat, v < sampleTwoWindows.windowObjects.length →
        t.window v = sampleTwoWindows.window v) ∧
      LingmoWindowManagement.activeWindow t =
        LingmoWindowManagement.activeWindow sampleTwoWindows :=
  ⟨by decide, windowCreated_appends_a_new_record { id := 9, version := 16 } 1 "u"
    sampleTwoWindows (by decide)⟩

/-- C4: when `A` is the active window and a `stateChanged` event turns the `active` flag of
another, mapped window `B` from false to true, then afterwards the active window is `B` and
`activeWindowChanged` has been emitted exactly once during the event. -/
theorem activating_second_window_switches_once (B : StateEnum) (s : Heap) (a b : Nat)
    (pb : LingmoWindow.Private) (state : Nat)
    (hb : s.window b = some pb) (hmapped : pb.unmapped = false) (hinactive : pb.active = false)
    (hbit : maskToBool state B.ACTIVE = true)
    (ha : LingmoWindowManagement.activeWindow s = some a) (hab : a ≠ b) :
    LingmoWindowManagement.activeWindow
        (LingmoWindow.Private.stateChangedCallback B b state s).1 = some b ∧
      (LingmoWindow.Private.stateChangedCallback B b state s).2.count
        Signal.activeWindowChanged = 1 := by
  rw [LingmoWindow.Private.stateChangedCallback_eq B s b pb state hb]
  have ha1 : s.d.activeWindow = some a := ha
  have hafter : activeWindowAfter s b pb (maskToBool state B.ACTIVE) = some b := by
    simp [activeWindowAfter, hbit, hinactive, hmapped]
  constructor
  · exact hafter
  · have hba : ¬b = a := fun e => hab e.symm
    simp [stateChangedSignals, List.count_append, count_window_ite, hafter, ha1, hba]

/-- Witness of C4: in `sampleActiveA` the window `B` receives the mask 1. -/
theorem activating_second_window_switches_once_witness :
    (sampleActiveA.window 1 = some sampleWindowB ∧ sampleWindowB.unmapped = false ∧
      sampleWindowB.active = false ∧ maskToBool 1 StateEnum.sample.ACTIVE = true ∧
      LingmoWindowManagement.activeWindow sampleActiveA = some 0 ∧ (0 : Nat) ≠ 1) ∧
    LingmoWindowManagement.activeWindow
        (LingmoWindow.Private.stateChangedCallback StateEnum.sample 1 1 sampleActiveA).1 =
      some 1 ∧
    (LingmoWindow.Private.stateChangedCallback StateEnum.sample 1 1 sampleActiveA).2.count
      Signal.activeWindowChanged = 1 :=
  ⟨⟨rfl, rfl, rfl, by decide, rfl, by decide⟩,
    activating_second_window_switches_once StateEnum.sample sampleActiveA 0 1 sampleWindowB 1
      rfl rfl rfl (by decide) rfl (by decide)⟩

/-- C5: in every state reached from the initial one by handling events, the active window, if
there is one, is an element of `windows()`, is not unmapped and has its `active` flag set. -/
theorem activeWindow_is_listed_mapped_and_active (P : Protocol) (evs : List Event)
    (r : Heap × List Signal) (a : Nat) (hrun : run P Heap.initial evs = some r)
    (ha : LingmoWindowManagement.activeWindow r.1 = some a) :
    a ∈ LingmoWindowManagement.windows r.1 ∧
      (∃ p : LingmoWindow.Private, r.1.window a = some p ∧ p.unmapped = false) ∧
      LingmoWindow.isActive r.1 a = true := by
  have hinv := run_preserves_activeWindowInv P evs Heap.initial r hrun
    Heap.initial_activeWindowInv
  obtain ⟨p, hp, hpu, hpa⟩ := hinv.2 a ha
  refine ⟨hinv.1 a p hp hpu, ⟨p, hp, hpu⟩, ?_⟩
  simp [LingmoWindow.isActive, hp, hpa]

/-- Witness of C5: `A` and `B` are created and `A` becomes active. -/
theorem activeWindow_is_listed_mapped_and_active_witness :
    (run Protocol.sample Heap.initial (sampleActivations.take 3) =
        some (sampleActiveA,
          [Signal.window 0 WindowSignal.activeChanged, Signal.activeWindowChanged]) ∧
      LingmoWindowManagement.activeWindow sampleActiveA = some 0) ∧
    0 ∈ LingmoWindowManagement.windows sampleActiveA ∧
      (∃ p : LingmoWindow.Private, sampleActiveA.window 0 = some p ∧ p.unmapped = false) ∧
      LingmoWindow.isActive sampleActiveA 0 = true :=
  ⟨⟨rfl, rfl⟩,
    activeWindow_is_listed_mapped_and_active Protocol.sample (sampleActivations.take 3)
      (sampleActiveA, [Signal.window 0 WindowSignal.activeChanged, Signal.activeWindowChanged])
      0 rfl rfl⟩

set_option maxRecDepth 100000 in
/-- C6, the code at the failing input: after `A` becomes active, `B` becomes active and `B`
becomes inactive, `activeWindow()` is null although `A` is in `windows()` and `isActive()` of
`A` is true. -/
theorem activeWindow_null_while_a_window_is_active :
    (run Protocol.sample Heap.initial sampleActivations).map
        (fun r => (LingmoWindowManagement.activeWindow r.1, LingmoWindowManagement.windows r.1,
          LingmoWindow.isActive r.1 0)) =
      some (none, [0, 1], true) := by
  decide

theorem Heap.retired_congr {s t : Heap} {w : Nat}
    (hlen : s.windowObjects.length ≤ t.windowObjects.length)
    (ha : t.d.activeWindow = s.d.activeWindow)
    (hst : (t.window w).map LingmoWindow.Private.status =
      (s.window w).map LingmoWindow.Private.status)
    (h : s.Retired w) : t.Retired w := by
  refine ⟨Nat.lt_of_lt_of_le h.1 hlen, by rw [ha]; exact h.2.1, ?_⟩
  intro p hp
  obtain ⟨q, hq, _, hqu⟩ := Heap.status_of_map_eq hst hp
  rw [← hqu]
  exact h.2.2 q hq

theorem Heap.retired_sameStatus {s t : Heap} {w : Nat} (hst : Heap.SameStatus s t)
    (h : s.Retired w) : t.Retired w :=
  Heap.retired_congr (by rw [hst.2.2.1]) (by rw [hst.1]) (hst.2.2.2 w) h

theorem LingmoWindow.Private.stateChangedCallback_retired (B : StateEnum) (s : Heap)
    (v w : Nat) (state : Nat) (h : s.Retired w) :
    (LingmoWindow.Private.stateChangedCallback B v state s).1.Retired w := by
  cases hv : s.window v with
  | none =>
    rw [LingmoWindow.Private.stateChangedCallback_dead B s v state hv]
    exact h
  | some p =>
    have hlt := Heap.lt_of_window s v p hv
    rw [LingmoWindow.Private.stateChangedCallback_eq B s v p state hv]
    refine ⟨by simpa [Heap.setWindow, Heap.withActiveWindow] using h.1, ?_, ?_⟩
    · show activeWindowAfter s v p (maskToBool state B.ACTIVE) ≠ some w
      unfold activeWindowAfter
      split
      · exact h.2.1
      · split
        · exact h.2.1
        · rename_i hu
          split
          · intro e
            have e1 : v = w := Option.some.inj e
            subst e1
            exact hu (h.2.2 p hv)
          · split
            · simp
            · exact h.2.1
    · intro q hq
      have hq1 : ((s.withActiveWindow (activeWindowAfter s v p
          (maskToBool state B.ACTIVE))).setWindow v (p.decoded B state)).window w = some q := hq
      by_cases hvw : v = w
      · subst hvw
        rw [Heap.window_setWindow_self
          (s.withActiveWindow (activeWindowAfter s v p (maskToBool state B.ACTIVE))) v _ hlt] at hq1
        cases hq1
        exact h.2.2 p hv
      · rw [Heap.window_setWindow_ne _ v w _ hvw] at hq1
        exact h.2.2 q hq1

theorem LingmoWindow.Private.unmappedCallback_retired (s : Heap) (v w : Nat)
    (h : s.Retired w) : (LingmoWindow.Private.unmappedCallback v s).1.Retired w := by
  cases hv : s.window v with
  | none =>
    simp only [LingmoWindow.Private.unmappedCallback, hv]
    exact h
  | some p =>
    have hlt := Heap.lt_of_window s v p hv
    obtain ⟨t, sigs, heq, hst, _⟩ := LingmoWindow.Private.unmappedCallback_spec v s p hv
    rw [heq]
    refine Heap.retired_sameStatus hst ?_
    rw [LingmoWindowManagement.Private.windowRemoved_eq]
    refine ⟨by simpa [Heap.setWindow] using h.1, ?_, ?_⟩
    · show (if s.d.activeWindow = some v then none else s.d.activeWindow) ≠ some w
      split
      · simp
      · exact h.2.1
    · intro q hq
      have hq1 : (s.setWindow v { p with unmapped := true }).window w = some q := hq
      by_cases hvw : v = w
      · subst hvw
        rw [Heap.window_setWindow_self s v _ hlt] at hq1
        cases hq1
        rfl
      · rw [Heap.window_setWindow_ne s v w _ hvw] at hq1
        exact h.2.2 q hq1

theorem LingmoWindow.destructor_retired (s : Heap) (v w : Nat) (h : s.Retired w) :
    (LingmoWindow.destructor v s).1.Retired w := by
  cases hv : s.window v with
  | none =>
    simp only [LingmoWindow.destructor, hv]
    exact h
  | some p =>
    obtain ⟨_, hd, _, hlen, hdead, hst⟩ := LingmoWindow.destructor_spec v s p hv
    rw [LingmoWindowManagement.Private.windowRemoved_eq] at hd
    refine ⟨by rw [hlen]; exact h.1, ?_, ?_⟩
    · rw [hd]
      show (if s.d.activeWindow = some v then none else s.d.activeWindow) ≠ some w
      split
      · simp
      · exact h.2.1
    · intro q hq
      have hwv : w ≠ v := by
        intro e
        subst e
        rw [hdead] at hq
        exact absurd hq (by simp)
      obtain ⟨q1, hq1, _, hq1u⟩ := Heap.status_of_map_eq (hst w hwv) hq
      rw [← hq1u]
      exact h.2.2 q1 hq1

theorem step_preserves_retired (P : Protocol) (s : Heap) (e : Event) (w : Nat)
    (r : Heap × List Signal) (hr : step P s e = some r) (h : s.Retired w) :
    r.1.Retired w := by
  cases e with
  | setup wm =>
    obtain ⟨_, h2, h3, _⟩ := LingmoWindowManagement.Private.setup_windows _ wm s r hr
    exact @Heap.retired_congr s _ w (by rw [h3]) h2 (by simp [Heap.window, h3]) h
  | windowCreated id internalId uuid =>
    by_cases hu : uuid = ""
    · simp [step, LingmoWindowManagement.Private.windowCreated, hu] at hr
    · have hr1 : LingmoWindowManagement.Private.windowCreated id internalId uuid s = some r := hr
      rw [LingmoWindowManagement.Private.windowCreated_eq id internalId uuid s hu] at hr1
      cases hr1
      have hwin := Heap.window_append s
        { s with
            windowObjects := s.windowObjects ++
              [some { window := some id, internalId := internalId, uuid := uuid, wm := true }],
            d := { s.d with windows := s.d.windows ++ [s.windowObjects.length] } } _ rfl
      exact @Heap.retired_congr s _ w (by simp) rfl (by rw [hwin w, if_pos h.1]) h
  | stateChanged v state =>
    obtain rfl : LingmoWindow.Private.stateChangedCallback P.state v state s = r :=
      Option.some.inj hr
    exact LingmoWindow.Private.stateChangedCallback_retired P.state s v w state h
  | parentWindow v parent =>
    obtain rfl : LingmoWindow.Private.parentWindowCallback v parent s = r := Option.some.inj hr
    exact Heap.retired_sameStatus (LingmoWindow.Private.parentWindowCallback_spec v parent s).1 h
  | unmapped v =>
    obtain rfl : LingmoWindow.Private.unmappedCallback v s = r := Option.some.inj hr
    exact LingmoWindow.Private.unmappedCallback_retired s v w h
  | destroyed v =>
    obtain rfl : LingmoWindow.destructor v s = r := Option.some.inj hr
    exact LingmoWindow.destructor_retired s v w h
  | stackingOrder ids =>
    obtain rfl : LingmoWindowManagement.Private.stackingOrderCallback ids s = r :=
      Option.some.inj hr
    exact h
  | stackingOrderUuids uuids =>
    obtain rfl : LingmoWindowManagement.Private.stackingOrderUuidsCallback uuids s = r :=
      Option.some.inj hr
    refine @Heap.retired_congr s _ w ?_ ?_ ?_ h <;>
      simp only [LingmoWindowManagement.Private.stackingOrderUuidsCallback,
        LingmoWindowManagement.Private.setStackingOrder] <;> split <;> rfl
  | stackingOrder2 =>
    obtain rfl : LingmoWindowManagement.Private.stackingOrder2Callback s = r :=
      Option.some.inj hr
    exact @Heap.retired_congr s _ w (Nat.le_refl _) rfl rfl h
  | stackingOrderWindow o uuid =>
    obtain rfl : LingmoWindowManagement.Private.stackingOrderWindow o uuid s = r :=
      Option.some.inj hr
    refine @Heap.retired_congr s _ w ?_ ?_ ?_ h <;>
      simp only [LingmoWindowManagement.Private.stackingOrderWindow] <;> split <;> rfl
  | stackingOrderDone o =>
    obtain rfl : LingmoWindowManagement.Private.stackingOrderDone o s = r :=
      Option.some.inj hr
    refine @Heap.retired_congr s _ w ?_ ?_ ?_ h <;>
      simp only [LingmoWindowManagement.Private.stackingOrderDone,
        LingmoWindowManagement.Private.setStackingOrder] <;> split <;>
      first | rfl | (split <;> first | rfl | (split <;> rfl))

theorem run_preserves_retired (P : Protocol) (evs : List Event) (s : Heap) (w : Nat)
    (r : Heap × List Signal) (hr : run P s evs = some r) (h : s.Retired w) :
    r.1.Retired w := by
  induction evs generalizing s r with
  | nil =>
    simp only [run, Option.some.injEq] at hr
    subst hr
    exact h
  | cons e es ih =>
    obtain ⟨r1, r2, h1, h2, rfl⟩ := run_cons_eq_some P s e es r hr
    exact ih r1.1 r2 h2 (step_preserves_retired P s e w r1 h1 h)

theorem LingmoWindow.destructor_count_of_retired (s : Heap) (w : Nat) (h : s.Retired w) :
    (LingmoWindow.destructor w s).2.count Signal.activeWindowChanged = 0 := by
  cases hw : s.window w with
  | none => simp [LingmoWindow.destructor, hw]
  | some p =>
    rw [(LingmoWindow.destructor_spec w s p hw).1, if_neg h.2.1]
    simp [List.count_cons]
theorem count_eq_zero_of_parentWindowChanged (sigs : List Signal)
    (h : ∀ x ∈ sigs, ∃ c : Nat, x = Signal.window c WindowSignal.parentWindowChanged) :
    sigs.count Signal.activeWindowChanged = 0 := by
  rw [List.count_eq_zero]
  intro hmem
  obtain ⟨c, hc⟩ := h _ hmem
  cases hc

/-- C7: an `unmapped` event on a window `w` removes `w` from `windows()` (the other windows
keep their order); if `w` was the active window, `activeWindow()` becomes null and
`activeWindowChanged` is emitted exactly once during the event, otherwise `activeWindow()` is
unchanged and `activeWindowChanged` is not emitted; and whatever events are handled after it,
the deletion of `w` that follows does not emit `activeWindowChanged`. -/
theorem unmapped_removes_window_and_clears_active (P : Protocol) (s : Heap) (w : Nat)
    (p : LingmoWindow.Private) (h : s.window w = some p) :
    w ∉ LingmoWindowManagement.windows (LingmoWindow.Private.unmappedCallback w s).1 ∧
    LingmoWindowManagement.windows (LingmoWindow.Private.unmappedCallback w s).1 =
      (LingmoWindowManagement.windows s).filter (fun v => v != w) ∧
    (LingmoWindowManagement.activeWindow s = some w →
      LingmoWindowManagement.activeWindow (LingmoWindow.Private.unmappedCallback w s).1 = none ∧
      (LingmoWindow.Private.unmappedCallback w s).2.count Signal.activeWindowChanged = 1) ∧
    (LingmoWindowManagement.activeWindow s ≠ some w →
      LingmoWindowManagement.activeWindow (LingmoWindow.Private.unmappedCallback w s).1 =
        LingmoWindowManagement.activeWindow s ∧
      (LingmoWindow.Private.unmappedCallback w s).2.count Signal.activeWindowChanged = 0) ∧
    (∀ (evs : List Event) (r : Heap × List Signal),
      run P (LingmoWindow.Private.unmappedCallback w s).1 evs = some r →
        (LingmoWindow.destructor w r.1).2.count Signal.activeWindowChanged = 0) := by
  have hlt := Heap.lt_of_window s w p h
  obtain ⟨t, sigs, heq, hst, hsigs⟩ := LingmoWindow.Private.unmappedCallback_spec w s p h
  have hcount := count_eq_zero_of_parentWindowChanged sigs hsigs
  rw [heq]
  rw [LingmoWindowManagement.Private.windowRemoved_eq] at hst
  have hd : t.d = { s.d with
      windows := s.d.windows.filter (fun v => v != w),
      activeWindow := if s.d.activeWindow = some w then none else s.d.activeWindow } := hst.1
  have hwin : LingmoWindowManagement.windows t = s.d.windows.filter (fun v => v != w) := by
    unfold LingmoWindowManagement.windows
    rw [hd]
  have hact : LingmoWindowManagement.activeWindow t =
      if s.d.activeWindow = some w then none else s.d.activeWindow := by
    unfold LingmoWindowManagement.activeWindow
    rw [hd]
  refine ⟨?_, hwin, ?_, ?_, ?_⟩
  · show w ∉ LingmoWindowManagement.windows t
    rw [hwin]
    simp [List.mem_filter]
  · intro ha
    have ha1 : s.d.activeWindow = some w := ha
    refine ⟨by show LingmoWindowManagement.activeWindow t = none; rw [hact, if_pos ha1], ?_⟩
    simp [List.count_cons, List.count_append, ha1, hcount]
  · intro ha
    have ha1 : ¬s.d.activeWindow = some w := ha
    refine ⟨by
      show LingmoWindowManagement.activeWindow t = s.d.activeWindow
      rw [hact, if_neg ha1], ?_⟩
    simp [List.count_cons, List.count_append, ha1, hcount]
  · intro evs r hr
    have hret : t.Retired w := by
      refine Heap.retired_sameStatus hst ⟨by simpa [Heap.setWindow] using hlt, ?_, ?_⟩
      · show (if s.d.activeWindow = some w then none else s.d.activeWindow) ≠ some w
        split
        · simp
        · assumption
      · intro q hq
        have hq1 : (s.setWindow w { p with unmapped := true }).window w = some q := hq
        rw [Heap.window_setWindow_self s w _ hlt] at hq1
        cases hq1
        rfl
    exact LingmoWindow.destructor_count_of_retired r.1 w
      (run_preserves_retired P evs t w r hr hret)

/-- Witness of C7: the active window `A` of `sampleActiveA` is unmapped. -/
theorem unmapped_removes_window_and_clears_active_witness :
    sampleActiveA.window 0 = some { sampleWindowA with active := true } ∧
    (0 ∉ LingmoWindowManagement.windows
        (LingmoWindow.Private.unmappedCallback 0 sampleActiveA).1 ∧
    LingmoWindowManagement.windows (LingmoWindow.Private.unmappedCallback 0 sampleActiveA).1 =
      (LingmoWindowManagement.windows sampleActiveA).filter (fun v => v != 0) ∧
    (LingmoWindowManagement.activeWindow sampleActiveA = some 0 →
      LingmoWindowManagement.activeWindow
        (LingmoWindow.Private.unmappedCallback 0 sampleActiveA).1 = none ∧
      (LingmoWindow.Private.unmappedCallback 0 sampleActiveA).2.count
        Signal.activeWindowChanged = 1) ∧
    (LingmoWindowManagement.activeWindow sampleActiveA ≠ some 0 →
      LingmoWindowManagement.activeWindow
          (LingmoWindow.Private.unmappedCallback 0 sampleActiveA).1 =
        LingmoWindowManagement.activeWindow sampleActiveA ∧
      (LingmoWindow.Private.unmappedCallback 0 sampleActiveA).2.count
        Signal.activeWindowChanged = 0) ∧
    (∀ (evs : List Event) (r : Heap × List Signal),
      run Protocol.sample (LingmoWindow.Private.unmappedCallback 0 sampleActiveA).1 evs =
          some r →
        (LingmoWindow.destructor 0 r.1).2.count Signal.activeWindowChanged = 0)) :=
  ⟨rfl, unmapped_removes_window_and_clears_active Protocol.sample sampleActiveA 0
    { sampleWindowA with active := true } rfl⟩

theorem Heap.order_eq_some_iff (s : Heap) (o : Nat) (x : StackingOrderData) :
    s.order o = some x ↔ s.stackingOrders[o]? = some (some x) := by
  unfold Heap.order
  rw [List.getD_eq_getElem?_getD]
  cases h : s.stackingOrders[o]? with
  | none => simp
  | some y => simp

theorem Heap.lt_of_order (s : Heap) (o : Nat) (x : StackingOrderData)
    (h : s.order o = some x) : o < s.stackingOrders.length := by
  rw [Heap.order_eq_some_iff] at h
  by_contra hn
  rw [List.getElem?_eq_none (by omega)] at h
  exact absurd h (by simp)

theorem Heap.order_of_stackingOrders_eq {s t : Heap} (h : t.stackingOrders = s.stackingOrders)
    (o : Nat) : t.order o = s.order o := by
  unfold Heap.order
  rw [h]

theorem Heap.order_set_self (s : Heap) (d : LingmoWindowManagement.Private) (o : Nat)
    (x : Option StackingOrderData) (h : o < s.stackingOrders.length) :
    Heap.order { s with d := d, stackingOrders := s.stackingOrders.set o x } o = x := by
  simp [Heap.order, List.getD_eq_getElem?_getD, h]

theorem Heap.order_set_ne (s : Heap) (d : LingmoWindowManagement.Private) (o o1 : Nat)
    (x : Option StackingOrderData) (h : o1 ≠ o) :
    Heap.order { s with d := d, stackingOrders := s.stackingOrders.set o1 x } o = s.order o := by
  simp [Heap.order, List.getD_eq_getElem?_getD, List.getElem?_set_ne h]

theorem Heap.order_append (s : Heap) (d : LingmoWindowManagement.Private) (o : Nat)
    (x : Option StackingOrderData) (h : o < s.stackingOrders.length) :
    Heap.order { s with d := d, stackingOrders := s.stackingOrders ++ [x] } o = s.order o := by
  simp [Heap.order, List.getD_eq_getElem?_getD, List.getElem?_append_left h]

theorem LingmoWindowManagement.Private.stackingOrderWindow_eq (o : Nat) (uuid : QByteArray)
    (s : Heap) (x : StackingOrderData) (h : s.order o = some x) :
    LingmoWindowManagement.Private.stackingOrderWindow o uuid s =
      ({ s with stackingOrders :=
          s.stackingOrders.set o (some { x with list := x.list ++ [uuid] }) }, []) := by
  simp [LingmoWindowManagement.Private.stackingOrderWindow, h]

theorem LingmoWindowManagement.Private.stackingOrderDone_eq (o : Nat) (s : Heap)
    (l : List QByteArray) (h : s.order o = some { wm := true, list := l }) :
    LingmoWindowManagement.Private.stackingOrderDone o s =
      ({ s with
          d := { s.d with stackingOrderUuids := l },
          stackingOrders := s.stackingOrders.set o none },
        if s.d.stackingOrderUuids = l then [] else [Signal.stackingOrderUuidsChanged]) := by
  simp only [LingmoWindowManagement.Private.stackingOrderDone, h, if_true,
    LingmoWindowManagement.Private.setStackingOrder]
  by_cases hl : s.d.stackingOrderUuids = l
  · simp only [hl, if_true]
    rw [← hl]
  · simp only [hl, if_false]

theorem run_cons_of_some (P : Protocol) (s : Heap) (e : Event) (es : List Event)
    (r1 r2 : Heap × List Signal) (h1 : step P s e = some r1) (h2 : run P r1.1 es = some r2) :
    run P s (e :: es) = some (r2.1, r1.2 ++ r2.2) := by
  simp only [run, h1, h2]

theorem run_append (P : Protocol) (es1 es2 : List Event) (s : Heap)
    (r1 r2 : Heap × List Signal) (h1 : run P s es1 = some r1) (h2 : run P r1.1 es2 = some r2) :
    run P s (es1 ++ es2) = some (r2.1, r1.2 ++ r2.2) := by
  induction es1 generalizing s r1 with
  | nil =>
    simp only [run, Option.some.injEq] at h1
    subst h1
    simpa using h2
  | cons e es ih =>
    obtain ⟨ra, rb, ha, hb, rfl⟩ := run_cons_eq_some P s e es r1 h1
    have hrest := ih ra.1 rb hb h2
    rw [List.cons_append, run_cons_of_some P s e (es ++ es2) ra _ ha hrest, List.append_assoc]

theorem run_stackingOrderWindow (P : Protocol) (o : Nat) (uuids : List QByteArray) (s : Heap)
    (x : StackingOrderData) (h : s.order o = some x) :
    ∃ t : Heap, run P s (uuids.map (Event.stackingOrderWindow o)) = some (t, []) ∧
      t.order o = some { x with list := x.list ++ uuids } ∧ t.d = s.d := by
  induction uuids generalizing s x with
  | nil =>
    refine ⟨s, rfl, ?_, rfl⟩
    simpa using h
  | cons u us ih =>
    have hlt := Heap.lt_of_order s o x h
    have hstep := LingmoWindowManagement.Private.stackingOrderWindow_eq o u s x h
    obtain ⟨t, ht, hto, htd⟩ := ih
      { s with stackingOrders :=
          s.stackingOrders.set o (some { x with list := x.list ++ [u] }) }
      { x with list := x.list ++ [u] } (Heap.order_set_self s s.d o _ hlt)
    refine ⟨t, ?_, ?_, htd⟩
    · have hstep1 : step P s (Event.stackingOrderWindow o u) =
          some ({ s with stackingOrders :=
            s.stackingOrders.set o (some { x with list := x.list ++ [u] }) }, []) :=
        congrArg some hstep
      rw [List.map_cons, run_cons_of_some P s _ _ _ _ hstep1 ht]
      rfl
    · simpa using hto

/-- C8: a stacking-order accumulation that starts empty, receives `window(a1)` .. `window(an)`
and then `done`, publishes exactly `[a1, .., an]`, and `stackingOrderUuidsChanged` is emitted
(once) exactly when that list differs from the list published before. -/
theorem stackingOrder_accumulation_publishes_in_order (P : Protocol) (s : Heap) (o : Nat)
    (uuids : List QByteArray) (h : s.order o = some { wm := true, list := [] }) :
    ∃ t : Heap,
      run P s (uuids.map (Event.stackingOrderWindow o) ++ [Event.stackingOrderDone o]) =
        some (t, if LingmoWindowManagement.stackingOrderUuids s = uuids then []
          else [Signal.stackingOrderUuidsChanged]) ∧
      LingmoWindowManagement.stackingOrderUuids t = uuids := by
  obtain ⟨t, ht, hto, htd⟩ := run_stackingOrderWindow P o uuids s _ h
  have hto1 : t.order o = some { wm := true, list := uuids } := by simpa using hto
  have hdone := LingmoWindowManagement.Private.stackingOrderDone_eq o t uuids hto1
  have hrun2 : run P t [Event.stackingOrderDone o] =
      some (LingmoWindowManagement.Private.stackingOrderDone o t) := by
    simp [run, step]
  have hall := run_append P _ _ s _ _ ht hrun2
  refine ⟨(LingmoWindowManagement.Private.stackingOrderDone o t).1, ?_, ?_⟩
  · rw [hall, hdone]
    simp only [List.nil_append, LingmoWindowManagement.stackingOrderUuids, htd]
  · rw [hdone]
    rfl

/-- Witness of C8: `["y", "x"]` is accumulated while `["x", "y"]` is published. -/
theorem stackingOrder_accumulation_publishes_in_order_witness :
    sampleAccumulating.order 0 = some { wm := true, list := [] } ∧
    ∃ t : Heap,
      run Protocol.sample sampleAccumulating
          (["y", "x"].map (Event.stackingOrderWindow 0) ++ [Event.stackingOrderDone 0]) =
        some (t, if LingmoWindowManagement.stackingOrderUuids sampleAccumulating = ["y", "x"]
          then [] else [Signal.stackingOrderUuidsChanged]) ∧
      LingmoWindowManagement.stackingOrderUuids t = ["y", "x"] :=
  ⟨rfl, stackingOrder_accumulation_publishes_in_order Protocol.sample sampleAccumulating 0
    ["y", "x"] rfl⟩
theorem LingmoWindow.Private.unmappedCallback_dead (s : Heap) (w : Nat)
    (h : s.window w = none) : LingmoWindow.Private.unmappedCallback w s = (s, []) := by
  simp only [LingmoWindow.Private.unmappedCallback, h]

theorem LingmoWindow.destructor_dead (s : Heap) (w : Nat) (h : s.window w = none) :
    LingmoWindow.destructor w s = (s, []) := by
  simp only [LingmoWindow.destructor, h]

theorem LingmoWindow.Private.stateChangedCallback_stacking (B : StateEnum) (s : Heap)
    (w : Nat) (state : Nat) :
    (LingmoWindow.Private.stateChangedCallback B w state s).1.d.stackingOrderUuids =
        s.d.stackingOrderUuids ∧
      (LingmoWindow.Private.stateChangedCallback B w state s).1.stackingOrders =
        s.stackingOrders ∧
      Signal.stackingOrderUuidsChanged ∉
        (LingmoWindow.Private.stateChangedCallback B w state s).2 := by
  cases hw : s.window w with
  | none =>
    rw [LingmoWindow.Private.stateChangedCallback_dead B s w state hw]
    exact ⟨rfl, rfl, by simp⟩
  | some p =>
    rw [LingmoWindow.Private.stateChangedCallback_eq B s w p state hw]
    refine ⟨rfl, rfl, ?_⟩
    simp [stateChangedSignals, mem_ite_nil_singleton]

theorem LingmoWindow.Private.unmappedCallback_stacking (s : Heap) (w : Nat) :
    (LingmoWindow.Private.unmappedCallback w s).1.d.stackingOrderUuids =
        s.d.stackingOrderUuids ∧
      (LingmoWindow.Private.unmappedCallback w s).1.stackingOrders = s.stackingOrders ∧
      Signal.stackingOrderUuidsChanged ∉ (LingmoWindow.Private.unmappedCallback w s).2 := by
  cases hw : s.window w with
  | none =>
    rw [LingmoWindow.Private.unmappedCallback_dead s w hw]
    exact ⟨rfl, rfl, by simp⟩
  | some p =>
    obtain ⟨t, sigs, heq, hst, hsigs⟩ := LingmoWindow.Private.unmappedCallback_spec w s p hw
    rw [heq]
    rw [LingmoWindowManagement.Private.windowRemoved_eq] at hst
    refine ⟨(congrArg LingmoWindowManagement.Private.stackingOrderUuids hst.1).trans rfl,
      hst.2.1.trans rfl, ?_⟩
    intro hmem
    simp only [List.mem_cons, List.mem_append, mem_ite_nil_singleton] at hmem
    rcases hmem with hmem | hmem | hmem
    · cases hmem
    · split at hmem <;> simp at hmem
    · obtain ⟨c, hc⟩ := hsigs _ hmem
      cases hc

theorem LingmoWindow.destructor_stacking (s : Heap) (w : Nat) :
    (LingmoWindow.destructor w s).1.d.stackingOrderUuids = s.d.stackingOrderUuids ∧
      (LingmoWindow.destructor w s).1.stackingOrders = s.stackingOrders ∧
      Signal.stackingOrderUuidsChanged ∉ (LingmoWindow.destructor w s).2 := by
  cases hw : s.window w with
  | none =>
    rw [LingmoWindow.destructor_dead s w hw]
    exact ⟨rfl, rfl, by simp⟩
  | some p =>
    obtain ⟨hsig, hd, hso, _⟩ := LingmoWindow.destructor_spec w s p hw
    rw [LingmoWindowManagement.Private.windowRemoved_eq] at hd
    refine ⟨(congrArg LingmoWindowManagement.Private.stackingOrderUuids hd).trans rfl, hso, ?_⟩
    rw [hsig]
    intro hmem
    simp only [List.mem_cons] at hmem
    rcases hmem with hmem | hmem
    · cases hmem
    · split at hmem <;> simp at hmem

theorem LingmoWindow.Private.parentWindowCallback_stacking (s : Heap) (w : Nat)
    (parent : Option WlProxy) :
    (LingmoWindow.Private.parentWindowCallback w parent s).1.d.stackingOrderUuids =
        s.d.stackingOrderUuids ∧
      (LingmoWindow.Private.parentWindowCallback w parent s).1.stackingOrders =
        s.stackingOrders ∧
      Signal.stackingOrderUuidsChanged ∉
        (LingmoWindow.Private.parentWindowCallback w parent s).2 := by
  obtain ⟨hst, hsigs⟩ := LingmoWindow.Private.parentWindowCallback_spec w parent s
  refine ⟨congrArg LingmoWindowManagement.Private.stackingOrderUuids hst.1, hst.2.1, ?_⟩
  intro hmem
  have := hsigs _ hmem
  cases this

theorem LingmoWindowManagement.Private.windowCreated_stacking (id : WlProxy)
    (internalId : Nat) (uuid : QByteArray) (s : Heap) (r : Heap × List Signal)
    (hr : LingmoWindowManagement.Private.windowCreated id internalId uuid s = some r) :
    r.1.d.stackingOrderUuids = s.d.stackingOrderUuids ∧ r.1.stackingOrders = s.stackingOrders ∧
      Signal.stackingOrderUuidsChanged ∉ r.2 := by
  by_cases hu : uuid = ""
  · simp [LingmoWindowManagement.Private.windowCreated, hu] at hr
  · rw [LingmoWindowManagement.Private.windowCreated_eq id internalId uuid s hu] at hr
    cases hr
    exact ⟨rfl, rfl, by simp⟩

/-- C9: a begin (`stackingOrder2Callback`, or `setup`) and a `window(uuid)` append event leave
`stackingOrderUuids()` as it is and emit nothing; and of all events only a `done` event and the
legacy whole-list event can change `stackingOrderUuids()` or emit
`stackingOrderUuidsChanged`. -/
theorem stackingOrder_published_only_on_done (P : Protocol) (s : Heap) :
    (LingmoWindowManagement.stackingOrderUuids
          (LingmoWindowManagement.Private.stackingOrder2Callback s).1 =
        LingmoWindowManagement.stackingOrderUuids s ∧
      (LingmoWindowManagement.Private.stackingOrder2Callback s).2 = []) ∧
    (∀ (wm : WlProxy) (r : Heap × List Signal),
      LingmoWindowManagement.Private.setup P.GET_STACKING_ORDER_SINCE_VERSION wm s = some r →
        LingmoWindowManagement.stackingOrderUuids r.1 =
          LingmoWindowManagement.stackingOrderUuids s ∧ r.2 = []) ∧
    (∀ (o : Nat) (uuid : QByteArray),
      LingmoWindowManagement.stackingOrderUuids
          (LingmoWindowManagement.Private.stackingOrderWindow o uuid s).1 =
        LingmoWindowManagement.stackingOrderUuids s ∧
      (LingmoWindowManagement.Private.stackingOrderWindow o uuid s).2 = []) ∧
    (∀ (e : Event) (r : Heap × List Signal), step P s e = some r →
      (LingmoWindowManagement.stackingOrderUuids r.1 ≠
          LingmoWindowManagement.stackingOrderUuids s ∨
        Signal.stackingOrderUuidsChanged ∈ r.2) →
      (∃ o : Nat, e = Event.stackingOrderDone o) ∨
        ∃ uuids : QByteArray, e = Event.stackingOrderUuids uuids) := by
  have hsetup : ∀ (wm : WlProxy) (r : Heap × List Signal),
      LingmoWindowManagement.Private.setup P.GET_STACKING_ORDER_SINCE_VERSION wm s = some r →
        LingmoWindowManagement.stackingOrderUuids r.1 =
          LingmoWindowManagement.stackingOrderUuids s ∧ r.2 = [] := by
    intro wm r hr
    obtain ⟨_, _, _, h4, h5⟩ := LingmoWindowManagement.Private.setup_windows _ wm s r hr
    exact ⟨h4, h5⟩
  have hwindow : ∀ (o : Nat) (uuid : QByteArray),
      LingmoWindowManagement.stackingOrderUuids
          (LingmoWindowManagement.Private.stackingOrderWindow o uuid s).1 =
        LingmoWindowManagement.stackingOrderUuids s ∧
      (LingmoWindowManagement.Private.stackingOrderWindow o uuid s).2 = [] := by
    intro o uuid
    unfold LingmoWindowManagement.Private.stackingOrderWindow
    split <;> exact ⟨rfl, rfl⟩
  refine ⟨⟨rfl, rfl⟩, hsetup, hwindow, ?_⟩
  intro e r hr hchg
  have hframe : ∀ t : Heap × List Signal,
      t.1.d.stackingOrderUuids = s.d.stackingOrderUuids ∧ t.1.stackingOrders = s.stackingOrders ∧
        Signal.stackingOrderUuidsChanged ∉ t.2 → t = r → False := by
    intro t ht hrt
    subst hrt
    rcases hchg with hchg | hchg
    · exact hchg ht.1
    · exact ht.2.2 hchg
  cases e with
  | setup wm =>
    obtain ⟨h4, h5⟩ := hsetup wm r hr
    rcases hchg with hchg | hchg
    · exact absurd h4 hchg
    · rw [h5] at hchg
      simp at hchg
  | windowCreated id internalId uuid =>
    obtain ⟨h1, _, h3⟩ :=
      LingmoWindowManagement.Private.windowCreated_stacking id internalId uuid s r hr
    rcases hchg with hchg | hchg
    · exact absurd h1 hchg
    · exact absurd hchg h3
  | stateChanged w state =>
    exact (hframe _ (LingmoWindow.Private.stateChangedCallback_stacking P.state s w state)
      (Option.some.inj hr)).elim
  | parentWindow w parent =>
    exact (hframe _ (LingmoWindow.Private.parentWindowCallback_stacking s w parent)
      (Option.some.inj hr)).elim
  | unmapped w =>
    exact (hframe _ (LingmoWindow.Private.unmappedCallback_stacking s w)
      (Option.some.inj hr)).elim
  | destroyed w =>
    exact (hframe _ (LingmoWindow.destructor_stacking s w) (Option.some.inj hr)).elim
  | stackingOrder ids =>
    exact (hframe (s, []) ⟨rfl, rfl, by simp⟩ (Option.some.inj hr)).elim
  | stackingOrderUuids uuids => exact Or.inr ⟨uuids, rfl⟩
  | stackingOrder2 =>
    obtain rfl : LingmoWindowManagement.Private.stackingOrder2Callback s = r :=
      Option.some.inj hr
    rcases hchg with hchg | hchg
    · exact absurd rfl hchg
    · simp [LingmoWindowManagement.Private.stackingOrder2Callback] at hchg
  | stackingOrderWindow o uuid =>
    obtain rfl : LingmoWindowManagement.Private.stackingOrderWindow o uuid s = r :=
      Option.some.inj hr
    obtain ⟨h1, h2⟩ := hwindow o uuid
    rcases hchg with hchg | hchg
    · exact absurd h1 hchg
    · rw [h2] at hchg
      simp at hchg
  | stackingOrderDone o => exact Or.inl ⟨o, rfl⟩
theorem LingmoWindowManagement.Private.setStackingOrder_stackingOrders
    (uuids : List QByteArray) (s : Heap) :
    (LingmoWindowManagement.Private.setStackingOrder uuids s).1.stackingOrders =
      s.stackingOrders := by
  unfold LingmoWindowManagement.Private.setStackingOrder
  split <;> rfl

theorem step_order (P : Protocol) (s : Heap) (e : Event) (o : Nat) (x : StackingOrderData)
    (r : Heap × List Signal) (hr : step P s e = some r) (ho : s.order o = some x)
    (hne : e ≠ Event.stackingOrderDone o) :
    r.1.order o = some { x with list := x.list ++ (Event.appendedTo o e).toList } := by
  have hlt := Heap.lt_of_order s o x ho
  have hsame : ∀ t : Heap × List Signal, t.1.stackingOrders = s.stackingOrders → t = r →
      r.1.order o = some { x with list := x.list ++ [] } := by
    intro t ht hrt
    subst hrt
    rw [Heap.order_of_stackingOrders_eq ht, ho, List.append_nil]
  cases e with
  | setup wm =>
    have hr1 : LingmoWindowManagement.Private.setup P.GET_STACKING_ORDER_SINCE_VERSION wm s =
        some r := hr
    unfold LingmoWindowManagement.Private.setup at hr1
    split at hr1
    · exact absurd hr1 (by simp)
    · split at hr1
      · cases hr1
        show Heap.order (StackingOrderData.create _) o = _
        unfold StackingOrderData.create
        rw [Heap.order_append _ _ o _ hlt]
        simpa [Event.appendedTo] using ho
      · exact hsame _ rfl (Option.some.inj hr1)
  | windowCreated id internalId uuid =>
    exact hsame r
      (LingmoWindowManagement.Private.windowCreated_stacking id internalId uuid s r hr).2.1 rfl
  | stateChanged w state =>
    exact hsame _ (LingmoWindow.Private.stateChangedCallback_stacking P.state s w state).2.1
      (Option.some.inj hr)
  | parentWindow w parent =>
    exact hsame _ (LingmoWindow.Private.parentWindowCallback_stacking s w parent).2.1
      (Option.some.inj hr)
  | unmapped w =>
    exact hsame _ (LingmoWindow.Private.unmappedCallback_stacking s w).2.1 (Option.some.inj hr)
  | destroyed w =>
    exact hsame _ (LingmoWindow.destructor_stacking s w).2.1 (Option.some.inj hr)
  | stackingOrder ids => exact hsame (s, []) rfl (Option.some.inj hr)
  | stackingOrderUuids uuids =>
    exact hsame _ (LingmoWindowManagement.Private.setStackingOrder_stackingOrders _ s)
      (Option.some.inj hr)
  | stackingOrder2 =>
    obtain rfl : LingmoWindowManagement.Private.stackingOrder2Callback s = r :=
      Option.some.inj hr
    show Heap.order (StackingOrderData.create s) o = _
    unfold StackingOrderData.create
    rw [Heap.order_append _ _ o _ hlt]
    simpa [Event.appendedTo] using ho
  | stackingOrderWindow o1 uuid =>
    obtain rfl : LingmoWindowManagement.Private.stackingOrderWindow o1 uuid s = r :=
      Option.some.inj hr
    by_cases h1 : o1 = o
    · subst h1
      rw [LingmoWindowManagement.Private.stackingOrderWindow_eq o1 uuid s x ho]
      simp only [Event.appendedTo, if_true, Option.toList_some]
      exact Heap.order_set_self s s.d o1 _ hlt
    · simp only [Event.appendedTo, if_neg h1, Option.toList_none, List.append_nil]
      cases h2 : s.order o1 with
      | none =>
        simp only [LingmoWindowManagement.Private.stackingOrderWindow, h2]
        exact ho
      | some y =>
        rw [LingmoWindowManagement.Private.stackingOrderWindow_eq o1 uuid s y h2]
        exact (Heap.order_set_ne s s.d o o1 _ h1).trans ho
  | stackingOrderDone o1 =>
    obtain rfl : LingmoWindowManagement.Private.stackingOrderDone o1 s = r :=
      Option.some.inj hr
    have h1 : o1 ≠ o := fun e => hne (by rw [e])
    simp only [Event.appendedTo, Option.toList_none, List.append_nil]
    cases h2 : s.order o1 with
    | none =>
      simp only [LingmoWindowManagement.Private.stackingOrderDone, h2]
      exact ho
    | some y =>
      simp only [LingmoWindowManagement.Private.stackingOrderDone, h2]
      have h3 : (if y.wm = true then LingmoWindowManagement.Private.setStackingOrder y.list s
          else (s, [])).1.stackingOrders = s.stackingOrders := by
        split
        · exact LingmoWindowManagement.Private.setStackingOrder_stackingOrders _ s
        · rfl
      simp only [Heap.order, h3, List.getD_eq_getElem?_getD, List.getElem?_set_ne h1]
      simpa [Heap.order, List.getD_eq_getElem?_getD] using ho

theorem run_order (P : Protocol) (evs : List Event) (s : Heap) (o : Nat)
    (x : StackingOrderData) (r : Heap × List Signal) (hr : run P s evs = some r)
    (ho : s.order o = some x) (hne : ∀ e ∈ evs, e ≠ Event.stackingOrderDone o) :
    r.1.order o = some { x with list := x.list ++ evs.filterMap (Event.appendedTo o) } := by
  induction evs generalizing s x r with
  | nil =>
    simp only [run, Option.some.injEq] at hr
    subst hr
    simpa using ho
  | cons e es ih =>
    obtain ⟨r1, r2, h1, h2, rfl⟩ := run_cons_eq_some P s e es r hr
    have hstep := step_order P s e o x r1 h1 ho (hne e (List.mem_cons_self e es))
    have hrest := ih r1.1 _ r2 h2 hstep (fun e1 he1 => hne e1 (List.mem_cons_of_mem e he1))
    rw [hrest]
    cases hap : Event.appendedTo o e <;> simp [List.filterMap_cons, hap]

/-- C10: when a fresh accumulation is begun (its object is the new pointer
`s.stackingOrders.length`), then whatever events are handled before its `done` arrives,
appends to earlier accumulations included, the list published by its `done` is exactly the
sequence of uuids appended to the new accumulation, in order. -/
theorem fresh_accumulation_publishes_only_its_own_appends (P : Protocol) (s : Heap)
    (evs : List Event) (r : Heap × List Signal)
    (hdone : ∀ e ∈ evs, e ≠ Event.stackingOrderDone s.stackingOrders.length)
    (hrun : run P (LingmoWindowManagement.Private.stackingOrder2Callback s).1 evs = some r) :
    LingmoWindowManagement.stackingOrderUuids
        (LingmoWindowManagement.Private.stackingOrderDone s.stackingOrders.length r.1).1 =
      evs.filterMap (Event.appendedTo s.stackingOrders.length) := by
  have hfresh : (LingmoWindowManagement.Private.stackingOrder2Callback s).1.order
      s.stackingOrders.length = some { wm := true, list := [] } := by
    simp [LingmoWindowManagement.Private.stackingOrder2Callback, StackingOrderData.create,
      Heap.order, List.getD_eq_getElem?_getD]
  have ho := run_order P evs _ s.stackingOrders.length _ r hrun hfresh hdone
  rw [LingmoWindowManagement.Private.stackingOrderDone_eq _ r.1 _ (by simpa using ho)]
  rfl
/-- Witness of C9: the statement at `sampleAccumulating`. -/
theorem stackingOrder_published_only_on_done_witness :
    (LingmoWindowManagement.stackingOrderUuids
          (LingmoWindowManagement.Private.stackingOrder2Callback sampleAccumulating).1 =
        LingmoWindowManagement.stackingOrderUuids sampleAccumulating ∧
      (LingmoWindowManagement.Private.stackingOrder2Callback sampleAccumulating).2 = []) ∧
    (∀ (wm : WlProxy) (r : Heap × List Signal),
      LingmoWindowManagement.Private.setup Protocol.sample.GET_STACKING_ORDER_SINCE_VERSION wm
          sampleAccumulating = some r →
        LingmoWindowManagement.stackingOrderUuids r.1 =
          LingmoWindowManagement.stackingOrderUuids sampleAccumulating ∧ r.2 = []) ∧
    (∀ (o : Nat) (uuid : QByteArray),
      LingmoWindowManagement.stackingOrderUuids
          (LingmoWindowManagement.Private.stackingOrderWindow o uuid sampleAccumulating).1 =
        LingmoWindowManagement.stackingOrderUuids sampleAccumulating ∧
      (LingmoWindowManagement.Private.stackingOrderWindow o uuid sampleAccumulating).2 = []) ∧
    (∀ (e : Event) (r : Heap × List Signal), step Protocol.sample sampleAccumulating e = some r →
      (LingmoWindowManagement.stackingOrderUuids r.1 ≠
          LingmoWindowManagement.stackingOrderUuids sampleAccumulating ∨
        Signal.stackingOrderUuidsChanged ∈ r.2) →
      (∃ o : Nat, e = Event.stackingOrderDone o) ∨
        ∃ uuids : QByteArray, e = Event.stackingOrderUuids uuids) :=
  stackingOrder_published_only_on_done Protocol.sample sampleAccumulating

/-- Witness of C10: a begin while the accumulation at pointer 0 is incomplete, then
`sampleInterleaved`, then the `done` of the new accumulation. -/
theorem fresh_accumulation_publishes_only_its_own_appends_witness :
    ((∀ e ∈ sampleInterleaved,
        e ≠ Event.stackingOrderDone sampleAccumulating.stackingOrders.length) ∧
      run Protocol.sample
          (LingmoWindowManagement.Private.stackingOrder2Callback sampleAccumulating).1
          sampleInterleaved = some (sampleInterleavedResult, [])) ∧
    LingmoWindowManagement.stackingOrderUuids
        (LingmoWindowManagement.Private.stackingOrderDone
          sampleAccumulating.stackingOrders.length sampleInterleavedResult).1 =
      sampleInterleaved.filterMap (Event.appendedTo sampleAccumulating.stackingOrders.length) :=
  ⟨⟨by decide, by decide⟩,
    fresh_accumulation_publishes_only_its_own_appends Protocol.sample sampleAccumulating
      sampleInterleaved (sampleInterleavedResult, []) (by decide) (by decide)⟩

theorem LingmoWindow.Private.virtualDesktopEnteredCallback_eq (w : Nat) (id : QString)
    (s : Heap) (p : LingmoWindow.Private) (h : s.window w = some p) :
    LingmoWindow.Private.virtualDesktopEnteredCallback w id s =
      (s.setWindow w { p with lingmoVirtualDesktops := p.lingmoVirtualDesktops ++ [id] },
        Signal.window w (WindowSignal.lingmoVirtualDesktopEntered id) ::
          (if p.lingmoVirtualDesktops = [] then [Signal.window w WindowSignal.onAllDesktopsChanged]
           else [])) := by
  have hlt := Heap.lt_of_window s w p h
  simp only [LingmoWindow.Private.virtualDesktopEnteredCallback, h, runAll, LingmoWindow.emit,
    Heap.window_setWindow_self s w _ hlt, List.length_append, List.length_singleton]
  cases hl : p.lingmoVirtualDesktops with
  | nil => simp
  | cons a l => simp

theorem LingmoWindow.Private.virtualDesktopLeftCallback_eq (w : Nat) (id : QString)
    (s : Heap) (p : LingmoWindow.Private) (h : s.window w = some p) :
    LingmoWindow.Private.virtualDesktopLeftCallback w id s =
      (s.setWindow w
          { p with lingmoVirtualDesktops := p.lingmoVirtualDesktops.filter (fun x => x != id) },
        Signal.window w (WindowSignal.lingmoVirtualDesktopLeft id) ::
          (if p.lingmoVirtualDesktops.filter (fun x => x != id) = [] then
            [Signal.window w WindowSignal.onAllDesktopsChanged]
           else [])) := by
  have hlt := Heap.lt_of_window s w p h
  simp only [LingmoWindow.Private.virtualDesktopLeftCallback, h, runAll, LingmoWindow.emit,
    Heap.window_setWindow_self s w _ hlt]
  cases hl : p.lingmoVirtualDesktops.filter (fun x => x != id) with
  | nil => simp
  | cons a l => simp

theorem LingmoWindow.lingmoVirtualDesktops_setWindow_self (s : Heap) (w : Nat)
    (q : LingmoWindow.Private) (h : w < s.windowObjects.length) :
    LingmoWindow.lingmoVirtualDesktops (s.setWindow w q) w = q.lingmoVirtualDesktops := by
  simp only [LingmoWindow.lingmoVirtualDesktops, Heap.window_setWindow_self s w q h]

/-- C11: for a window whose virtual-desktop membership is empty, a `virtualDesktopEntered(d)`
event makes the membership `[d]` and emits `lingmoVirtualDesktopEntered(d)` and then
`onAllDesktopsChanged`; a following `virtualDesktopLeft(d)` event makes the membership empty
again and emits `lingmoVirtualDesktopLeft(d)` and then `onAllDesktopsChanged`. -/
theorem entering_then_leaving_the_only_desktop (s : Heap) (w : Nat)
    (p : LingmoWindow.Private) (d : QString) (h : s.window w = some p)
    (hempty : LingmoWindow.lingmoVirtualDesktops s w = []) :
    LingmoWindow.lingmoVirtualDesktops
        (LingmoWindow.Private.virtualDesktopEnteredCallback w d s).1 w = [d] ∧
    (LingmoWindow.Private.virtualDesktopEnteredCallback w d s).2 =
      [Signal.window w (WindowSignal.lingmoVirtualDesktopEntered d),
        Signal.window w WindowSignal.onAllDesktopsChanged] ∧
    LingmoWindow.lingmoVirtualDesktops
        (LingmoWindow.Private.virtualDesktopLeftCallback w d
          (LingmoWindow.Private.virtualDesktopEnteredCallback w d s).1).1 w = [] ∧
    (LingmoWindow.Private.virtualDesktopLeftCallback w d
        (LingmoWindow.Private.virtualDesktopEnteredCallback w d s).1).2 =
      [Signal.window w (WindowSignal.lingmoVirtualDesktopLeft d),
        Signal.window w WindowSignal.onAllDesktopsChanged] := by
  have hlt := Heap.lt_of_window s w p h
  have hp : p.lingmoVirtualDesktops = [] := by
    simpa [LingmoWindow.lingmoVirtualDesktops, h] using hempty
  rw [LingmoWindow.Private.virtualDesktopEnteredCallback_eq w d s p h]
  have h1 : (s.setWindow w
      { p with lingmoVirtualDesktops := p.lingmoVirtualDesktops ++ [d] }).window w =
      some { p with lingmoVirtualDesktops := p.lingmoVirtualDesktops ++ [d] } :=
    Heap.window_setWindow_self s w _ hlt
  rw [LingmoWindow.Private.virtualDesktopLeftCallback_eq w d _ _ h1]
  refine ⟨?_, ?_, ?_, ?_⟩
  · rw [LingmoWindow.lingmoVirtualDesktops_setWindow_self s w _ hlt]
    simp [hp]
  · simp [hp]
  · show LingmoWindow.lingmoVirtualDesktops (Heap.setWindow _ w _) w = []
    rw [Heap.setWindow_setWindow, LingmoWindow.lingmoVirtualDesktops_setWindow_self s w _ hlt]
    simp [hp]
  · simp [hp]

/-- Witness of C11: the window `A` of `sampleTwoWindows` enters and leaves the desktop "d". -/
theorem entering_then_leaving_the_only_desktop_witness :
    (sampleTwoWindows.window 0 = some sampleWindowA ∧
      LingmoWindow.lingmoVirtualDesktops sampleTwoWindows 0 = []) ∧
    LingmoWindow.lingmoVirtualDesktops
        (LingmoWindow.Private.virtualDesktopEnteredCallback 0 "d" sampleTwoWindows).1 0 =
      ["d"] ∧
    (LingmoWindow.Private.virtualDesktopEnteredCallback 0 "d" sampleTwoWindows).2 =
      [Signal.window 0 (WindowSignal.lingmoVirtualDesktopEntered "d"),
        Signal.window 0 WindowSignal.onAllDesktopsChanged] ∧
    LingmoWindow.lingmoVirtualDesktops
        (LingmoWindow.Private.virtualDesktopLeftCallback 0 "d"
          (LingmoWindow.Private.virtualDesktopEnteredCallback 0 "d" sampleTwoWindows).1).1 0 =
      [] ∧
    (LingmoWindow.Private.virtualDesktopLeftCallback 0 "d"
        (LingmoWindow.Private.virtualDesktopEnteredCallback 0 "d" sampleTwoWindows).1).2 =
      [Signal.window 0 (WindowSignal.lingmoVirtualDesktopLeft "d"),
        Signal.window 0 WindowSignal.onAllDesktopsChanged] :=
  ⟨⟨rfl, rfl⟩, entering_then_leaving_the_only_desktop sampleTwoWindows 0 sampleWindowA "d"
    rfl rfl⟩

/-- C12, the code at the failing input: the window `A` of `sampleTwoWindows`, whose membership
is empty, receives `virtualDesktopLeft("d")`; the membership stays empty and
`onAllDesktopsChanged` is emitted all the same. -/
theorem leaving_while_on_no_desktop_emits_onAllDesktopsChanged :
    LingmoWindow.lingmoVirtualDesktops sampleTwoWindows 0 = [] ∧
    LingmoWindow.lingmoVirtualDesktops
        (LingmoWindow.Private.virtualDesktopLeftCallback 0 "d" sampleTwoWindows).1 0 = [] ∧
    (LingmoWindow.Private.virtualDesktopLeftCallback 0 "d" sampleTwoWindows).2 =
      [Signal.window 0 (WindowSignal.lingmoVirtualDesktopLeft "d"),
        Signal.window 0 WindowSignal.onAllDesktopsChanged] := by
  decide

/-- C13: for a window with a handle, `isOnAllDesktops()` is the cached `onAllDesktops` flag
when the version of the window handle is below 8 and tells whether the virtual-desktop
membership is empty when the version is 8 or more; two windows that agree on the version, the
flag and the membership give the same answer, whatever else differs. -/
theorem isOnAllDesktops_depends_on_the_version (s : Heap) (w : Nat)
    (p : LingmoWindow.Private) (window : WlProxy) (h : s.window w = some p)
    (hw : p.window = some window) :
    (window.version < 8 → LingmoWindow.isOnAllDesktops s w = p.onAllDesktops) ∧
    (8 ≤ window.version →
      (LingmoWindow.isOnAllDesktops s w = true ↔
        LingmoWindow.lingmoVirtualDesktops s w = [])) ∧
    (∀ (s2 : Heap) (w2 : Nat) (p2 : LingmoWindow.Private) (window2 : WlProxy),
      s2.window w2 = some p2 → p2.window = some window2 →
      window2.version = window.version → p2.onAllDesktops = p.onAllDesktops →
      p2.lingmoVirtualDesktops = p.lingmoVirtualDesktops →
      LingmoWindow.isOnAllDesktops s2 w2 = LingmoWindow.isOnAllDesktops s w) := by
  refine ⟨?_, ?_, ?_⟩
  · intro hv
    simp [LingmoWindow.isOnAllDesktops, h, hw, hv]
  · intro hv
    have hv1 : ¬window.version < 8 := by omega
    simp [LingmoWindow.isOnAllDesktops, LingmoWindow.lingmoVirtualDesktops, h, hw, hv1]
  · intro s2 w2 p2 window2 h2 hw2 hver hflag hlist
    simp [LingmoWindow.isOnAllDesktops, h, hw, h2, hw2, hver, hflag, hlist]

/-- Witness of C13: the window `A` of `sampleTwoWindows`, whose handle has version 16; the
accessor is also evaluated for a handle of version 7 with the flag set. -/
theorem isOnAllDesktops_depends_on_the_version_witness :
    (sampleTwoWindows.window 0 = some sampleWindowA ∧
      sampleWindowA.window = some { id := 7, version := 16 }) ∧
    ((((16 : Nat) < 8 →
      LingmoWindow.isOnAllDesktops sampleTwoWindows 0 = sampleWindowA.onAllDesktops) ∧
    (8 ≤ (16 : Nat) →
      (LingmoWindow.isOnAllDesktops sampleTwoWindows 0 = true ↔
        LingmoWindow.lingmoVirtualDesktops sampleTwoWindows 0 = [])) ∧
    (∀ (s2 : Heap) (w2 : Nat) (p2 : LingmoWindow.Private) (window2 : WlProxy),
      s2.window w2 = some p2 → p2.window = some window2 →
      window2.version = 16 →
      p2.onAllDesktops = sampleWindowA.onAllDesktops →
      p2.lingmoVirtualDesktops = sampleWindowA.lingmoVirtualDesktops →
      LingmoWindow.isOnAllDesktops s2 w2 = LingmoWindow.isOnAllDesktops sampleTwoWindows 0)) ∧
    LingmoWindow.isOnAllDesktops sampleTwoWindows 0 = true ∧
    LingmoWindow.isOnAllDesktops
      (sampleTwoWindows.setWindow 0
        { sampleWindowA with window := some { id := 7, version := 7 }, onAllDesktops := true,
                             lingmoVirtualDesktops := ["d"] }) 0 = true ∧
    LingmoWindow.isOnAllDesktops
      (sampleTwoWindows.setWindow 0
        { sampleWindowA with window := some { id := 7, version := 8 }, onAllDesktops := true,
                             lingmoVirtualDesktops := ["d"] }) 0 = false) :=
  ⟨⟨rfl, rfl⟩,
    isOnAllDesktops_depends_on_the_version sampleTwoWindows 0 sampleWindowA
      { id := 7, version := 16 } rfl rfl,
    by decide, by decide, by decide⟩

/-- C14: each of the six toggle requests issues exactly one `set_state` request on the handle of
the window, whose flags argument is the protocol bit of the property and whose state argument
is 0 when the cached flag is true and that bit when it is false; the heap, and with it the
cached flag and every other cached field, stays as it is and no signal is emitted. -/
theorem toggle_requests_the_opposite_value (B : StateEnum) (t : Toggle) (s : Heap) (w : Nat)
    (p : LingmoWindow.Private) (h : s.window w = some p) :
    (t.request B w s).requests =
      [Request.org_kde_lingmo_window_set_state p.window (t.bit B)
        (if t.cached p = true then 0 else t.bit B)] ∧
    (t.request B w s).heap = s ∧ (t.request B w s).signals = [] := by
  cases t <;>
    simp only [Toggle.request, Toggle.bit, Toggle.cached, LingmoWindow.requestToggleKeepAbove,
      LingmoWindow.requestToggleKeepBelow, LingmoWindow.requestToggleMinimized,
      LingmoWindow.requestToggleMaximized, LingmoWindow.requestToggleFullscreen,
      LingmoWindow.requestToggleShaded, h] <;>
    split <;> simp_all

/-- Witness of C14: the window `A` of `sampleTwoWindows`, not maximized, is asked to toggle
maximized. -/
theorem toggle_requests_the_opposite_value_witness :
    sampleTwoWindows.window 0 = some sampleWindowA ∧
    ((Toggle.maximized.request StateEnum.sample 0 sampleTwoWindows).requests =
      [Request.org_kde_lingmo_window_set_state sampleWindowA.window
        (Toggle.maximized.bit StateEnum.sample)
        (if Toggle.maximized.cached sampleWindowA = true then 0
          else Toggle.maximized.bit StateEnum.sample)] ∧
    (Toggle.maximized.request StateEnum.sample 0 sampleTwoWindows).heap = sampleTwoWindows ∧
    (Toggle.maximized.request StateEnum.sample 0 sampleTwoWindows).signals = []) :=
  ⟨rfl, toggle_requests_the_opposite_value StateEnum.sample Toggle.maximized sampleTwoWindows 0
    sampleWindowA rfl⟩

theorem Heap.window_modifyWindow (s : Heap) (w : Nat)
    (f : LingmoWindow.Private → LingmoWindow.Private) (v : Nat) :
    (s.modifyWindow w f).window v = if v = w then (s.window w).map f else s.window v := by
  unfold Heap.modifyWindow
  cases hw : s.window w with
  | none =>
    by_cases hv : v = w
    · subst hv
      simp [hw]
    · simp [hv]
  | some p =>
    have hlt := Heap.lt_of_window s w p hw
    by_cases hv : v = w
    · subst hv
      simp [Heap.window_setWindow_self s v _ hlt]
    · simp [hv, Heap.window_setWindow_ne s w v _ (fun e => hv e.symm)]

theorem LingmoWindow.Private.disconnectParentWindowUnmapped_eq (c : Nat) (s : Heap) :
    LingmoWindow.Private.disconnectParentWindowUnmapped c s =
      match LingmoWindow.Private.connectedTo s c with
      | none => s
      | some x => s.modifyWindow x (fun ps => { ps with unmappedSlots := ps.unmappedSlots.erase c }) := by
  unfold LingmoWindow.Private.disconnectParentWindowUnmapped LingmoWindow.Private.connectedTo
  cases hc : s.window c with
  | none => rfl
  | some pc =>
    cases hx : pc.parentWindowUnmappedConnection with
    | none => simp [hx]
    | some x =>
      cases hs : s.window x with
      | none => simp [hx, hs]
      | some ps => simp [hx, hs, Heap.modifyWindow]

theorem LingmoWindow.Private.connectParentWindowUnmapped_eq (c q : Nat) (s : Heap) :
    LingmoWindow.Private.connectParentWindowUnmapped c q s =
      s.modifyWindow q (fun pp => { pp with unmappedSlots := pp.unmappedSlots ++ [c] }) := by
  unfold LingmoWindow.Private.connectParentWindowUnmapped Heap.modifyWindow
  cases s.window q <;> rfl

theorem LingmoWindow.Private.window_disconnectParentWindowUnmapped (c : Nat) (s : Heap)
    (v : Nat) :
    (LingmoWindow.Private.disconnectParentWindowUnmapped c s).window v =
      (s.window v).map (fun pv =>
        { pv with unmappedSlots :=
            if LingmoWindow.Private.connectedTo s c = some v then pv.unmappedSlots.erase c
            else pv.unmappedSlots }) := by
  rw [LingmoWindow.Private.disconnectParentWindowUnmapped_eq]
  cases hx : LingmoWindow.Private.connectedTo s c with
  | none =>
    cases s.window v <;> simp
  | some x =>
    simp only [Heap.window_modifyWindow]
    by_cases hv : v = x
    · subst hv
      cases s.window v <;> simp
    · have hv2 : ¬x = v := fun e => hv e.symm
      cases s.window v <;> simp [hv, hv2]

theorem LingmoWindow.Private.mappedParent_congr (s t : Heap) (parent : Option Nat)
    (h : ∀ v : Nat, (t.window v).map LingmoWindow.Private.status =
      (s.window v).map LingmoWindow.Private.status) :
    LingmoWindow.Private.mappedParent t parent = LingmoWindow.Private.mappedParent s parent := by
  cases parent with
  | none => rfl
  | some q =>
    have hq := h q
    cases ht : t.window q with
    | none =>
      cases hs : s.window q with
      | none => simp only [LingmoWindow.Private.mappedParent, ht, hs]
      | some ps => rw [ht, hs] at hq; simp at hq
    | some pt =>
      cases hs : s.window q with
      | none => rw [ht, hs] at hq; simp at hq
      | some ps =>
        rw [ht, hs] at hq
        simp only [Option.map_some', Option.some.injEq, LingmoWindow.Private.status,
          Prod.mk.injEq] at hq
        simp only [LingmoWindow.Private.mappedParent, ht, hs, hq.2]

theorem LingmoWindow.Private.setParentWindow_window (c : Nat) (parent : Option Nat) (s : Heap)
    (pc : LingmoWindow.Private) (h : s.window c = some pc) (v : Nat) :
    (LingmoWindow.Private.setParentWindow c parent s).1.window v =
      (s.window v).map (LingmoWindow.Private.reparented s c
        (LingmoWindow.Private.mappedParent s parent) v) := by
  have hmp : LingmoWindow.Private.mappedParent
      (LingmoWindow.Private.disconnectParentWindowUnmapped c s) parent =
      LingmoWindow.Private.mappedParent s parent :=
    LingmoWindow.Private.mappedParent_congr s _ parent
      (LingmoWindow.Private.sameStatus_disconnectParentWindowUnmapped c s).2.2.2
  have hfst : ∀ (b : Prop) [Decidable b] (x : Heap),
      (if b then LingmoWindow.emit c WindowSignal.parentWindowChanged x else (x, [])).1 = x := by
    intro b _ x
    split <;> rfl
  simp only [LingmoWindow.Private.setParentWindow, h, hfst, hmp]
  cases ht : LingmoWindow.Private.mappedParent s parent with
  | none =>
    simp only [Heap.window_modifyWindow,
      LingmoWindow.Private.window_disconnectParentWindowUnmapped]
    by_cases hv : v = c
    · subst hv
      cases s.window v <;> simp [LingmoWindow.Private.reparented]
    · cases s.window v <;> simp [LingmoWindow.Private.reparented, hv]
  | some q =>
    simp only [LingmoWindow.Private.connectParentWindowUnmapped_eq, Heap.window_modifyWindow,
      LingmoWindow.Private.window_disconnectParentWindowUnmapped]
    by_cases hv : v = c <;> by_cases hq : v = q
    · subst hv
      subst hq
      cases s.window v <;> simp [LingmoWindow.Private.reparented]
    · subst hv
      have hq2 : ¬q = v := fun e => hq e.symm
      cases s.window v <;> simp [LingmoWindow.Private.reparented, hq, hq2]
    · subst hq
      have hc : ¬c = v := fun e => hv e.symm
      cases s.window v <;> simp [LingmoWindow.Private.reparented, hv, hc]
    · have hq2 : ¬q = v := fun e => hq e.symm
      cases s.window v <;> simp [LingmoWindow.Private.reparented, hv, hq, hq2]
theorem LingmoWindow.Private.setParentWindow_dead (c : Nat) (parent : Option Nat) (s : Heap)
    (h : s.window c = none) : LingmoWindow.Private.setParentWindow c parent s = (s, []) := by
  simp only [LingmoWindow.Private.setParentWindow, h]

theorem LingmoWindow.Private.setParentWindow_parentWindow (c : Nat) (parent : Option Nat)
    (s : Heap) (pc : LingmoWindow.Private) (h : s.window c = some pc) (v : Nat) :
    LingmoWindow.parentWindow (LingmoWindow.Private.setParentWindow c parent s).1 v =
      if v = c then LingmoWindow.Private.mappedParent s parent
      else LingmoWindow.parentWindow s v := by
  unfold LingmoWindow.parentWindow
  rw [LingmoWindow.Private.setParentWindow_window c parent s pc h v]
  by_cases hv : v = c
  · subst hv
    simp [h, LingmoWindow.Private.reparented]
  · cases s.window v <;> simp [hv, LingmoWindow.Private.reparented]

theorem LingmoWindow.emit_or_not_signals (c : Nat) (old : Option Nat) (s2 : Heap) :
    (if LingmoWindow.parentWindow s2 c ≠ old then
        LingmoWindow.emit c WindowSignal.parentWindowChanged s2
      else (s2, [])).2 =
      if LingmoWindow.parentWindow
          (if LingmoWindow.parentWindow s2 c ≠ old then
            LingmoWindow.emit c WindowSignal.parentWindowChanged s2
          else (s2, [])).1 c ≠ old then
        [Signal.window c WindowSignal.parentWindowChanged]
      else [] := by
  by_cases hc : LingmoWindow.parentWindow s2 c ≠ old
  · simp only [hc, if_true, LingmoWindow.emit, ne_eq, not_false_eq_true]
  · simp only [hc, if_false]

theorem LingmoWindow.Private.setParentWindow_signals (c : Nat) (parent : Option Nat)
    (s : Heap) (pc : LingmoWindow.Private) (h : s.window c = some pc) :
    (LingmoWindow.Private.setParentWindow c parent s).2 =
      if LingmoWindow.Private.mappedParent s parent ≠ LingmoWindow.parentWindow s c then
        [Signal.window c WindowSignal.parentWindowChanged]
      else [] := by
  have hpw := LingmoWindow.Private.setParentWindow_parentWindow c parent s pc h c
  rw [if_pos rfl] at hpw
  have hshape : (LingmoWindow.Private.setParentWindow c parent s).2 =
      if LingmoWindow.parentWindow (LingmoWindow.Private.setParentWindow c parent s).1 c ≠
          LingmoWindow.parentWindow s c then
        [Signal.window c WindowSignal.parentWindowChanged]
      else [] := by
    simp only [LingmoWindow.Private.setParentWindow, h]
    exact LingmoWindow.emit_or_not_signals c _ _
  rw [hshape, hpw]

theorem Heap.links_of_map_eq {s t : Heap} {v : Nat} {p : LingmoWindow.Private}
    (h : (t.window v).map LingmoWindow.Private.links =
      (s.window v).map LingmoWindow.Private.links)
    (hp : t.window v = some p) :
    ∃ q : LingmoWindow.Private, s.window v = some q ∧ q.parentWindow = p.parentWindow ∧
      q.parentWindowUnmappedConnection = p.parentWindowUnmappedConnection ∧
      q.unmappedSlots = p.unmappedSlots := by
  rw [hp] at h
  cases hs : s.window v with
  | none => rw [hs] at h; simp at h
  | some q =>
    rw [hs] at h
    simp only [Option.map_some', Option.some.injEq, LingmoWindow.Private.links,
      Prod.mk.injEq] at h
    exact ⟨q, rfl, h.1.symm, h.2.1.symm, h.2.2.symm⟩

theorem Heap.parentLinked_congr {s t : Heap}
    (hl : ∀ v : Nat, (t.window v).map LingmoWindow.Private.links =
      (s.window v).map LingmoWindow.Private.links)
    (h : s.ParentLinked) : t.ParentLinked := by
  refine ⟨?_, ?_, ?_⟩
  · intro c pc P hc hpar
    obtain ⟨qc, hqc, hq1, _, _⟩ := Heap.links_of_map_eq (hl c) hc
    obtain ⟨pP, hP, hmem⟩ := h.1 c qc P hqc (hq1.trans hpar)
    obtain ⟨qP, hqP, _, _, hq4⟩ := Heap.links_of_map_eq (hl P).symm hP
    exact ⟨qP, hqP, by rw [hq4]; exact hmem⟩
  · intro P pP c hP hmem
    obtain ⟨qP, hqP, _, _, hq4⟩ := Heap.links_of_map_eq (hl P) hP
    obtain ⟨pc, hc, hpar, hcon⟩ := h.2.1 P qP c hqP (by rw [hq4]; exact hmem)
    obtain ⟨qc, hqc, hq1, hq2, _⟩ := Heap.links_of_map_eq (hl c).symm hc
    exact ⟨qc, hqc, hq1.trans hpar, hq2.trans hcon⟩
  · intro P pP hP
    obtain ⟨qP, hqP, _, _, hq4⟩ := Heap.links_of_map_eq (hl P) hP
    rw [← hq4]
    exact h.2.2 P qP hqP

theorem LingmoWindow.Private.connectedTo_of_mem (s : Heap) (h : s.ParentLinked) (c P : Nat)
    (pP : LingmoWindow.Private) (hP : s.window P = some pP) (hmem : c ∈ pP.unmappedSlots) :
    LingmoWindow.Private.connectedTo s c = some P := by
  obtain ⟨pc, hc, _, hcon⟩ := h.2.1 P pP c hP hmem
  simp only [LingmoWindow.Private.connectedTo, hc, hcon, hP]

theorem LingmoWindow.Private.mappedParent_live (s : Heap) (parent : Option Nat) (q : Nat)
    (h : LingmoWindow.Private.mappedParent s parent = some q) :
    ∃ pq : LingmoWindow.Private, s.window q = some pq := by
  cases parent with
  | none => simp [LingmoWindow.Private.mappedParent] at h
  | some x =>
    simp only [LingmoWindow.Private.mappedParent] at h
    cases hx : s.window x with
    | none => simp [hx] at h
    | some px =>
      simp only [hx] at h
      split at h
      · exact absurd h (by simp)
      · cases h
        exact ⟨px, hx⟩

theorem LingmoWindow.Private.setParentWindow_parentLinked (c : Nat) (parent : Option Nat)
    (s : Heap) (h : s.ParentLinked) :
    (LingmoWindow.Private.setParentWindow c parent s).1.ParentLinked := by
  cases hc : s.window c with
  | none =>
    rw [LingmoWindow.Private.setParentWindow_dead c parent s hc]
    exact h
  | some pc =>
    have hwin := LingmoWindow.Private.setParentWindow_window c parent s pc hc
    have hget : ∀ (v : Nat) (pv : LingmoWindow.Private),
        (LingmoWindow.Private.setParentWindow c parent s).1.window v = some pv →
        ∃ qv : LingmoWindow.Private, s.window v = some qv ∧
          pv = LingmoWindow.Private.reparented s c
            (LingmoWindow.Private.mappedParent s parent) v qv := by
      intro v pv hv
      rw [hwin v] at hv
      cases hs : s.window v with
      | none => rw [hs] at hv; simp at hv
      | some qv =>
        rw [hs] at hv
        exact ⟨qv, rfl, (Option.some.inj hv).symm⟩
    have hput : ∀ (v : Nat) (qv : LingmoWindow.Private), s.window v = some qv →
        (LingmoWindow.Private.setParentWindow c parent s).1.window v =
          some (LingmoWindow.Private.reparented s c
            (LingmoWindow.Private.mappedParent s parent) v qv) := by
      intro v qv hv
      rw [hwin v, hv]
      rfl
    refine ⟨?_, ?_, ?_⟩
    · intro x px P hx hpar
      obtain ⟨qx, hqx, rfl⟩ := hget x px hx
      by_cases hxc : x = c
      · subst hxc
        have htar : LingmoWindow.Private.mappedParent s parent = some P := by
          simpa [LingmoWindow.Private.reparented] using hpar
        obtain ⟨qP, hqP⟩ := LingmoWindow.Private.mappedParent_live s parent P htar
        refine ⟨_, hput P qP hqP, ?_⟩
        simp [LingmoWindow.Private.reparented, htar]
      · have hpar1 : qx.parentWindow = some P := by
          simpa [LingmoWindow.Private.reparented, hxc] using hpar
        obtain ⟨qP, hqP, hmem⟩ := h.1 x qx P hqx hpar1
        refine ⟨_, hput P qP hqP, ?_⟩
        simp only [LingmoWindow.Private.reparented, List.mem_append]
        left
        split
        · exact (List.mem_erase_of_ne hxc).2 hmem
        · exact hmem
    · intro P pP x hP hmem
      obtain ⟨qP, hqP, rfl⟩ := hget P pP hP
      simp only [LingmoWindow.Private.reparented, List.mem_append] at hmem
      rcases hmem with hmem | hmem
      · have hmem0 : x ∈ qP.unmappedSlots := by
          split at hmem
          · exact List.mem_of_mem_erase hmem
          · exact hmem
        obtain ⟨qx, hqx, hpar, hcon⟩ := h.2.1 P qP x hqP hmem0
        have hxc : x ≠ c := by
          intro e
          subst e
          have hconn := LingmoWindow.Private.connectedTo_of_mem s h x P qP hqP hmem0
          rw [if_pos hconn] at hmem
          exact ((h.2.2 P qP hqP).mem_erase_iff.1 hmem).1 rfl
        refine ⟨_, hput x qx hqx, ?_, ?_⟩
        · simp [LingmoWindow.Private.reparented, hxc, hpar]
        · simp [LingmoWindow.Private.reparented, hxc, hcon]
      · split at hmem
        · rename_i htar
          have hxc : x = c := by simpa using hmem
          subst hxc
          refine ⟨_, hput x pc hc, ?_, ?_⟩
          · simp [LingmoWindow.Private.reparented, htar]
          · simp [LingmoWindow.Private.reparented, htar]
        · simp at hmem
    · intro P pP hP
      obtain ⟨qP, hqP, rfl⟩ := hget P pP hP
      have hnd := h.2.2 P qP hqP
      have hconn : c ∈ qP.unmappedSlots → LingmoWindow.Private.connectedTo s c = some P :=
        LingmoWindow.Private.connectedTo_of_mem s h c P qP hqP
      simp only [LingmoWindow.Private.reparented]
      by_cases h1 : LingmoWindow.Private.connectedTo s c = some P <;>
        by_cases h2 : LingmoWindow.Private.mappedParent s parent = some P
      · simp only [h1, h2, if_true]
        refine List.Nodup.append (hnd.erase c) (List.nodup_singleton c) ?_
        rw [List.disjoint_singleton]
        intro hmem
        exact (hnd.mem_erase_iff.1 hmem).1 rfl
      · simp only [h1, h2, if_true, if_false, List.append_nil]
        exact hnd.erase c
      · simp only [h1, h2, if_true, if_false]
        refine List.Nodup.append hnd (List.nodup_singleton c) ?_
        rw [List.disjoint_singleton]
        intro hmem
        exact h1 (hconn hmem)
      · simp only [h1, h2, if_false, List.append_nil]
        exact hnd
theorem runAll_setParentWindow_parentLinked (cs : List Nat) (s : Heap) (h : s.ParentLinked) :
    (runAll (cs.map (fun c => LingmoWindow.Private.setParentWindow c none)) s).1.ParentLinked := by
  induction cs generalizing s with
  | nil => exact h
  | cons c cs ih =>
    simp only [List.map_cons, runAll]
    exact ih _ (LingmoWindow.Private.setParentWindow_parentLinked c none s h)

theorem LingmoWindow.Private.connectedTo_congr (s t : Heap) (c : Nat)
    (h : ∀ v : Nat, t.window v = s.window v) :
    LingmoWindow.Private.connectedTo t c = LingmoWindow.Private.connectedTo s c := by
  unfold LingmoWindow.Private.connectedTo
  rw [h c]
  cases hc : s.window c with
  | none => rfl
  | some pc =>
    cases hx : pc.parentWindowUnmappedConnection with
    | none => simp only [hx]
    | some x => simp only [hx, h x]

theorem LingmoWindow.destructor_window (w : Nat) (s : Heap) (pw : LingmoWindow.Private)
    (h : s.window w = some pw) (v : Nat) :
    (LingmoWindow.destructor w s).1.window v =
      if v = w then none
      else (s.window v).map (fun pv =>
        { pv with
          parentWindow := if pv.parentWindow = some w then none else pv.parentWindow,
          unmappedSlots :=
            if LingmoWindow.Private.connectedTo s w = some v then pv.unmappedSlots.erase w
            else pv.unmappedSlots }) := by
  have hsame : ∀ x : Nat,
      (LingmoWindowManagement.Private.windowRemoved w s).1.window x = s.window x := by
    intro x
    rw [LingmoWindowManagement.Private.windowRemoved_eq]
    rfl
  have hconn := LingmoWindow.Private.connectedTo_congr s
    (LingmoWindowManagement.Private.windowRemoved w s).1 w hsame
  have h1 := LingmoWindow.Private.window_disconnectParentWindowUnmapped w
    (LingmoWindowManagement.Private.windowRemoved w s).1 v
  rw [hsame v, hconn] at h1
  simp only [LingmoWindow.destructor, h]
  simp only [Heap.window, List.getD_eq_getElem?_getD, List.getElem?_map] at h1 ⊢
  by_cases hv : v = w
  · subst hv
    rw [if_pos rfl, List.getElem?_set]
    simp only [if_true]
    split <;> rfl
  · rw [if_neg hv, List.getElem?_set_ne (fun e => hv e.symm)]
    cases hx : (LingmoWindow.Private.disconnectParentWindowUnmapped w
        (LingmoWindowManagement.Private.windowRemoved w s).1).windowObjects[v]? with
    | none =>
      rw [hx] at h1
      cases hs : s.windowObjects[v]? with
      | none => simp
      | some o =>
        rw [hs] at h1
        cases o with
        | none => simp
        | some q => simp at h1
    | some o =>
      rw [hx] at h1
      cases o with
      | none =>
        cases hs : s.windowObjects[v]? with
        | none => simp
        | some o2 =>
          rw [hs] at h1
          cases o2 with
          | none => simp
          | some q => simp at h1
      | some q =>
        cases hs : s.windowObjects[v]? with
        | none => rw [hs] at h1; simp at h1
        | some o2 =>
          rw [hs] at h1
          cases o2 with
          | none => simp at h1
          | some q2 =>
            simp only [Option.getD_some, Option.map_some', Option.some.injEq] at h1
            subst h1
            by_cases hp : q2.parentWindow = some w <;> simp [hp]
theorem LingmoWindow.destructor_parentLinked (w : Nat) (s : Heap) (h : s.ParentLinked) :
    (LingmoWindow.destructor w s).1.ParentLinked := by
  cases hw : s.window w with
  | none =>
    rw [LingmoWindow.destructor_dead s w hw]
    exact h
  | some pw =>
    have hwin := LingmoWindow.destructor_window w s pw hw
    have hget : ∀ (v : Nat) (pv : LingmoWindow.Private),
        (LingmoWindow.destructor w s).1.window v = some pv →
        v ≠ w ∧ ∃ qv : LingmoWindow.Private, s.window v = some qv ∧
          pv = { qv with
            parentWindow := if qv.parentWindow = some w then none else qv.parentWindow,
            unmappedSlots :=
              if LingmoWindow.Private.connectedTo s w = some v then qv.unmappedSlots.erase w
              else qv.unmappedSlots } := by
      intro v pv hv
      rw [hwin v] at hv
      by_cases hvw : v = w
      · rw [if_pos hvw] at hv
        exact absurd hv (by simp)
      · rw [if_neg hvw] at hv
        cases hs : s.window v with
        | none => rw [hs] at hv; simp at hv
        | some qv =>
          rw [hs] at hv
          exact ⟨hvw, qv, rfl, (Option.some.inj hv).symm⟩
    have hput : ∀ (v : Nat) (qv : LingmoWindow.Private), v ≠ w → s.window v = some qv →
        (LingmoWindow.destructor w s).1.window v =
          some { qv with
            parentWindow := if qv.parentWindow = some w then none else qv.parentWindow,
            unmappedSlots :=
              if LingmoWindow.Private.connectedTo s w = some v then qv.unmappedSlots.erase w
              else qv.unmappedSlots } := by
      intro v qv hvw hv
      rw [hwin v, if_neg hvw, hv]
      rfl
    refine ⟨?_, ?_, ?_⟩
    · intro x px P hx hpar
      obtain ⟨hxw, qx, hqx, rfl⟩ := hget x px hx
      have hpar1 : qx.parentWindow = some P ∧ P ≠ w := by
        by_cases hq : qx.parentWindow = some w
        · simp [hq] at hpar
        · simp only [hq, if_false] at hpar
          exact ⟨hpar, fun e => hq (e ▸ hpar)⟩
      obtain ⟨qP, hqP, hmem⟩ := h.1 x qx P hqx hpar1.1
      refine ⟨_, hput P qP hpar1.2 hqP, ?_⟩
      show x ∈ (if LingmoWindow.Private.connectedTo s w = some P then qP.unmappedSlots.erase w
        else qP.unmappedSlots)
      split
      · exact (List.mem_erase_of_ne hxw).2 hmem
      · exact hmem
    · intro P pP x hP hmem
      obtain ⟨hPw, qP, hqP, rfl⟩ := hget P pP hP
      have hmem1 : x ∈ (if LingmoWindow.Private.connectedTo s w = some P then
          qP.unmappedSlots.erase w else qP.unmappedSlots) := hmem
      have hmem0 : x ∈ qP.unmappedSlots := by
        split at hmem1
        · exact List.mem_of_mem_erase hmem1
        · exact hmem1
      obtain ⟨qx, hqx, hpar, hcon⟩ := h.2.1 P qP x hqP hmem0
      have hxw : x ≠ w := by
        intro e
        subst e
        have hconn := LingmoWindow.Private.connectedTo_of_mem s h x P qP hqP hmem0
        rw [if_pos hconn] at hmem1
        exact ((h.2.2 P qP hqP).mem_erase_iff.1 hmem1).1 rfl
      refine ⟨_, hput x qx hxw hqx, ?_, hcon⟩
      have hne : ¬qx.parentWindow = some w := by
        rw [hpar]
        intro e
        exact hPw (Option.some.inj e)
      simp only [hne, if_false]
      exact hpar
    · intro P pP hP
      obtain ⟨_, qP, hqP, rfl⟩ := hget P pP hP
      show (if LingmoWindow.Private.connectedTo s w = some P then qP.unmappedSlots.erase w
        else qP.unmappedSlots).Nodup
      split
      · exact (h.2.2 P qP hqP).erase w
      · exact h.2.2 P qP hqP

theorem LingmoWindow.Private.stateChangedCallback_window (B : StateEnum) (s : Heap)
    (w : Nat) (state : Nat) (p : LingmoWindow.Private) (hw : s.window w = some p) (v : Nat) :
    (LingmoWindow.Private.stateChangedCallback B w state s).1.window v =
      if v = w then some (p.decoded B state) else s.window v := by
  have hlt := Heap.lt_of_window s w p hw
  rw [LingmoWindow.Private.stateChangedCallback_eq B s w p state hw]
  by_cases hv : v = w
  · subst hv
    rw [if_pos rfl]
    exact Heap.window_setWindow_self
      (s.withActiveWindow (activeWindowAfter s v p (maskToBool state B.ACTIVE))) v _ hlt
  · rw [if_neg hv]
    exact Heap.window_setWindow_ne
      (s.withActiveWindow (activeWindowAfter s w p (maskToBool state B.ACTIVE))) w v _
      (fun e => hv e.symm)

theorem LingmoWindow.Private.stateChangedCallback_parentLinked (B : StateEnum) (s : Heap)
    (w : Nat) (state : Nat) (h : s.ParentLinked) :
    (LingmoWindow.Private.stateChangedCallback B w state s).1.ParentLinked := by
  cases hw : s.window w with
  | none =>
    rw [LingmoWindow.Private.stateChangedCallback_dead B s w state hw]
    exact h
  | some p =>
    refine Heap.parentLinked_congr (fun v => ?_) h
    rw [LingmoWindow.Private.stateChangedCallback_window B s w state p hw v]
    by_cases hv : v = w
    · subst hv
      rw [if_pos rfl, hw]
      rfl
    · rw [if_neg hv]

theorem LingmoWindow.Private.unmappedCallback_parentLinked (s : Heap) (w : Nat)
    (h : s.ParentLinked) : (LingmoWindow.Private.unmappedCallback w s).1.ParentLinked := by
  cases hw : s.window w with
  | none =>
    rw [LingmoWindow.Private.unmappedCallback_dead s w hw]
    exact h
  | some p =>
    have hlt := Heap.lt_of_window s w p hw
    have h1 : (LingmoWindowManagement.Private.windowRemoved w
        (s.setWindow w { p with unmapped := true })).1.ParentLinked := by
      refine Heap.parentLinked_congr (fun v => ?_) h
      rw [LingmoWindowManagement.Private.windowRemoved_eq]
      show ((s.setWindow w { p with unmapped := true }).window v).map _ = _
      by_cases hv : v = w
      · subst hv
        rw [Heap.window_setWindow_self s v _ hlt, hw]
        rfl
      · rw [Heap.window_setWindow_ne s w v _ (fun e => hv e.symm)]
    have h2 := runAll_setParentWindow_parentLinked p.unmappedSlots _ h1
    simp only [LingmoWindow.Private.unmappedCallback, hw, LingmoWindow.emitUnmapped,
      Heap.window_setWindow_self s w _ hlt, runAll]
    exact h2

theorem LingmoWindowManagement.Private.windowCreated_parentLinked (id : WlProxy)
    (internalId : Nat) (uuid : QByteArray) (s : Heap) (r : Heap × List Signal)
    (hr : LingmoWindowManagement.Private.windowCreated id internalId uuid s = some r)
    (h : s.ParentLinked) : r.1.ParentLinked := by
  by_cases hu : uuid = ""
  · simp [LingmoWindowManagement.Private.windowCreated, hu] at hr
  · rw [LingmoWindowManagement.Private.windowCreated_eq id internalId uuid s hu] at hr
    cases hr
    have hwin := Heap.window_append s
      { s with
          windowObjects := s.windowObjects ++
            [some { window := some id, internalId := internalId, uuid := uuid, wm := true }],
          d := { s.d with windows := s.d.windows ++ [s.windowObjects.length] } } _ rfl
    have hold : ∀ (v : Nat) (pv : LingmoWindow.Private), s.window v = some pv →
        Heap.window { s with
          windowObjects := s.windowObjects ++
            [some { window := some id, internalId := internalId, uuid := uuid, wm := true }],
          d := { s.d with windows := s.d.windows ++ [s.windowObjects.length] } } v =
          some pv := by
      intro v pv hv
      rw [hwin v, if_pos (Heap.lt_of_window s v pv hv)]
      exact hv
    have hnew : ∀ (v : Nat) (pv : LingmoWindow.Private),
        Heap.window { s with
          windowObjects := s.windowObjects ++
            [some { window := some id, internalId := internalId, uuid := uuid, wm := true }],
          d := { s.d with windows := s.d.windows ++ [s.windowObjects.length] } } v =
          some pv →
        s.window v = some pv ∨
          pv = { window := some id, internalId := internalId, uuid := uuid, wm := true } := by
      intro v pv hv
      rw [hwin v] at hv
      split at hv
      · exact Or.inl hv
      · split at hv
        · exact Or.inr (Option.some.inj hv).symm
        · exact absurd hv (by simp)
    refine ⟨?_, ?_, ?_⟩
    · intro c pc P hc hpar
      rcases hnew c pc hc with hc1 | hc1
      · obtain ⟨pP, hP, hmem⟩ := h.1 c pc P hc1 hpar
        exact ⟨pP, hold P pP hP, hmem⟩
      · subst hc1
        simp at hpar
    · intro P pP c hP hmem
      rcases hnew P pP hP with hP1 | hP1
      · obtain ⟨pc, hc, hpar, hcon⟩ := h.2.1 P pP c hP1 hmem
        exact ⟨pc, hold c pc hc, hpar, hcon⟩
      · subst hP1
        simp at hmem
    · intro P pP hP
      rcases hnew P pP hP with hP1 | hP1
      · exact h.2.2 P pP hP1
      · subst hP1
        exact List.nodup_nil

theorem Heap.parentLinked_of_windowObjects_eq {s t : Heap}
    (ho : t.windowObjects = s.windowObjects) (h : s.ParentLinked) : t.ParentLinked :=
  Heap.parentLinked_congr (fun v => by simp [Heap.window, ho]) h

theorem step_preserves_parentLinked (P : Protocol) (s : Heap) (e : Event)
    (r : Heap × List Signal) (hr : step P s e = some r) (h : s.ParentLinked) :
    r.1.ParentLinked := by
  cases e with
  | setup wm =>
    exact Heap.parentLinked_of_windowObjects_eq
      (LingmoWindowManagement.Private.setup_windows _ wm s r hr).2.2.1 h
  | windowCreated id internalId uuid =>
    exact LingmoWindowManagement.Private.windowCreated_parentLinked id internalId uuid s r hr h
  | stateChanged w state =>
    obtain rfl : LingmoWindow.Private.stateChangedCallback P.state w state s = r :=
      Option.some.inj hr
    exact LingmoWindow.Private.stateChangedCallback_parentLinked P.state s w state h
  | parentWindow w parent =>
    obtain rfl : LingmoWindow.Private.parentWindowCallback w parent s = r := Option.some.inj hr
    unfold LingmoWindow.Private.parentWindowCallback
    split
    · exact h
    · exact LingmoWindow.Private.setParentWindow_parentLinked w _ s h
  | unmapped w =>
    obtain rfl : LingmoWindow.Private.unmappedCallback w s = r := Option.some.inj hr
    exact LingmoWindow.Private.unmappedCallback_parentLinked s w h
  | destroyed w =>
    obtain rfl : LingmoWindow.destructor w s = r := Option.some.inj hr
    exact LingmoWindow.destructor_parentLinked w s h
  | stackingOrder ids =>
    obtain rfl : LingmoWindowManagement.Private.stackingOrderCallback ids s = r :=
      Option.some.inj hr
    exact h
  | stackingOrderUuids uuids =>
    obtain rfl : LingmoWindowManagement.Private.stackingOrderUuidsCallback uuids s = r :=
      Option.some.inj hr
    refine Heap.parentLinked_of_windowObjects_eq ?_ h
    simp only [LingmoWindowManagement.Private.stackingOrderUuidsCallback,
      LingmoWindowManagement.Private.setStackingOrder]
    split <;> rfl
  | stackingOrder2 =>
    obtain rfl : LingmoWindowManagement.Private.stackingOrder2Callback s = r :=
      Option.some.inj hr
    exact Heap.parentLinked_of_windowObjects_eq rfl h
  | stackingOrderWindow o uuid =>
    obtain rfl : LingmoWindowManagement.Private.stackingOrderWindow o uuid s = r :=
      Option.some.inj hr
    refine Heap.parentLinked_of_windowObjects_eq ?_ h
    simp only [LingmoWindowManagement.Private.stackingOrderWindow]
    split <;> rfl
  | stackingOrderDone o =>
    obtain rfl : LingmoWindowManagement.Private.stackingOrderDone o s = r :=
      Option.some.inj hr
    refine Heap.parentLinked_of_windowObjects_eq ?_ h
    simp only [LingmoWindowManagement.Private.stackingOrderDone,
      LingmoWindowManagement.Private.setStackingOrder]
    split
    · rfl
    · split
      · split <;> rfl
      · rfl

theorem run_preserves_parentLinked (P : Protocol) (evs : List Event) (s : Heap)
    (r : Heap × List Signal) (hr : run P s evs = some r) (h : s.ParentLinked) :
    r.1.ParentLinked := by
  induction evs generalizing s r with
  | nil =>
    simp only [run, Option.some.injEq] at hr
    subst hr
    exact h
  | cons e es ih =>
    obtain ⟨r1, r2, h1, h2, rfl⟩ := run_cons_eq_some P s e es r hr
    exact ih r1.1 r2 h2 (step_preserves_parentLinked P s e r1 h1 h)

theorem Heap.initial_parentLinked : Heap.initial.ParentLinked := by
  refine ⟨?_, ?_, ?_⟩
  · intro c pc P hc
    simp [Heap.initial, Heap.window] at hc
  · intro P pP c hP
    simp [Heap.initial, Heap.window] at hP
  · intro P pP hP
    simp [Heap.initial, Heap.window] at hP
theorem LingmoWindow.Private.setParentWindow_none_parentWindow (c : Nat) (s : Heap) (v : Nat) :
    LingmoWindow.parentWindow (LingmoWindow.Private.setParentWindow c none s).1 v =
      if v = c then none else LingmoWindow.parentWindow s v := by
  cases hc : s.window c with
  | none =>
    rw [LingmoWindow.Private.setParentWindow_dead c none s hc]
    by_cases hv : v = c
    · subst hv
      simp [LingmoWindow.parentWindow, hc]
    · rw [if_neg hv]
  | some pc =>
    rw [LingmoWindow.Private.setParentWindow_parentWindow c none s pc hc v]
    rfl

theorem LingmoWindow.Private.setParentWindow_none_signals (c : Nat) (s : Heap) :
    (LingmoWindow.Private.setParentWindow c none s).2 =
      if LingmoWindow.parentWindow s c ≠ none then
        [Signal.window c WindowSignal.parentWindowChanged]
      else [] := by
  cases hc : s.window c with
  | none =>
    rw [LingmoWindow.Private.setParentWindow_dead c none s hc]
    simp [LingmoWindow.parentWindow, hc]
  | some pc =>
    rw [LingmoWindow.Private.setParentWindow_signals c none s pc hc]
    by_cases hp : LingmoWindow.parentWindow s c = none
    · simp [hp, LingmoWindow.Private.mappedParent]
    · have hp2 : ¬none = LingmoWindow.parentWindow s c := fun e => hp e.symm
      simp [hp, hp2, LingmoWindow.Private.mappedParent]

theorem runAll_setParentWindow_none (cs : List Nat) (s : Heap) :
    (∀ v : Nat,
      LingmoWindow.parentWindow
          (runAll (cs.map (fun c => LingmoWindow.Private.setParentWindow c none)) s).1 v =
        if v ∈ cs then none else LingmoWindow.parentWindow s v) ∧
    (∀ v : Nat,
      (runAll (cs.map (fun c => LingmoWindow.Private.setParentWindow c none)) s).2.count
          (Signal.window v WindowSignal.parentWindowChanged) =
        if v ∈ cs ∧ LingmoWindow.parentWindow s v ≠ none then 1 else 0) ∧
    (∀ x ∈ (runAll (cs.map (fun c => LingmoWindow.Private.setParentWindow c none)) s).2,
      ∃ c ∈ cs, x = Signal.window c WindowSignal.parentWindowChanged) := by
  induction cs generalizing s with
  | nil =>
    refine ⟨fun v => by simp [runAll], fun v => by simp [runAll], fun x hx => ?_⟩
    simp [runAll] at hx
  | cons c cs ih =>
    obtain ⟨iha, ihb, ihc⟩ := ih (LingmoWindow.Private.setParentWindow c none s).1
    have hpw := LingmoWindow.Private.setParentWindow_none_parentWindow c s
    have hsig := LingmoWindow.Private.setParentWindow_none_signals c s
    simp only [List.map_cons, runAll]
    refine ⟨?_, ?_, ?_⟩
    · intro v
      rw [iha v, hpw v]
      by_cases hvc : v = c
      · subst hvc
        simp
      · by_cases hvs : v ∈ cs <;> simp [hvc, hvs]
    · intro v
      rw [List.count_append, ihb v, hpw v, hsig]
      by_cases hvc : v = c
      · subst hvc
        by_cases hp : LingmoWindow.parentWindow s v = none
        · simp [hp]
        · simp [hp, List.count_cons]
      · have hcv : ¬c = v := fun e => hvc e.symm
        by_cases hp : LingmoWindow.parentWindow s c = none
        · by_cases hvs : v ∈ cs <;> simp [hp, hvc, hvs]
        · by_cases hvs : v ∈ cs <;> simp [hp, hvc, hcv, hvs, List.count_cons]
    · intro x hx
      rcases List.mem_append.1 hx with hx | hx
      · rw [hsig] at hx
        split at hx
        · exact ⟨c, List.mem_cons_self c cs, by simpa using hx⟩
        · simp at hx
      · obtain ⟨c1, hc1, hx1⟩ := ihc x hx
        exact ⟨c1, List.mem_cons_of_mem c hc1, hx1⟩

theorem LingmoWindow.Private.unmappedCallback_eq (w : Nat) (s : Heap)
    (p : LingmoWindow.Private) (h : s.window w = some p) :
    LingmoWindow.Private.unmappedCallback w s =
      ((runAll (p.unmappedSlots.map (fun c => LingmoWindow.Private.setParentWindow c none))
          (LingmoWindowManagement.Private.windowRemoved w
            (s.setWindow w { p with unmapped := true })).1).1,
        Signal.window w WindowSignal.unmapped ::
          ((if s.d.activeWindow = some w then [Signal.activeWindowChanged] else []) ++
            (runAll (p.unmappedSlots.map (fun c => LingmoWindow.Private.setParentWindow c none))
              (LingmoWindowManagement.Private.windowRemoved w
                (s.setWindow w { p with unmapped := true })).1).2)) := by
  have hlt := Heap.lt_of_window s w p h
  simp only [LingmoWindow.Private.unmappedCallback, h, LingmoWindow.emitUnmapped,
    Heap.window_setWindow_self s w _ hlt, runAll,
    LingmoWindowManagement.Private.windowRemoved_eq]
  rfl

theorem LingmoWindow.parentWindow_after_windowRemoved (w : Nat) (s : Heap)
    (p : LingmoWindow.Private) (h : s.window w = some p) (v : Nat) :
    LingmoWindow.parentWindow
        (LingmoWindowManagement.Private.windowRemoved w
          (s.setWindow w { p with unmapped := true })).1 v =
      LingmoWindow.parentWindow s v := by
  have hlt := Heap.lt_of_window s w p h
  rw [LingmoWindowManagement.Private.windowRemoved_eq]
  show (match (s.setWindow w { p with unmapped := true }).window v with
    | none => none
    | some q => q.parentWindow) = _
  by_cases hv : v = w
  · subst hv
    rw [Heap.window_setWindow_self s v _ hlt]
    simp [LingmoWindow.parentWindow, h]
  · rw [Heap.window_setWindow_ne s w v _ (fun e => hv e.symm)]
    rfl

/-- C16: in every state reached from the initial one, an `unmapped` event on a window `P`
makes `parentWindow()` of every window whose parent is `P` null and emits `parentWindowChanged`
on that window exactly once; a window whose parent is not `P` keeps its parent and emits
nothing (the only signal `P` itself emits is `unmapped`). -/
theorem unmapping_the_parent_orphans_its_children (Pr : Protocol) (evs : List Event)
    (r : Heap × List Signal) (P : Nat) (pP : LingmoWindow.Private)
    (hrun : run Pr Heap.initial evs = some r) (hP : r.1.window P = some pP) :
    (∀ c : Nat, LingmoWindow.parentWindow r.1 c = some P →
      LingmoWindow.parentWindow (LingmoWindow.Private.unmappedCallback P r.1).1 c = none ∧
      (LingmoWindow.Private.unmappedCallback P r.1).2.count
        (Signal.window c WindowSignal.parentWindowChanged) = 1) ∧
    (∀ e : Nat, LingmoWindow.parentWindow r.1 e ≠ some P →
      LingmoWindow.parentWindow (LingmoWindow.Private.unmappedCallback P r.1).1 e =
        LingmoWindow.parentWindow r.1 e ∧
      ∀ sig : WindowSignal,
        Signal.window e sig ∈ (LingmoWindow.Private.unmappedCallback P r.1).2 →
          e = P ∧ sig = WindowSignal.unmapped) := by
  have hwf := run_preserves_parentLinked Pr evs Heap.initial r hrun Heap.initial_parentLinked
  obtain ⟨ha, hb, hc⟩ := runAll_setParentWindow_none pP.unmappedSlots
    (LingmoWindowManagement.Private.windowRemoved P
      (r.1.setWindow P { pP with unmapped := true })).1
  have hpw := LingmoWindow.parentWindow_after_windowRemoved P r.1 pP hP
  rw [LingmoWindow.Private.unmappedCallback_eq P r.1 pP hP]
  constructor
  · intro c hcp
    have hmem : c ∈ pP.unmappedSlots := by
      unfold LingmoWindow.parentWindow at hcp
      cases hcw : r.1.window c with
      | none => rw [hcw] at hcp; simp at hcp
      | some pc =>
        rw [hcw] at hcp
        obtain ⟨pP1, hP1, hm⟩ := hwf.1 c pc P hcw hcp
        rw [hP] at hP1
        cases hP1
        exact hm
    refine ⟨?_, ?_⟩
    · show LingmoWindow.parentWindow (runAll _ _).1 c = none
      rw [ha c, if_pos hmem]
    · show List.count _ (_ :: (_ ++ (runAll _ _).2)) = 1
      rw [List.count_cons, List.count_append, hb c, hpw c, hcp]
      have hne : (Signal.window P WindowSignal.unmapped ==
          Signal.window c WindowSignal.parentWindowChanged) = false := by
        simp
      rw [hne]
      split <;> simp [hmem, List.count_cons]
  · intro e hep
    have hmem : e ∉ pP.unmappedSlots := by
      intro hm
      obtain ⟨pe, hew, hpar, _⟩ := hwf.2.1 P pP e hP hm
      exact hep (by simp [LingmoWindow.parentWindow, hew, hpar])
    refine ⟨?_, ?_⟩
    · show LingmoWindow.parentWindow (runAll _ _).1 e = _
      rw [ha e, if_neg hmem, hpw e]
    · intro sig hsig
      have hsig1 : Signal.window e sig ∈ Signal.window P WindowSignal.unmapped ::
          ((if r.1.d.activeWindow = some P then [Signal.activeWindowChanged] else []) ++
            (runAll (pP.unmappedSlots.map
                (fun c => LingmoWindow.Private.setParentWindow c none))
              (LingmoWindowManagement.Private.windowRemoved P
                (r.1.setWindow P { pP with unmapped := true })).1).2) := hsig
      rw [List.mem_cons, List.mem_append] at hsig1
      rcases hsig1 with hs | hs | hs
      · cases hs
        exact ⟨rfl, rfl⟩
      · split at hs <;> simp at hs
      · obtain ⟨c, hcm, hx⟩ := hc _ hs
        cases hx
        exact absurd hcm hmem

/-- Witness of C16: after `sampleParenting` the window `B` is a child of `A`, and `A` is
unmapped. -/
theorem unmapping_the_parent_orphans_its_children_witness :
    (run Protocol.sample Heap.initial sampleParenting =
        some (sampleChild, [Signal.window 1 WindowSignal.parentWindowChanged]) ∧
      sampleChild.window 0 = some { sampleWindowA with unmappedSlots := [1] }) ∧
    (∀ c : Nat, LingmoWindow.parentWindow sampleChild c = some 0 →
      LingmoWindow.parentWindow (LingmoWindow.Private.unmappedCallback 0 sampleChild).1 c =
        none ∧
      (LingmoWindow.Private.unmappedCallback 0 sampleChild).2.count
        (Signal.window c WindowSignal.parentWindowChanged) = 1) ∧
    (∀ e : Nat, LingmoWindow.parentWindow sampleChild e ≠ some 0 →
      LingmoWindow.parentWindow (LingmoWindow.Private.unmappedCallback 0 sampleChild).1 e =
        LingmoWindow.parentWindow sampleChild e ∧
      ∀ sig : WindowSignal,
        Signal.window e sig ∈ (LingmoWindow.Private.unmappedCallback 0 sampleChild).2 →
          e = 0 ∧ sig = WindowSignal.unmapped) :=
  ⟨⟨by decide, rfl⟩,
    unmapping_the_parent_orphans_its_children Protocol.sample sampleParenting
      (sampleChild, [Signal.window 1 WindowSignal.parentWindowChanged]) 0
      { sampleWindowA with unmappedSlots := [1] } (by decide) rfl⟩

theorem ShellHeap.surface_modifySurface_self (h : ShellHeap) (self : Nat)
    (f : LingmoShellSurface.Private → LingmoShellSurface.Private) :
    (h.modifySurface self f).surface self = (h.surface self).map f := by
  unfold ShellHeap.modifySurface
  cases hd : h.surface self with
  | none => simp [hd]
  | some d =>
    have hlt : self < h.surfaceObjects.length := by
      by_contra hge
      simp [ShellHeap.surface, List.getD_eq_getElem?_getD,
        List.getElem?_eq_none (Nat.le_of_not_lt hge)] at hd
    simp [ShellHeap.surface, List.getD_eq_getElem?_getD, hlt]

theorem LingmoShellSurface.isValid_iff (self : Nat) (h : ShellHeap) :
    LingmoShellSurface.isValid self h = true ↔
      ∃ d surface, h.surface self = some d ∧ d.surface = some surface := by
  unfold LingmoShellSurface.isValid
  cases hd : h.surface self with
  | none => simp
  | some d =>
    cases hs : d.surface with
    | none => simp [hs]
    | some surface => simp [hs]

/-- C17: on a valid shell surface `setRole(Role::CriticalNotification)` fails no assertion
and issues exactly one request, `set_role`: with the notification role when the version of the
handle is below the since-version of the critical notification role, with the critical
notification role otherwise. -/
theorem setRole_criticalNotification_falls_back_to_notification (K : SurfaceEnum) (self : Nat)
    (h : ShellHeap) (hv : LingmoShellSurface.isValid self h = true) :
    ∃ d surface, h.surface self = some d ∧ d.surface = some surface ∧
      (surface.version < K.ROLE_CRITICALNOTIFICATION_SINCE_VERSION →
        LingmoShellSurface.setRole K self LingmoShellSurface.Role.CriticalNotification h =
          some (h.modifySurface self
              (fun d1 => { d1 with role := LingmoShellSurface.Role.CriticalNotification }),
            [Request.org_kde_lingmo_surface_set_role surface K.ROLE_NOTIFICATION])) ∧
      (K.ROLE_CRITICALNOTIFICATION_SINCE_VERSION ≤ surface.version →
        LingmoShellSurface.setRole K self LingmoShellSurface.Role.CriticalNotification h =
          some (h.modifySurface self
              (fun d1 => { d1 with role := LingmoShellSurface.Role.CriticalNotification }),
            [Request.org_kde_lingmo_surface_set_role surface
              K.ROLE_CRITICALNOTIFICATION])) := by
  obtain ⟨d, surface, hd, hs⟩ := (LingmoShellSurface.isValid_iff self h).1 hv
  refine ⟨d, surface, hd, hs, ?_, ?_⟩
  · intro hlt
    simp [LingmoShellSurface.setRole, LingmoShellSurface.setRoleSwitch, hd, hs, hlt]
  · intro hge
    simp [LingmoShellSurface.setRole, LingmoShellSurface.setRoleSwitch, hd, hs,
      Nat.not_lt.2 hge]

/-- Witness of C17: a surface whose handle has version 5, below the sample since-version 6;
the requests are also evaluated at the versions 5 and 6. -/
theorem setRole_criticalNotification_falls_back_to_notification_witness :
    (LingmoShellSurface.isValid 0 (sampleShellSurface 5) = true ∧
    ∃ d surface, (sampleShellSurface 5).surface 0 = some d ∧ d.surface = some surface ∧
      (surface.version < SurfaceEnum.sample.ROLE_CRITICALNOTIFICATION_SINCE_VERSION →
        LingmoShellSurface.setRole SurfaceEnum.sample 0
            LingmoShellSurface.Role.CriticalNotification (sampleShellSurface 5) =
          some ((sampleShellSurface 5).modifySurface 0
              (fun d1 => { d1 with role := LingmoShellSurface.Role.CriticalNotification }),
            [Request.org_kde_lingmo_surface_set_role surface
              SurfaceEnum.sample.ROLE_NOTIFICATION])) ∧
      (SurfaceEnum.sample.ROLE_CRITICALNOTIFICATION_SINCE_VERSION ≤ surface.version →
        LingmoShellSurface.setRole SurfaceEnum.sample 0
            LingmoShellSurface.Role.CriticalNotification (sampleShellSurface 5) =
          some ((sampleShellSurface 5).modifySurface 0
              (fun d1 => { d1 with role := LingmoShellSurface.Role.CriticalNotification }),
            [Request.org_kde_lingmo_surface_set_role surface
              SurfaceEnum.sample.ROLE_CRITICALNOTIFICATION]))) ∧
    (LingmoShellSurface.setRole SurfaceEnum.sample 0
        LingmoShellSurface.Role.CriticalNotification (sampleShellSurface 5)).map Prod.snd =
      some [Request.org_kde_lingmo_surface_set_role { id := 3, version := 5 } 4] ∧
    (LingmoShellSurface.setRole SurfaceEnum.sample 0
        LingmoShellSurface.Role.CriticalNotification (sampleShellSurface 6)).map Prod.snd =
      some [Request.org_kde_lingmo_surface_set_role { id := 3, version := 6 } 6] :=
  ⟨⟨by decide,
      setRole_criticalNotification_falls_back_to_notification SurfaceEnum.sample 0
        (sampleShellSurface 5) (by decide)⟩,
    by decide, by decide⟩

/-- C18: on a valid shell surface `setRole(Role::AppletPopup)` fails no assertion; when the
version of the handle is below the since-version of the applet popup role it issues
`set_panel_behavior` with the windows-go-below value and then `set_role` with the panel role,
and nothing else; otherwise it issues `set_role` with the applet popup role and nothing
else. -/
theorem setRole_appletPopup_falls_back_to_panel (K : SurfaceEnum) (self : Nat)
    (h : ShellHeap) (hv : LingmoShellSurface.isValid self h = true) :
    ∃ d surface, h.surface self = some d ∧ d.surface = some surface ∧
      (surface.version < K.ROLE_APPLETPOPUP_SINCE_VERSION →
        LingmoShellSurface.setRole K self LingmoShellSurface.Role.AppletPopup h =
          some (h.modifySurface self
              (fun d1 => { d1 with role := LingmoShellSurface.Role.AppletPopup }),
            [Request.org_kde_lingmo_surface_set_panel_behavior surface
                K.PANEL_BEHAVIOR_WINDOWS_GO_BELOW,
              Request.org_kde_lingmo_surface_set_role surface K.ROLE_PANEL])) ∧
      (K.ROLE_APPLETPOPUP_SINCE_VERSION ≤ surface.version →
        LingmoShellSurface.setRole K self LingmoShellSurface.Role.AppletPopup h =
          some (h.modifySurface self
              (fun d1 => { d1 with role := LingmoShellSurface.Role.AppletPopup }),
            [Request.org_kde_lingmo_surface_set_role surface K.ROLE_APPLETPOPUP])) := by
  obtain ⟨d, surface, hd, hs⟩ := (LingmoShellSurface.isValid_iff self h).1 hv
  refine ⟨d, surface, hd, hs, ?_, ?_⟩
  · intro hlt
    simp [LingmoShellSurface.setRole, LingmoShellSurface.setRoleSwitch,
      LingmoShellSurface.setPanelBehavior, hd, hs, hlt]
  · intro hge
    simp [LingmoShellSurface.setRole, LingmoShellSurface.setRoleSwitch, hd, hs,
      Nat.not_lt.2 hge]

/-- Witness of C18: a surface whose handle has version 7, below the sample since-version 8;
the requests are also evaluated at the versions 7 and 8. -/
theorem setRole_appletPopup_falls_back_to_panel_witness :
    (LingmoShellSurface.isValid 0 (sampleShellSurface 7) = true ∧
    ∃ d surface, (sampleShellSurface 7).surface 0 = some d ∧ d.surface = some surface ∧
      (surface.version < SurfaceEnum.sample.ROLE_APPLETPOPUP_SINCE_VERSION →
        LingmoShellSurface.setRole SurfaceEnum.sample 0 LingmoShellSurface.Role.AppletPopup
            (sampleShellSurface 7) =
          some ((sampleShellSurface 7).modifySurface 0
              (fun d1 => { d1 with role := LingmoShellSurface.Role.AppletPopup }),
            [Request.org_kde_lingmo_surface_set_panel_behavior surface
                SurfaceEnum.sample.PANEL_BEHAVIOR_WINDOWS_GO_BELOW,
              Request.org_kde_lingmo_surface_set_role surface
                SurfaceEnum.sample.ROLE_PANEL])) ∧
      (SurfaceEnum.sample.ROLE_APPLETPOPUP_SINCE_VERSION ≤ surface.version →
        LingmoShellSurface.setRole SurfaceEnum.sample 0 LingmoShellSurface.Role.AppletPopup
            (sampleShellSurface 7) =
          some ((sampleShellSurface 7).modifySurface 0
              (fun d1 => { d1 with role := LingmoShellSurface.Role.AppletPopup }),
            [Request.org_kde_lingmo_surface_set_role surface
              SurfaceEnum.sample.ROLE_APPLETPOPUP]))) ∧
    (LingmoShellSurface.setRole SurfaceEnum.sample 0 LingmoShellSurface.Role.AppletPopup
        (sampleShellSurface 7)).map Prod.snd =
      some [Request.org_kde_lingmo_surface_set_panel_behavior { id := 3, version := 7 } 4,
        Request.org_kde_lingmo_surface_set_role { id := 3, version := 7 } 2] ∧
    (LingmoShellSurface.setRole SurfaceEnum.sample 0 LingmoShellSurface.Role.AppletPopup
        (sampleShellSurface 8)).map Prod.snd =
      some [Request.org_kde_lingmo_surface_set_role { id := 3, version := 8 } 7] :=
  ⟨⟨by decide,
      setRole_appletPopup_falls_back_to_panel SurfaceEnum.sample 0 (sampleShellSurface 7)
        (by decide)⟩,
    by decide, by decide⟩

theorem LingmoShellSurface.setRoleSwitch_heap (K : SurfaceEnum) (self : Nat) (h : ShellHeap)
    (d : LingmoShellSurface.Private) (surface : WlProxy) (role : LingmoShellSurface.Role)
    (hd : h.surface self = some d) (hs : d.surface = some surface) :
    ∃ wlRole issued,
      LingmoShellSurface.setRoleSwitch K self surface role h = some (wlRole, h, issued) := by
  cases role <;>
    simp only [LingmoShellSurface.setRoleSwitch, LingmoShellSurface.setPanelBehavior, hd, hs]
  case CriticalNotification => split <;> exact ⟨_, _, rfl⟩
  case AppletPopup => split <;> exact ⟨_, _, rfl⟩
  all_goals exact ⟨_, _, rfl⟩

/-- C19: `role()` of a newly constructed shell surface is `Role::Normal`, and on a valid
shell surface `setRole(r)` fails no assertion and `role()` afterwards is `r`, for each of the
eight roles and every version of the handle. -/
theorem role_is_the_requested_role (K : SurfaceEnum) (h : ShellHeap) (self : Nat)
    (r : LingmoShellSurface.Role) (hv : LingmoShellSurface.isValid self h = true) :
    LingmoShellSurface.role (LingmoShellSurface.new h).1 (LingmoShellSurface.new h).2 =
      some LingmoShellSurface.Role.Normal ∧
    ∃ out, LingmoShellSurface.setRole K self r h = some out ∧
      LingmoShellSurface.role self out.1 = some r := by
  constructor
  · simp [LingmoShellSurface.role, LingmoShellSurface.new, ShellHeap.surface,
      List.getD_eq_getElem?_getD]
  · obtain ⟨d, surface, hd, hs⟩ := (LingmoShellSurface.isValid_iff self h).1 hv
    obtain ⟨wlRole, issued, hsw⟩ :=
      LingmoShellSurface.setRoleSwitch_heap K self h d surface r hd hs
    refine ⟨(h.modifySurface self (fun d1 => { d1 with role := r }),
      issued ++ [Request.org_kde_lingmo_surface_set_role surface wlRole]), ?_, ?_⟩
    · simp only [LingmoShellSurface.setRole, hd, hs, hsw]
    · simp only [LingmoShellSurface.role, ShellHeap.surface_modifySurface_self, hd]
      rfl

/-- Witness of C19: the applet popup role on a surface whose handle has version 7, where a
panel role is sent. -/
theorem role_is_the_requested_role_witness :
    LingmoShellSurface.isValid 0 (sampleShellSurface 7) = true ∧
    (LingmoShellSurface.role (LingmoShellSurface.new (sampleShellSurface 7)).1
        (LingmoShellSurface.new (sampleShellSurface 7)).2 =
      some LingmoShellSurface.Role.Normal ∧
    ∃ out, LingmoShellSurface.setRole SurfaceEnum.sample 0 LingmoShellSurface.Role.AppletPopup
        (sampleShellSurface 7) = some out ∧
      LingmoShellSurface.role 0 out.1 = some LingmoShellSurface.Role.AppletPopup) :=
  ⟨by decide,
    role_is_the_requested_role SurfaceEnum.sample (sampleShellSurface 7) 0
      LingmoShellSurface.Role.AppletPopup (by decide)⟩

/-- C20: each of the twelve per-row requests of the model, at a row below zero or not below
the number of windows, issues no request, emits nothing and leaves the heap as it is; at a
row within the bounds it does what the member function of that name does on the window stored
at the row, which for a window that exists is to issue exactly the one request of that name
on the handle of that window, with the heap as it is and no signal: `set_state` with the
`ACTIVE` bit for `requestActivate`, `set_state` with the bit of the property and the opposite
of the cached flag for a toggle, and `set_minimized_geometry` with the panel and the four
`int` values of the rectangle converted to `uint`. -/
theorem row_request_checks_the_bounds (B : StateEnum) (q : RowRequest)
    (d : LingmoWindowModel.Private) (row : Int) (s : Heap) :
    (row < 0 ∨ (d.windows.length : Int) ≤ row →
      q.onModel B d row s = { heap := s, signals := [], requests := [] }) ∧
    (∀ h : 0 ≤ row ∧ row < d.windows.length,
      q.onModel B d row s = q.onWindow B (d.at row h) s ∧
      d.windows[row.toNat]? = some (d.at row h)) ∧
    (∀ (h : 0 ≤ row ∧ row < d.windows.length) (p : LingmoWindow.Private),
      s.window (d.at row h) = some p →
      q.onModel B d row s =
        { heap := s, signals := [],
          requests :=
            [match q with
              | RowRequest.requestActivate =>
                Request.org_kde_lingmo_window_set_state p.window B.ACTIVE B.ACTIVE
              | RowRequest.requestClose => Request.org_kde_lingmo_window_close p.window
              | RowRequest.requestMove => Request.org_kde_lingmo_window_request_move p.window
              | RowRequest.requestResize => Request.org_kde_lingmo_window_request_resize p.window
              | RowRequest.requestEnterVirtualDesktop id =>
                Request.org_kde_lingmo_window_request_enter_virtual_desktop p.window id
              | RowRequest.requestToggleKeepAbove =>
                Request.org_kde_lingmo_window_set_state p.window B.KEEP_ABOVE
                  (if p.keepAbove = true then 0 else B.KEEP_ABOVE)
              | RowRequest.requestToggleKeepBelow =>
                Request.org_kde_lingmo_window_set_state p.window B.KEEP_BELOW
                  (if p.keepBelow = true then 0 else B.KEEP_BELOW)
              | RowRequest.requestToggleMinimized =>
                Request.org_kde_lingmo_window_set_state p.window B.MINIMIZED
                  (if p.minimized = true then 0 else B.MINIMIZED)
              | RowRequest.requestToggleMaximized =>
                Request.org_kde_lingmo_window_set_state p.window B.MAXIMIZED
                  (if p.maximized = true then 0 else B.MAXIMIZED)
              | RowRequest.requestToggleFullscreen =>
                Request.org_kde_lingmo_window_set_state p.window B.FULLSCREEN
                  (if p.fullscreen = true then 0 else B.FULLSCREEN)
              | RowRequest.setMinimizedGeometry panel geom =>
                Request.org_kde_lingmo_window_set_minimized_geometry p.window panel
                  (toUInt32 geom.x1) (toUInt32 geom.y1)
                  (toUInt32 (toInt32 (geom.x2 - geom.x1 + 1)))
                  (toUInt32 (toInt32 (geom.y2 - geom.y1 + 1)))
              | RowRequest.requestToggleShaded =>
                Request.org_kde_lingmo_window_set_state p.window B.SHADED
                  (if p.shaded = true then 0 else B.SHADED)] }) := by
  refine ⟨?_, ?_, ?_⟩
  · intro hout
    have hn : ¬(0 ≤ row ∧ row < d.windows.length) := by omega
    cases q <;>
      simp only [RowRequest.onModel, LingmoWindowModel.requestActivate,
        LingmoWindowModel.requestClose, LingmoWindowModel.requestMove,
        LingmoWindowModel.requestResize, LingmoWindowModel.requestEnterVirtualDesktop,
        LingmoWindowModel.requestToggleKeepAbove, LingmoWindowModel.requestToggleKeepBelow,
        LingmoWindowModel.requestToggleMinimized, LingmoWindowModel.requestToggleMaximized,
        LingmoWindowModel.requestToggleFullscreen, LingmoWindowModel.setMinimizedGeometry,
        LingmoWindowModel.requestToggleShaded, dif_neg hn]
  · intro h
    constructor
    · cases q <;>
        simp only [RowRequest.onModel, RowRequest.onWindow, LingmoWindowModel.requestActivate,
          LingmoWindowModel.requestClose, LingmoWindowModel.requestMove,
          LingmoWindowModel.requestResize, LingmoWindowModel.requestEnterVirtualDesktop,
          LingmoWindowModel.requestToggleKeepAbove, LingmoWindowModel.requestToggleKeepBelow,
          LingmoWindowModel.requestToggleMinimized, LingmoWindowModel.requestToggleMaximized,
          LingmoWindowModel.requestToggleFullscreen, LingmoWindowModel.setMinimizedGeometry,
          LingmoWindowModel.requestToggleShaded, dif_pos h]
    · simp [LingmoWindowModel.Private.at]
  · intro h p hp
    cases q <;>
      simp only [RowRequest.onModel, LingmoWindowModel.requestActivate,
        LingmoWindowModel.requestClose, LingmoWindowModel.requestMove,
        LingmoWindowModel.requestResize, LingmoWindowModel.requestEnterVirtualDesktop,
        LingmoWindowModel.requestToggleKeepAbove, LingmoWindowModel.requestToggleKeepBelow,
        LingmoWindowModel.requestToggleMinimized, LingmoWindowModel.requestToggleMaximized,
        LingmoWindowModel.requestToggleFullscreen, LingmoWindowModel.setMinimizedGeometry,
        LingmoWindowModel.requestToggleShaded, dif_pos h, LingmoWindow.requestActivate,
        LingmoWindow.requestClose, LingmoWindow.requestMove, LingmoWindow.requestResize,
        LingmoWindow.requestEnterVirtualDesktop, LingmoWindow.requestToggleKeepAbove,
        LingmoWindow.requestToggleKeepBelow, LingmoWindow.requestToggleMinimized,
        LingmoWindow.requestToggleMaximized, LingmoWindow.requestToggleFullscreen,
        LingmoWindow.setMinimizedGeometry, LingmoWindow.requestToggleShaded, hp,
        QRect.x, QRect.y, QRect.width, QRect.height] <;>
      first
        | rfl
        | (split <;> rfl)

/-- Witness of C20: `requestClose` on the model `sampleModel` at the row -1, which is out of
the bounds, and at the row 0, which holds the window `B`; and `setMinimizedGeometry` at the
row 0 with a rectangle from -2147483648 to 2147483647 in x, whose width is 0 in `int`. -/
theorem row_request_checks_the_bounds_witness :
    (((-1 : Int) < 0 ∨ ((sampleModel.windows.length : Nat) : Int) ≤ -1) ∧
      RowRequest.requestClose.onModel StateEnum.sample sampleModel (-1) sampleTwoWindows =
        { heap := sampleTwoWindows, signals := [], requests := [] }) ∧
    (∃ h : (0 : Int) ≤ 0 ∧ (0 : Int) < sampleModel.windows.length,
      sampleTwoWindows.window (sampleModel.at 0 h) = some sampleWindowB ∧
      (RowRequest.requestClose.onModel StateEnum.sample sampleModel 0 sampleTwoWindows =
          RowRequest.requestClose.onWindow StateEnum.sample (sampleModel.at 0 h)
            sampleTwoWindows ∧
        sampleModel.windows[(0 : Int).toNat]? = some (sampleModel.at 0 h))) ∧
    RowRequest.requestClose.onModel StateEnum.sample sampleModel 0 sampleTwoWindows =
      { heap := sampleTwoWindows, signals := [],
        requests := [Request.org_kde_lingmo_window_close (some { id := 8, version := 16 })] } ∧
    (RowRequest.setMinimizedGeometry { id := 40, version := 4 }
        { x1 := -2147483648, y1 := 0, x2 := 2147483647, y2 := 9 }).onModel StateEnum.sample
        sampleModel 0 sampleTwoWindows =
      { heap := sampleTwoWindows, signals := [],
        requests :=
          [Request.org_kde_lingmo_window_set_minimized_geometry
            (some { id := 8, version := 16 }) { id := 40, version := 4 } 2147483648 0 0 10] } :=
  ⟨⟨by decide,
      (row_request_checks_the_bounds StateEnum.sample RowRequest.requestClose sampleModel (-1)
        sampleTwoWindows).1 (by decide)⟩,
    ⟨⟨by decide, by decide⟩, rfl,
      (row_request_checks_the_bounds StateEnum.sample RowRequest.requestClose sampleModel 0
        sampleTwoWindows).2.1 ⟨by decide, by decide⟩⟩,
    (row_request_checks_the_bounds StateEnum.sample RowRequest.requestClose sampleModel 0
      sampleTwoWindows).2.2 ⟨by decide, by decide⟩ sampleWindowB rfl,
    (row_request_checks_the_bounds StateEnum.sample
      (RowRequest.setMinimizedGeometry { id := 40, version := 4 }
        { x1 := -2147483648, y1 := 0, x2 := 2147483647, y2 := 9 })
      sampleModel 0 sampleTwoWindows).2.2 ⟨by decide, by decide⟩ sampleWindowB rfl⟩

/-- C21: for each of the cached fields title, appId, resourceName, geometry and
clientGeometry, the listener of a window that exists stores an incoming value that differs
from the cached one and emits the change signal of that field exactly once, and nothing else;
for an incoming value equal to the cached one it leaves the heap as it is and emits
nothing. -/
theorem cached_field_notifies_exactly_on_change (f : CachedField) (s : Heap) (w : Nat)
    (p : LingmoWindow.Private) (h : s.window w = some p) :
    (f.redundant p = false →
      f.callback w s = (s.setWindow w (f.stored p), [Signal.window w f.signal])) ∧
    (f.redundant p = true → f.callback w s = (s, []) ∧ f.stored p = p) := by
  cases f with
  | title t =>
    simp only [CachedField.redundant, CachedField.callback, CachedField.stored,
      CachedField.signal, LingmoWindow.Private.titleChangedCallback, LingmoWindow.emit, h,
      decide_eq_false_iff_not, decide_eq_true_eq]
    refine ⟨fun hne => ?_, fun heq => ?_⟩
    · rw [if_neg (fun e => hne e.symm)]
    · rw [if_pos heq.symm]
      exact ⟨rfl, by rw [heq]⟩
  | appId a =>
    simp only [CachedField.redundant, CachedField.callback, CachedField.stored,
      CachedField.signal, LingmoWindow.Private.appIdChangedCallback, LingmoWindow.emit, h,
      decide_eq_false_iff_not, decide_eq_true_eq]
    refine ⟨fun hne => ?_, fun heq => ?_⟩
    · rw [if_neg hne]
    · rw [if_pos heq]
      exact ⟨rfl, by rw [heq]⟩
  | resourceName r =>
    simp only [CachedField.redundant, CachedField.callback, CachedField.stored,
      CachedField.signal, LingmoWindow.Private.resourceNameChangedCallback, LingmoWindow.emit,
      h, decide_eq_false_iff_not, decide_eq_true_eq]
    refine ⟨fun hne => ?_, fun heq => ?_⟩
    · rw [if_neg hne]
    · rw [if_pos heq]
      exact ⟨rfl, by rw [heq]⟩
  | geometry x y wd ht =>
    simp only [CachedField.redundant, CachedField.callback, CachedField.stored,
      CachedField.signal, LingmoWindow.Private.windowGeometryCallback, LingmoWindow.emit, h,
      decide_eq_false_iff_not, decide_eq_true_eq]
    refine ⟨fun hne => ?_, fun heq => ?_⟩
    · rw [if_neg hne]
    · rw [if_pos heq]
      exact ⟨rfl, by rw [heq]⟩
  | clientGeometry x y wd ht =>
    simp only [CachedField.redundant, CachedField.callback, CachedField.stored,
      CachedField.signal, LingmoWindow.Private.clientGeometryCallback, LingmoWindow.emit, h,
      decide_eq_false_iff_not, decide_eq_true_eq]
    refine ⟨fun hne => ?_, fun heq => ?_⟩
    · rw [if_neg (fun e => hne e.symm)]
    · rw [if_pos heq.symm]
      exact ⟨rfl, by rw [heq]⟩

/-- Witness of C21: the window `A` of `sampleTwoWindows` receives the geometry (10, 20, 300,
200), which differs from the cached null rectangle, and then the same geometry again. -/
theorem cached_field_notifies_exactly_on_change_witness :
    (sampleTwoWindows.window 0 = some sampleWindowA ∧
      (CachedField.geometry 10 20 300 200).redundant sampleWindowA = false ∧
      (CachedField.geometry 10 20 300 200).callback 0 sampleTwoWindows =
        (sampleTwoWindows.setWindow 0
            { sampleWindowA with geometry := { x1 := 10, y1 := 20, x2 := 309, y2 := 219 } },
          [Signal.window 0 WindowSignal.geometryChanged])) ∧
    ((CachedField.geometry 10 20 300 200).redundant
        { sampleWindowA with geometry := { x1 := 10, y1 := 20, x2 := 309, y2 := 219 } } = true ∧
      (CachedField.geometry 10 20 300 200).callback 0
          (sampleTwoWindows.setWindow 0
            { sampleWindowA with
              geometry := { x1 := 10, y1 := 20, x2 := 309, y2 := 219 } }) =
        (sampleTwoWindows.setWindow 0
            { sampleWindowA with geometry := { x1 := 10, y1 := 20, x2 := 309, y2 := 219 } },
          [])) :=
  ⟨⟨rfl, by decide,
      (cached_field_notifies_exactly_on_change (CachedField.geometry 10 20 300 200)
        sampleTwoWindows 0 sampleWindowA rfl).1 (by decide)⟩,
    ⟨by decide,
      ((cached_field_notifies_exactly_on_change (CachedField.geometry 10 20 300 200)
        (sampleTwoWindows.setWindow 0
          { sampleWindowA with geometry := { x1 := 10, y1 := 20, x2 := 309, y2 := 219 } })
        0 { sampleWindowA with geometry := { x1 := 10, y1 := 20, x2 := 309, y2 := 219 } }
        (by decide)).2 (by decide)).1⟩⟩
/-- C22, the claim at a concrete input: the window `A` of `sampleTwoWindows`, whose cached
pid is 0, receives the pid 4711; the cached pid becomes 4711 and no signal at all is
emitted. -/
theorem pidChanged_emits_no_notification_counterexample :
    LingmoWindow.pid sampleTwoWindows 0 = 0 ∧
    LingmoWindow.pid (LingmoWindow.Private.pidChangedCallback 0 4711 sampleTwoWindows).1 0 =
      4711 ∧
    ¬∃ x : Signal, x ∈ (LingmoWindow.Private.pidChangedCallback 0 4711 sampleTwoWindows).2 := by
  refine ⟨by decide, by decide, ?_⟩
  rintro ⟨x, hx⟩
  have hnil : (LingmoWindow.Private.pidChangedCallback 0 4711 sampleTwoWindows).2 = [] := by
    decide
  rw [hnil] at hx
  exact List.not_mem_nil x hx

/-- C22 as amended: the pid listener of a window that exists stores the incoming pid, changes
no other member and no other object, and emits no signal, whether or not the pid differs from
the cached one. -/
theorem pidChanged_updates_the_pid_silently (s : Heap) (w : Nat) (p : LingmoWindow.Private)
    (pid : Nat) (h : s.window w = some p) :
    (LingmoWindow.Private.pidChangedCallback w pid s).1 = s.setWindow w { p with pid := pid } ∧
    LingmoWindow.pid (LingmoWindow.Private.pidChangedCallback w pid s).1 w = pid ∧
    (LingmoWindow.Private.pidChangedCallback w pid s).2 = [] := by
  have hlt := Heap.lt_of_window s w p h
  have hfst : (LingmoWindow.Private.pidChangedCallback w pid s).1 =
      s.setWindow w { p with pid := pid } := by
    simp only [LingmoWindow.Private.pidChangedCallback, h]
    split
    · rename_i heq
      subst heq
      exact (Heap.setWindow_same s w p h).symm
    · rfl
  refine ⟨hfst, ?_, ?_⟩
  · rw [hfst]
    simp only [LingmoWindow.pid, Heap.window_setWindow_self s w _ hlt]
  · simp only [LingmoWindow.Private.pidChangedCallback, h]
    split <;> rfl

/-- Witness of C22 as amended: the window `A` of `sampleTwoWindows` receives the pid 4711. -/
theorem pidChanged_updates_the_pid_silently_witness :
    sampleTwoWindows.window 0 = some sampleWindowA ∧
    (LingmoWindow.Private.pidChangedCallback 0 4711 sampleTwoWindows).1 =
      sampleTwoWindows.setWindow 0 { sampleWindowA with pid := 4711 } ∧
    LingmoWindow.pid (LingmoWindow.Private.pidChangedCallback 0 4711 sampleTwoWindows).1 0 =
      4711 ∧
    (LingmoWindow.Private.pidChangedCallback 0 4711 sampleTwoWindows).2 = [] :=
  ⟨rfl, pidChanged_updates_the_pid_silently sampleTwoWindows 0 sampleWindowA 4711 rfl⟩

/-- C23, the code at the failing input: the window `A` of `sampleWithMenu` receives an
application-menu event that carries the cached service name and the cached object path; the
heap stays as it is and `applicationMenuChanged` is emitted all the same. -/
theorem redundant_appmenu_event_emits_applicationMenuChanged :
    (LingmoWindow.Private.appmenuChangedCallback 0 "org.kde.kate" "/MenuBar/1"
        sampleWithMenu).1 = sampleWithMenu ∧
    (LingmoWindow.Private.appmenuChangedCallback 0 "org.kde.kate" "/MenuBar/1"
        sampleWithMenu).2 = [Signal.window 0 WindowSignal.applicationMenuChanged] := by
  decide

/-- C24, the code at the failing input: `createSurface` is called twice for a native surface
that has no `Surface` wrapper.  The second call returns a new shell surface (pointer 1, not
0), issues a second `get_surface` request and `s_surfaces` grows to two entries.  With a
wrapper registered for the native surface the second call returns the existing shell surface,
issues no request and leaves the heap as it is. -/
theorem createSurface_twice_without_wrapper :
    (sampleCreateTwice (fun _ => none)).map
        (fun r => ((r.1.1, r.1.2.1.s_surfaces, r.1.2.2), (r.2.1, r.2.2.1.s_surfaces, r.2.2.2))) =
      some
        ((0, [0], [Request.org_kde_lingmo_shell_get_surface { id := 2, version := 8 }
            { id := 20, version := 4 }]),
          (1, [0, 1], [Request.org_kde_lingmo_shell_get_surface { id := 2, version := 8 }
            { id := 20, version := 4 }])) ∧
    (sampleCreateTwice (fun _ => some 5)).map
        (fun r => ((r.1.1, r.1.2.1.s_surfaces, r.1.2.2), (r.2.1, r.2.2.1.s_surfaces, r.2.2.2),
          decide (r.2.2.1 = r.1.2.1))) =
      some
        ((0, [0], [Request.org_kde_lingmo_shell_get_surface { id := 2, version := 8 }
            { id := 20, version := 4 }]),
          (0, [0], []), true) :=
  ⟨rfl, rfl⟩

/-- C25, the code at the failing input: `destroy` on the window management `sampleSetUp`,
whose interface is valid and whose model `sampleModel` lists two windows.  The signal
`interfaceAboutToBeDestroyed` is emitted, the interface is gone, and the model still lists
the two windows, `rowCount()` being 2; `release` on the same input does reset the model. -/
theorem destroy_does_not_reset_the_model :
    (LingmoWindowManagement.destroy sampleSetUp sampleModel).signals =
      [InterfaceSignal.interfaceAboutToBeDestroyed] ∧
    (LingmoWindowManagement.destroy sampleSetUp sampleModel).heap.d.wm = none ∧
    (LingmoWindowManagement.destroy sampleSetUp sampleModel).model.windows = [1, 0] ∧
    LingmoWindowModel.rowCount (LingmoWindowManagement.destroy sampleSetUp sampleModel).model
      false = 2 ∧
    (LingmoWindowManagement.destroy sampleSetUp sampleModel).modelSignals = [] ∧
    (LingmoWindowManagement.release sampleSetUp sampleModel).model.windows = [] ∧
    LingmoWindowModel.rowCount (LingmoWindowManagement.release sampleSetUp sampleModel).model
      false = 0 := by
  decide

theorem QList.indexOf_ne_iff (l : List Nat) (x : Nat) : QList.indexOf l x ≠ -1 ↔ x ∈ l := by
  unfold QList.indexOf
  by_cases h : x ∈ l
  · simp only [h, if_true, iff_true]
    omega
  · simp [h]

theorem LingmoWindowModel.Private.addWindow_mem (w : Nat) (d : LingmoWindowModel.Private)
    (h : w ∈ d.windows) : d.addWindow w = (d, []) := by
  unfold LingmoWindowModel.Private.addWindow
  rw [if_pos ((QList.indexOf_ne_iff d.windows w).2 h)]

theorem LingmoWindowModel.Private.addWindow_not_mem (w : Nat) (d : LingmoWindowModel.Private)
    (h : w ∉ d.windows) :
    d.addWindow w =
      ({ d with windows := d.windows ++ [w] },
        [ModelSignal.rowsAboutToBeInserted d.windows.length d.windows.length,
          ModelSignal.rowsInserted d.windows.length d.windows.length]) := by
  unfold LingmoWindowModel.Private.addWindow
  rw [if_neg (fun hx => h ((QList.indexOf_ne_iff d.windows w).1 hx))]

theorem LingmoWindowModel.Private.removeWindow_not_mem (w : Nat)
    (d : LingmoWindowModel.Private) (h : w ∉ d.windows) : d.removeWindow w = (d, []) := by
  unfold LingmoWindowModel.Private.removeWindow
  simp only
  rw [if_neg (fun hx => h ((QList.indexOf_ne_iff d.windows w).1 hx))]

theorem LingmoWindowModel.Private.removeWindow_mem (w : Nat) (d : LingmoWindowModel.Private)
    (h : w ∈ d.windows) :
    d.removeWindow w =
      ({ d with windows := d.windows.erase w },
        [ModelSignal.rowsAboutToBeRemoved (d.windows.indexOf w) (d.windows.indexOf w),
          ModelSignal.rowsRemoved (d.windows.indexOf w) (d.windows.indexOf w)]) := by
  unfold LingmoWindowModel.Private.removeWindow
  simp only
  rw [if_pos ((QList.indexOf_ne_iff d.windows w).2 h)]
  have hrow : (QList.indexOf d.windows w).toNat = d.windows.indexOf w := by
    simp [QList.indexOf, h]
  rw [hrow, List.eraseIdx_indexOf_eq_erase]

theorem LingmoWindowModel.Call.run_nodup (c : LingmoWindowModel.Call)
    (d : LingmoWindowModel.Private) (h : d.windows.Nodup) : (c.run d).1.windows.Nodup := by
  cases c with
  | addWindow w =>
    by_cases hm : w ∈ d.windows
    · simp only [LingmoWindowModel.Call.run, LingmoWindowModel.Private.addWindow_mem w d hm]
      exact h
    · simp only [LingmoWindowModel.Call.run,
        LingmoWindowModel.Private.addWindow_not_mem w d hm]
      exact List.Nodup.append h (List.nodup_singleton w)
        (List.disjoint_singleton.2 hm)
  | removeWindow w =>
    by_cases hm : w ∈ d.windows
    · simp only [LingmoWindowModel.Call.run, LingmoWindowModel.Private.removeWindow_mem w d hm]
      exact List.Nodup.erase w h
    · simp only [LingmoWindowModel.Call.run,
        LingmoWindowModel.Private.removeWindow_not_mem w d hm]
      exact h
  | reset =>
    simp only [LingmoWindowModel.Call.run, LingmoWindowModel.reset]
    exact List.nodup_nil

theorem LingmoWindowModel.runCalls_nodup (cs : List LingmoWindowModel.Call)
    (d : LingmoWindowModel.Private) (h : d.windows.Nodup) :
    (LingmoWindowModel.runCalls cs d).1.windows.Nodup := by
  induction cs generalizing d with
  | nil => exact h
  | cons c cs ih =>
    simp only [LingmoWindowModel.runCalls]
    exact ih (c.run d).1 (LingmoWindowModel.Call.run_nodup c d h)

/-- C30: after the constructor of the model and any sequence of runs of `addWindow`, of the
removal lambda and of the reset, no window is listed twice.  `addWindow` of a listed window
changes nothing and announces nothing; `addWindow` of another window appends it and announces
the insertion of the one row at the end.  The removal of a window that is not listed changes
nothing and announces nothing; the removal of a listed window erases its row, the first that
holds it, announces the removal of that one row and keeps the other rows in order, and the
window is not listed afterwards when no window was listed twice. -/
theorem model_lists_no_window_twice (parentWindows : List Nat)
    (calls : List LingmoWindowModel.Call) (d : LingmoWindowModel.Private) (w : Nat) :
    (LingmoWindowModel.runCalls calls (LingmoWindowModel.new parentWindows).1).1.windows.Nodup ∧
    (w ∈ d.windows → d.addWindow w = (d, [])) ∧
    (w ∉ d.windows →
      d.addWindow w =
        ({ d with windows := d.windows ++ [w] },
          [ModelSignal.rowsAboutToBeInserted (LingmoWindowModel.rowCount d false)
              (LingmoWindowModel.rowCount d false),
            ModelSignal.rowsInserted (LingmoWindowModel.rowCount d false)
              (LingmoWindowModel.rowCount d false)])) ∧
    (w ∉ d.windows → d.removeWindow w = (d, [])) ∧
    (w ∈ d.windows →
      d.removeWindow w =
        ({ d with windows := d.windows.erase w },
          [ModelSignal.rowsAboutToBeRemoved (d.windows.indexOf w) (d.windows.indexOf w),
            ModelSignal.rowsRemoved (d.windows.indexOf w) (d.windows.indexOf w)]) ∧
      d.windows[d.windows.indexOf w]? = some w ∧
      List.Sublist (d.removeWindow w).1.windows d.windows ∧
      (d.removeWindow w).1.windows.length + 1 = d.windows.length ∧
      (d.windows.Nodup → (d.removeWindow w).1.windows = d.windows.filter (fun x => x != w))) := by
  refine ⟨?_, LingmoWindowModel.Private.addWindow_mem w d,
    LingmoWindowModel.Private.addWindow_not_mem w d,
    LingmoWindowModel.Private.removeWindow_not_mem w d, ?_⟩
  · apply LingmoWindowModel.runCalls_nodup
    exact LingmoWindowModel.runCalls_nodup _ _ List.nodup_nil
  · intro hm
    have hrm := LingmoWindowModel.Private.removeWindow_mem w d hm
    refine ⟨hrm, ?_, ?_, ?_, ?_⟩
    · have hlt : d.windows.indexOf w < d.windows.length := List.indexOf_lt_length.2 hm
      rw [List.getElem?_eq_getElem hlt]
      simp
    · rw [hrm]
      exact List.erase_sublist w d.windows
    · rw [hrm]
      simp only [List.length_erase_of_mem hm]
      have hpos : 0 < d.windows.length := List.length_pos_of_mem hm
      omega
    · intro hnd
      rw [hrm]
      exact List.Nodup.erase_eq_filter hnd w

/-- Witness of C30: the model of the parent windows 4, 5, 4, to which the window 5 is added
again, the window 6 is added and the window 4 is removed twice. -/
theorem model_lists_no_window_twice_witness :
    ((LingmoWindowModel.new [4, 5, 4]).1.windows = [4, 5] ∧
      (5 : Nat) ∈ (LingmoWindowModel.new [4, 5, 4]).1.windows ∧
      (6 : Nat) ∉ (LingmoWindowModel.new [4, 5, 4]).1.windows ∧
      (LingmoWindowModel.runCalls
          [LingmoWindowModel.Call.addWindow 5, LingmoWindowModel.Call.addWindow 6,
            LingmoWindowModel.Call.removeWindow 4, LingmoWindowModel.Call.removeWindow 4]
          (LingmoWindowModel.new [4, 5, 4]).1).1.windows = [5, 6]) ∧
    (LingmoWindowModel.runCalls
        [LingmoWindowModel.Call.addWindow 5, LingmoWindowModel.Call.addWindow 6,
          LingmoWindowModel.Call.removeWindow 4, LingmoWindowModel.Call.removeWindow 4]
        (LingmoWindowModel.new [4, 5, 4]).1).1.windows.Nodup ∧
    (LingmoWindowModel.new [4, 5, 4]).1.addWindow 5 = ((LingmoWindowModel.new [4, 5, 4]).1, []) ∧
    (LingmoWindowModel.new [4, 5, 4]).1.addWindow 6 =
      ({ windows := [4, 5, 6] },
        [ModelSignal.rowsAboutToBeInserted 2 2, ModelSignal.rowsInserted 2 2]) ∧
    (LingmoWindowModel.new [4, 5, 4]).1.removeWindow 6 =
      ((LingmoWindowModel.new [4, 5, 4]).1, []) ∧
    (LingmoWindowModel.new [4, 5, 4]).1.removeWindow 5 =
      ({ windows := [4] },
        [ModelSignal.rowsAboutToBeRemoved 1 1, ModelSignal.rowsRemoved 1 1]) :=
  ⟨⟨by decide, by decide, by decide, by decide⟩,
    (model_lists_no_window_twice [4, 5, 4]
      [LingmoWindowModel.Call.addWindow 5, LingmoWindowModel.Call.addWindow 6,
        LingmoWindowModel.Call.removeWindow 4, LingmoWindowModel.Call.removeWindow 4]
      (LingmoWindowModel.new [4, 5, 4]).1 5).1,
    (model_lists_no_window_twice [] [] (LingmoWindowModel.new [4, 5, 4]).1 5).2.1 (by decide),
    (model_lists_no_window_twice [] [] (LingmoWindowModel.new [4, 5, 4]).1 6).2.2.1
      (by decide),
    (model_lists_no_window_twice [] [] (LingmoWindowModel.new [4, 5, 4]).1 6).2.2.2.1
      (by decide),
    ((model_lists_no_window_twice [] [] (LingmoWindowModel.new [4, 5, 4]).1 5).2.2.2.2
      (by decide)).1⟩

set_option maxRecDepth 100000 in
/-- C26, the claim at a concrete input: after the events `sampleUnmapping` the window `A`
exists, its `unmapped` flag is set, and `requestClose` on it issues a `close` request. -/
theorem request_after_unmapped_counterexample :
    (run Protocol.sample Heap.initial sampleUnmapping).map
        (fun r => ((r.1.window 0).map (fun p => p.unmapped),
          (LingmoWindow.requestClose 0 r.1).requests)) =
      some (some true, [Request.org_kde_lingmo_window_close (some { id := 7, version := 16 })]) := by
  decide

/-- C26 as amended: a window that exists issues its requests whether its `unmapped` flag is
set or not.  Each request operation issues exactly one protocol request, the same one for
both values of the flag, leaves the heap as it is and emits nothing. -/
theorem unmapped_window_still_issues_requests (B : StateEnum) (q : WindowRequest) (s : Heap)
    (w : Nat) (p : LingmoWindow.Private) (h : s.window w = some p) :
    ∃ r : Request, ∀ u : Bool,
      q.call B w (s.setWindow w { p with unmapped := u }) =
        { heap := s.setWindow w { p with unmapped := u }, signals := [], requests := [r] } := by
  have hlt := Heap.lt_of_window s w p h
  have h2 : ∀ u : Bool, (s.setWindow w { p with unmapped := u }).window w =
      some { p with unmapped := u } :=
    fun u => Heap.window_setWindow_self s w { p with unmapped := u } hlt
  cases q with
  | requestToggle t =>
    cases t <;>
      simp only [WindowRequest.call, Toggle.request, LingmoWindow.requestToggleKeepAbove,
        LingmoWindow.requestToggleKeepBelow, LingmoWindow.requestToggleMinimized,
        LingmoWindow.requestToggleMaximized, LingmoWindow.requestToggleFullscreen,
        LingmoWindow.requestToggleShaded, h2] <;>
      split <;> exact ⟨_, fun _ => rfl⟩
  | _ =>
    simp only [WindowRequest.call, LingmoWindow.requestActivate, LingmoWindow.requestClose,
      LingmoWindow.requestMove, LingmoWindow.requestResize,
      LingmoWindow.requestEnterVirtualDesktop, LingmoWindow.requestLeaveVirtualDesktop,
      LingmoWindow.requestEnterActivity, LingmoWindow.requestLeaveActivity, h2]
    exact ⟨_, fun _ => rfl⟩

/-- Witness of C26 as amended: the requests of the window `A` of `sampleTwoWindows`;
`requestClose` is also evaluated with the flag set. -/
theorem unmapped_window_still_issues_requests_witness :
    sampleTwoWindows.window 0 = some sampleWindowA ∧
    (∃ r : Request, ∀ u : Bool,
      WindowRequest.requestClose.call StateEnum.sample 0
          (sampleTwoWindows.setWindow 0 { sampleWindowA with unmapped := u }) =
        { heap := sampleTwoWindows.setWindow 0 { sampleWindowA with unmapped := u },
          signals := [], requests := [r] }) ∧
    (WindowRequest.requestClose.call StateEnum.sample 0
        (sampleTwoWindows.setWindow 0 { sampleWindowA with unmapped := true })).requests =
      [Request.org_kde_lingmo_window_close (some { id := 7, version := 16 })] :=
  ⟨rfl,
    unmapped_window_still_issues_requests StateEnum.sample WindowRequest.requestClose
      sampleTwoWindows 0 sampleWindowA rfl,
    by decide⟩

/-- C27, the claim at a concrete input: the window `A` of `sampleTwoWindows`, whose
memberships are empty, receives `virtualDesktopEntered("d")` twice and `activityEntered("a")`
twice; both lists then hold their id twice. -/
theorem entering_twice_lists_the_id_twice_counterexample :
    LingmoWindow.lingmoVirtualDesktops sampleTwoWindows 0 = [] ∧
    LingmoWindow.lingmoActivities sampleTwoWindows 0 = [] ∧
    LingmoWindow.lingmoVirtualDesktops
        (MembershipEvent.deliver 0
          [MembershipEvent.virtualDesktopEntered "d", MembershipEvent.virtualDesktopEntered "d",
            MembershipEvent.activityEntered "a", MembershipEvent.activityEntered "a"]
          sampleTwoWindows).1 0 = ["d", "d"] ∧
    LingmoWindow.lingmoActivities
        (MembershipEvent.deliver 0
          [MembershipEvent.virtualDesktopEntered "d", MembershipEvent.virtualDesktopEntered "d",
            MembershipEvent.activityEntered "a", MembershipEvent.activityEntered "a"]
          sampleTwoWindows).1 0 = ["a", "a"] ∧
    ¬(LingmoWindow.lingmoVirtualDesktops
        (MembershipEvent.deliver 0
          [MembershipEvent.virtualDesktopEntered "d", MembershipEvent.virtualDesktopEntered "d",
            MembershipEvent.activityEntered "a", MembershipEvent.activityEntered "a"]
          sampleTwoWindows).1 0).Nodup := by
  decide

theorem MembershipEvent.callback_lists (e : MembershipEvent) (w : Nat) (s : Heap)
    (p : LingmoWindow.Private) (h : s.window w = some p) :
    ∃ q : LingmoWindow.Private, (e.callback w s).1.window w = some q ∧
      q.lingmoVirtualDesktops =
        (match e with
          | MembershipEvent.virtualDesktopEntered id => p.lingmoVirtualDesktops ++ [id]
          | MembershipEvent.virtualDesktopLeft id =>
            p.lingmoVirtualDesktops.filter (fun x => x != id)
          | _ => p.lingmoVirtualDesktops) ∧
      q.lingmoActivities =
        (match e with
          | MembershipEvent.activityEntered id => p.lingmoActivities ++ [id]
          | MembershipEvent.activityLeft id => p.lingmoActivities.filter (fun x => x != id)
          | _ => p.lingmoActivities) := by
  have hlt := Heap.lt_of_window s w p h
  cases e with
  | virtualDesktopEntered id =>
    simp only [MembershipEvent.callback,
      LingmoWindow.Private.virtualDesktopEnteredCallback_eq w id s p h]
    exact ⟨_, Heap.window_setWindow_self s w _ hlt, rfl, rfl⟩
  | virtualDesktopLeft id =>
    simp only [MembershipEvent.callback,
      LingmoWindow.Private.virtualDesktopLeftCallback_eq w id s p h]
    exact ⟨_, Heap.window_setWindow_self s w _ hlt, rfl, rfl⟩
  | activityEntered id =>
    simp only [MembershipEvent.callback, LingmoWindow.Private.activityEnteredCallback, h,
      LingmoWindow.emit]
    exact ⟨_, Heap.window_setWindow_self s w _ hlt, rfl, rfl⟩
  | activityLeft id =>
    simp only [MembershipEvent.callback, LingmoWindow.Private.activityLeftCallback, h,
      LingmoWindow.emit]
    exact ⟨_, Heap.window_setWindow_self s w _ hlt, rfl, rfl⟩

theorem MembershipEvent.deliver_nodup (evs : List MembershipEvent) (w : Nat) (s : Heap)
    (p : LingmoWindow.Private) (h : s.window w = some p)
    (hd : p.lingmoVirtualDesktops.Nodup) (ha : p.lingmoActivities.Nodup)
    (hf : MembershipEvent.entersFresh p.lingmoVirtualDesktops p.lingmoActivities evs = true) :
    (LingmoWindow.lingmoVirtualDesktops (MembershipEvent.deliver w evs s).1 w).Nodup ∧
    (LingmoWindow.lingmoActivities (MembershipEvent.deliver w evs s).1 w).Nodup := by
  induction evs generalizing s p with
  | nil =>
    simp only [MembershipEvent.deliver, List.map_nil, runAll,
      LingmoWindow.lingmoVirtualDesktops, LingmoWindow.lingmoActivities, h]
    exact ⟨hd, ha⟩
  | cons e es ih =>
    obtain ⟨q, hq, hqd, hqa⟩ := MembershipEvent.callback_lists e w s p h
    have hstep : (MembershipEvent.deliver w (e :: es) s).1 =
        (MembershipEvent.deliver w es (e.callback w s).1).1 := rfl
    rw [hstep]
    cases e with
    | virtualDesktopEntered id =>
      simp only [MembershipEvent.entersFresh, Bool.and_eq_true, decide_eq_true_eq] at hf
      simp only at hqd hqa
      apply ih _ q hq
      · rw [hqd]
        exact List.Nodup.append hd (List.nodup_singleton id) (List.disjoint_singleton.2 hf.1)
      · rw [hqa]; exact ha
      · rw [hqd, hqa]; exact hf.2
    | virtualDesktopLeft id =>
      simp only [MembershipEvent.entersFresh] at hf
      simp only at hqd hqa
      apply ih _ q hq
      · rw [hqd]; exact List.Nodup.filter _ hd
      · rw [hqa]; exact ha
      · rw [hqd, hqa]; exact hf
    | activityEntered id =>
      simp only [MembershipEvent.entersFresh, Bool.and_eq_true, decide_eq_true_eq] at hf
      simp only at hqd hqa
      apply ih _ q hq
      · rw [hqd]; exact hd
      · rw [hqa]
        exact List.Nodup.append ha (List.nodup_singleton id) (List.disjoint_singleton.2 hf.1)
      · rw [hqd, hqa]; exact hf.2
    | activityLeft id =>
      simp only [MembershipEvent.entersFresh] at hf
      simp only at hqd hqa
      apply ih _ q hq
      · rw [hqd]; exact hd
      · rw [hqa]; exact List.Nodup.filter _ ha
      · rw [hqd, hqa]; exact hf

theorem MembershipEvent.entersFresh_prefix (pre post : List MembershipEvent)
    (desktops activities : QStringList)
    (hf : MembershipEvent.entersFresh desktops activities (pre ++ post) = true) :
    MembershipEvent.entersFresh desktops activities pre = true := by
  induction pre generalizing desktops activities with
  | nil => rfl
  | cons e es ih =>
    cases e <;>
      simp only [List.cons_append, MembershipEvent.entersFresh, Bool.and_eq_true] at hf ⊢
    · exact ⟨hf.1, ih _ _ hf.2⟩
    · exact ih _ _ hf
    · exact ⟨hf.1, ih _ _ hf.2⟩
    · exact ih _ _ hf

/-- C27 as amended: the memberships are lists, `entered` appends the id without looking for
it and `left` removes every occurrence of the id.  For a window whose two memberships are
empty and every sequence of the four events in which no `entered` event names an id that is
in its list at that moment, after every prefix of the sequence neither
`lingmoVirtualDesktops()` nor `lingmoActivities()` holds an id twice. -/
theorem memberships_hold_no_id_twice_when_entered_fresh (s : Heap) (w : Nat)
    (p : LingmoWindow.Private) (pre post : List MembershipEvent)
    (h : s.window w = some p) (hd : p.lingmoVirtualDesktops = [])
    (ha : p.lingmoActivities = [])
    (hf : MembershipEvent.entersFresh [] [] (pre ++ post) = true) :
    (LingmoWindow.lingmoVirtualDesktops (MembershipEvent.deliver w pre s).1 w).Nodup ∧
    (LingmoWindow.lingmoActivities (MembershipEvent.deliver w pre s).1 w).Nodup := by
  apply MembershipEvent.deliver_nodup pre w s p h
  · rw [hd]; exact List.nodup_nil
  · rw [ha]; exact List.nodup_nil
  · rw [hd, ha]
    exact MembershipEvent.entersFresh_prefix pre post [] [] hf

/-- Witness of C27 as amended: the window `A` of `sampleTwoWindows` enters the desktops
`"d"` and `"e"`, leaves `"d"`, enters `"d"` again and enters the activity `"a"`. -/
theorem memberships_hold_no_id_twice_when_entered_fresh_witness :
    LingmoWindow.lingmoVirtualDesktops
        (MembershipEvent.deliver 0
          [MembershipEvent.virtualDesktopEntered "d", MembershipEvent.virtualDesktopEntered "e",
            MembershipEvent.virtualDesktopLeft "d", MembershipEvent.virtualDesktopEntered "d",
            MembershipEvent.activityEntered "a"]
          sampleTwoWindows).1 0 = ["e", "d"] ∧
    (LingmoWindow.lingmoVirtualDesktops
        (MembershipEvent.deliver 0
          [MembershipEvent.virtualDesktopEntered "d", MembershipEvent.virtualDesktopEntered "e",
            MembershipEvent.virtualDesktopLeft "d", MembershipEvent.virtualDesktopEntered "d",
            MembershipEvent.activityEntered "a"]
          sampleTwoWindows).1 0).Nodup ∧
    (LingmoWindow.lingmoActivities
        (MembershipEvent.deliver 0
          [MembershipEvent.virtualDesktopEntered "d", MembershipEvent.virtualDesktopEntered "e",
            MembershipEvent.virtualDesktopLeft "d", MembershipEvent.virtualDesktopEntered "d",
            MembershipEvent.activityEntered "a"]
          sampleTwoWindows).1 0).Nodup :=
  ⟨by decide,
    memberships_hold_no_id_twice_when_entered_fresh sampleTwoWindows 0 sampleWindowA
      [MembershipEvent.virtualDesktopEntered "d", MembershipEvent.virtualDesktopEntered "e",
        MembershipEvent.virtualDesktopLeft "d", MembershipEvent.virtualDesktopEntered "d",
        MembershipEvent.activityEntered "a"] [] rfl rfl rfl (by decide)⟩

theorem splitChars_ne_nil (sep : Char) (l : List Char) : splitChars sep l ≠ [] := by
  cases l with
  | nil => simp [splitChars]
  | cons c cs =>
    unfold splitChars
    split
    · simp
    · split <;> simp

theorem splitChars_cons_ne (sep c : Char) (cs : List Char) (h : c ≠ sep) :
    ∃ x xs, splitChars sep cs = x :: xs ∧ splitChars sep (c :: cs) = (c :: x) :: xs := by
  cases hs : splitChars sep cs with
  | nil => exact absurd hs (splitChars_ne_nil sep cs)
  | cons x xs =>
    refine ⟨x, xs, rfl, ?_⟩
    rw [splitChars, if_neg h, hs]

theorem splitChars_length (sep : Char) (l : List Char) :
    (splitChars sep l).length = 1 + l.count sep := by
  induction l with
  | nil => simp [splitChars]
  | cons c cs ih =>
    by_cases h : c = sep
    · subst h
      rw [splitChars, if_pos rfl, List.length_cons, ih, List.count_cons_self]
      omega
    · obtain ⟨x, xs, hs, hc⟩ := splitChars_cons_ne sep c cs h
      have hcount : List.count sep (c :: cs) = List.count sep cs := by
        simp [List.count_cons, h]
      rw [hc, List.length_cons, hcount, ← ih, hs, List.length_cons]

theorem splitChars_no_sep (sep : Char) (l : List Char) :
    ∀ x ∈ splitChars sep l, sep ∉ x := by
  induction l with
  | nil =>
    intro x hx
    simp only [splitChars, List.mem_singleton] at hx
    subst hx
    exact List.not_mem_nil sep
  | cons c cs ih =>
    intro x hx
    by_cases h : c = sep
    · subst h
      rw [splitChars, if_pos rfl, List.mem_cons] at hx
      rcases hx with hx | hx
      · subst hx
        exact List.not_mem_nil c
      · exact ih x hx
    · obtain ⟨y, ys, hs, hc⟩ := splitChars_cons_ne sep c cs h
      rw [hc, List.mem_cons] at hx
      rcases hx with hx | hx
      · subst hx
        intro hmem
        rcases List.mem_cons.1 hmem with e | e
        · exact h e.symm
        · exact ih y (by rw [hs]; exact List.mem_cons_self y ys) e
      · exact ih x (by rw [hs]; exact List.mem_cons_of_mem y hx)

theorem intercalate_cons_cons (sep : List Char) (c : Char) (x : List Char)
    (xs : List (List Char)) :
    List.intercalate sep ((c :: x) :: xs) = c :: List.intercalate sep (x :: xs) := by
  cases xs with
  | nil => simp [List.intercalate, List.intersperse]
  | cons y ys => simp [List.intercalate, List.intersperse]

theorem intercalate_nil_cons (sep : Char) (xs : List (List Char)) (h : xs ≠ []) :
    List.intercalate [sep] ([] :: xs) = sep :: List.intercalate [sep] xs := by
  cases xs with
  | nil => exact absurd rfl h
  | cons y ys => simp [List.intercalate, List.intersperse]

theorem splitChars_intercalate (sep : Char) (l : List Char) :
    List.intercalate [sep] (splitChars sep l) = l := by
  induction l with
  | nil => simp [splitChars, List.intercalate, List.intersperse]
  | cons c cs ih =>
    by_cases h : c = sep
    · subst h
      rw [splitChars, if_pos rfl, intercalate_nil_cons c _ (splitChars_ne_nil c cs), ih]
    · obtain ⟨x, xs, hs, hc⟩ := splitChars_cons_ne sep c cs h
      rw [hc, intercalate_cons_cons, ← hs, ih]

/-- C28: the legacy stacking-order-uuids event publishes the byte string split at every
`;`.  The published list has one entry more than the string has `;`, no entry holds a `;`,
and joining the entries with `;` gives the string back; the empty string publishes the list
whose one entry is the empty uuid.  `stackingOrderUuidsChanged` is emitted once when that list
differs from the list published before and not at all when it equals it; nothing else
changes. -/
theorem stackingOrderUuids_is_the_split_of_the_event (uuids : QByteArray) (s : Heap) :
    LingmoWindowManagement.stackingOrderUuids
        (LingmoWindowManagement.Private.stackingOrderUuidsCallback uuids s).1 =
      QByteArray.split uuids ';' ∧
    (LingmoWindowManagement.Private.stackingOrderUuidsCallback uuids s).1 =
      { s with d := { s.d with stackingOrderUuids := QByteArray.split uuids ';' } } ∧
    (QByteArray.split uuids ';').length = 1 + uuids.toList.count ';' ∧
    (∀ x ∈ QByteArray.split uuids ';', ';' ∉ x.toList) ∧
    QByteArrayList.join (QByteArray.split uuids ';') ';' = uuids ∧
    QByteArray.split "" ';' = [""] ∧
    (LingmoWindowManagement.Private.stackingOrderUuidsCallback uuids s).2 =
      (if QByteArray.split uuids ';' = LingmoWindowManagement.stackingOrderUuids s then []
       else [Signal.stackingOrderUuidsChanged]) := by
  have hcb : LingmoWindowManagement.Private.stackingOrderUuidsCallback uuids s =
      (if QByteArray.split uuids ';' = LingmoWindowManagement.stackingOrderUuids s then (s, [])
       else ({ s with d := { s.d with stackingOrderUuids := QByteArray.split uuids ';' } },
          [Signal.stackingOrderUuidsChanged])) := by
    simp only [LingmoWindowManagement.Private.stackingOrderUuidsCallback,
      LingmoWindowManagement.Private.setStackingOrder,
      LingmoWindowManagement.stackingOrderUuids]
    by_cases he : s.d.stackingOrderUuids = QByteArray.split uuids ';'
    · rw [if_pos he, if_pos he.symm]
    · rw [if_neg he, if_neg (fun e => he e.symm)]
  refine ⟨?_, ?_, ?_, ?_, ?_, ?_, ?_⟩
  · rw [hcb]
    split
    · rename_i he
      exact he.symm
    · rfl
  · rw [hcb]
    split
    · rename_i he
      have he2 : s.d.stackingOrderUuids = QByteArray.split uuids ';' := he.symm
      rw [← he2]
    · rfl
  · simp only [QByteArray.split, List.length_map]
    exact splitChars_length ';' uuids.toList
  · intro x hx
    simp only [QByteArray.split, List.mem_map] at hx
    obtain ⟨y, hy, hxy⟩ := hx
    subst hxy
    exact splitChars_no_sep ';' uuids.toList y hy
  · simp only [QByteArrayList.join, QByteArray.split, List.map_map]
    have hid : (String.toList ∘ String.mk) = (id : List Char → List Char) := by
      funext y
      rfl
    rw [hid, List.map_id, splitChars_intercalate]
    rfl
  · rfl
  · rw [hcb]
    split <;> rfl

/-- Witness of C28: the string `"a;b;;c"` on the initial heap, with two of the entries
checked for the separator. -/
theorem stackingOrderUuids_is_the_split_of_the_event_witness :
    QByteArray.split "a;b;;c" ';' = ["a", "b", "", "c"] ∧
    (LingmoWindowManagement.Private.stackingOrderUuidsCallback "a;b;;c" Heap.initial).2 =
      [Signal.stackingOrderUuidsChanged] ∧
    (LingmoWindowManagement.Private.stackingOrderUuidsCallback "" Heap.initial).1.d.stackingOrderUuids
      = [""] ∧
    ';' ∉ ("b" : String).toList ∧ ';' ∉ ("" : String).toList :=
  ⟨by decide, by decide, by decide,
    (stackingOrderUuids_is_the_split_of_the_event "a;b;;c" Heap.initial).2.2.2.1 "b"
      (by decide),
    (stackingOrderUuids_is_the_split_of_the_event "a;b;;c" Heap.initial).2.2.2.1 ""
      (by decide)⟩

theorem VirtualDesktopEvent.handle_rows_pos (e : VirtualDesktopEvent)
    (d : LingmoVirtualDesktopManagement.Private) (h : 1 ≤ d.rows) : 1 ≤ (e.handle d).1.rows := by
  cases e with
  | rows n =>
    simp only [VirtualDesktopEvent.handle, LingmoVirtualDesktopManagement.Private.rowsCallback]
    split
    · exact h
    · show 1 ≤ n
      omega
  | done => exact h

theorem VirtualDesktopEvent.handleAll_rows_pos (es : List VirtualDesktopEvent)
    (d : LingmoVirtualDesktopManagement.Private) (h : 1 ≤ d.rows) :
    1 ≤ (VirtualDesktopEvent.handleAll es d).1.rows := by
  induction es generalizing d with
  | nil => exact h
  | cons e es ih =>
    simp only [VirtualDesktopEvent.handleAll]
    exact ih (e.handle d).1 (VirtualDesktopEvent.handle_rows_pos e d h)

/-- C29: `rows()` of a newly constructed management object is 1; a rows event with the
value 0 leaves the state as it is and emits nothing; a rows event with a value `n > 0` sets
`rows()` to `n`, changes nothing else and emits `rowsChanged(n)`, also when `n` is the current
value; and after the setup and any sequence of events `rows()` is at least 1. -/
theorem rows_is_at_least_one (arg : WlProxy) (es : List VirtualDesktopEvent)
    (d : LingmoVirtualDesktopManagement.Private) (n : Nat) :
    LingmoVirtualDesktopManagement.rows LingmoVirtualDesktopManagement.Private.new = 1 ∧
    d.rowsCallback 0 = (d, []) ∧
    (0 < n →
      d.rowsCallback n = ({ d with rows := n }, [VirtualDesktopSignal.rowsChanged n]) ∧
      LingmoVirtualDesktopManagement.rows (d.rowsCallback n).1 = n) ∧
    (0 < d.rows →
      d.rowsCallback d.rows = (d, [VirtualDesktopSignal.rowsChanged d.rows])) ∧
    ∃ d0, LingmoVirtualDesktopManagement.Private.new.setup arg = some d0 ∧
      1 ≤ LingmoVirtualDesktopManagement.rows (VirtualDesktopEvent.handleAll es d0).1 := by
  refine ⟨rfl, rfl, ?_, ?_, ?_⟩
  · intro hn
    have hne : n ≠ 0 := by omega
    simp only [LingmoVirtualDesktopManagement.Private.rowsCallback, if_neg hne,
      LingmoVirtualDesktopManagement.rows, and_self]
  · intro hn
    have hne : d.rows ≠ 0 := by omega
    simp only [LingmoVirtualDesktopManagement.Private.rowsCallback, if_neg hne]
  · refine ⟨_, rfl, ?_⟩
    apply VirtualDesktopEvent.handleAll_rows_pos
    exact Nat.le_refl 1

/-- Witness of C29: the events rows(3), rows(0), done, rows(2) after the setup, and a rows
event with the value 3 on the state that has 3 rows. -/
theorem rows_is_at_least_one_witness :
    (LingmoVirtualDesktopManagement.rows
        (VirtualDesktopEvent.handleAll
          [VirtualDesktopEvent.rows 3, VirtualDesktopEvent.rows 0, VirtualDesktopEvent.done,
            VirtualDesktopEvent.rows 2]
          { lingmovirtualdesktopmanagement := some { id := 4, version := 2 } }).1 = 2 ∧
      (VirtualDesktopEvent.handleAll
          [VirtualDesktopEvent.rows 3, VirtualDesktopEvent.rows 0, VirtualDesktopEvent.done,
            VirtualDesktopEvent.rows 2]
          { lingmovirtualdesktopmanagement := some { id := 4, version := 2 } }).2 =
        [VirtualDesktopSignal.rowsChanged 3, VirtualDesktopSignal.done,
          VirtualDesktopSignal.rowsChanged 2]) ∧
    (({ rows := 3 } : LingmoVirtualDesktopManagement.Private).rowsCallback 3 =
        ({ rows := 3 }, [VirtualDesktopSignal.rowsChanged 3]) ∧
      LingmoVirtualDesktopManagement.rows
        (({ rows := 3 } : LingmoVirtualDesktopManagement.Private).rowsCallback 3).1 = 3) ∧
    (({ rows := 3 } : LingmoVirtualDesktopManagement.Private).rowsCallback
        ({ rows := 3 } : LingmoVirtualDesktopManagement.Private).rows =
      ({ rows := 3 }, [VirtualDesktopSignal.rowsChanged 3])) :=
  ⟨⟨by decide, by decide⟩,
    (rows_is_at_least_one { id := 4, version := 2 } [] { rows := 3 } 3).2.2.1 (by decide),
    (rows_is_at_least_one { id := 4, version := 2 } [] { rows := 3 } 3).2.2.2.1 (by decide)⟩

end KWayland.Client
